import Mathlib

/-!
# The stdio block driver of the HDF5 low-level file layer (`src/H5Fstdio.c`)

A shallow embedding of `H5F_stdio_open`, `H5F_stdio_close`, `H5F_stdio_read`,
`H5F_stdio_write` and `H5F_stdio_flush`, over an explicit model of the C stdio
stream the driver talks to, followed by the properties of the driver.

Conventions.
* Unsigned C integers are natural numbers; where the C arithmetic can wrap the
  reduction modulo `2 ^ w` is written out.
* Memory buffers (`uint8 *buf`) are functions from byte index to byte, so that
  `buf + k` is index `k`; a file's contents are a list of bytes.
* The stdio stream carries a script of future faults, one entry consumed by
  every fallible call, and a log of the calls made on it.  Quantifying over
  all streams therefore quantifies over every pattern of medium failures.
-/

set_option autoImplicit false

namespace H5Fstdio

/-! ## Platform constants -/

/-- A byte. -/
abbrev uint8 := Fin 256

/-- A caller's memory buffer, addressed by byte index. -/
abbrev Buffer := Nat → uint8

/-- Compile-time constants that `H5Fstdio.c` takes from headers and from the
configuration: the seek optimisation switch `H5F_OPT_SEEK`, the width in bits
of the local variable `offset` (`int64` under `HAVE_FSEEK64`, otherwise
`long`), the width in bits of `size_t`, and the four access flag bits. -/
structure Platform where
  H5F_OPT_SEEK : Bool
  offBits : Nat
  sizeBits : Nat
  H5F_ACC_RDWR : Nat
  H5F_ACC_TRUNC : Nat
  H5F_ACC_EXCL : Nat
  H5F_ACC_CREAT : Nat
  deriving Repr

/-- An LP64 build with the seek optimisation on and the flag values of the
public header. -/
def lp64 : Platform :=
  { H5F_OPT_SEEK := true, offBits := 64, sizeBits := 64,
    H5F_ACC_RDWR := 1, H5F_ACC_TRUNC := 2, H5F_ACC_EXCL := 4, H5F_ACC_CREAT := 16 }

/-- A 32-bit build that has `fseek64`: offsets are `int64`, `size_t` has 32
bits. -/
def ilp32_fseek64 : Platform :=
  { H5F_OPT_SEEK := true, offBits := 64, sizeBits := 32,
    H5F_ACC_RDWR := 1, H5F_ACC_TRUNC := 2, H5F_ACC_EXCL := 4, H5F_ACC_CREAT := 16 }

/-- The test `flags & bit` of C, as a proposition. -/
def flagSet (flags bit : Nat) : Prop := Nat.land flags bit ≠ 0

instance (flags bit : Nat) : Decidable (flagSet flags bit) := by
  unfold flagSet; infer_instance

/-! ## The stdio stream -/

/-- The calls the driver makes on a stream, as recorded in the stream's log. -/
inductive MediumCall where
  | fseek_set (offset : Nat)
  | fseek_end
  | ftell
  | fread (count : Nat)
  | fwrite (count : Nat)
  | fflush
  | fclose
  deriving DecidableEq, Repr

/-- A stdio stream (`FILE`).  `data` is the contents of the file as seen
through the stream, `pos` the file position, `err` the sticky error indicator
read by `ferror`, `writable` whether the stream was opened for update.
`faults` is the script of the medium: each fallible call removes the head;
`none` (or an exhausted script) lets the call run normally, `some k` makes it
fail, a transfer call failing after `k` bytes.  `calls` logs the calls. -/
structure FILE where
  data : List uint8
  pos : Nat
  err : Bool
  writable : Bool
  faults : List (Option Nat)
  calls : List MediumCall
  deriving DecidableEq, Repr

/-- The head of a fault script; an exhausted script holds no fault. -/
def scriptHead : List (Option Nat) → Option Nat
  | [] => none
  | x :: _ => x

/-- The fault the next fallible call will meet. -/
def FILE.nextFault (f : FILE) : Option Nat := scriptHead f.faults

/-- The stream after one fallible call `c` has consumed its script entry. -/
def FILE.step (f : FILE) (c : MediumCall) : FILE :=
  { f with faults := f.faults.tail, calls := f.calls ++ [c] }

/-- C `fseek(f, offset, SEEK_SET)`: `0` and the position moved, or `-1` and
the position left where it was. -/
def fseek (f : FILE) (offset : Nat) : Int × FILE :=
  match f.nextFault with
  | none => (0, { f.step (.fseek_set offset) with pos := offset })
  | some _ => (-1, f.step (.fseek_set offset))

/-- C `fseek(f, 0, SEEK_END)`. -/
def fseek_end (f : FILE) : Int × FILE :=
  match f.nextFault with
  | none => (0, { f.step .fseek_end with pos := f.data.length })
  | some _ => (-1, f.step .fseek_end)

/-- C `ftell(f)`; the driver asserts that it does not fail, and it consumes
no script entry. -/
def ftell (f : FILE) : Nat × FILE :=
  (f.pos, { f with calls := f.calls ++ [.ftell] })

/-- C `ferror(f)`. -/
def ferror (f : FILE) : Bool := f.err

/-- The bytes a fault-free `fread` of `size` bytes would deliver. -/
def FILE.avail (f : FILE) (size : Nat) : List uint8 := (f.data.drop f.pos).take size

/-- C `fread(buf, 1, size, f)`: the number of bytes delivered, the buffer and
the stream afterwards.  Without a fault it delivers the bytes from the file
position up to `size` or the physical end of file; under the fault `some k` at
most `k` of them arrive and the error indicator is raised.  The position
advances by the number of bytes delivered. -/
def fread (f : FILE) (buf : Buffer) (size : Nat) : Nat × Buffer × FILE :=
  let got : List uint8 :=
    match f.nextFault with
    | none => f.avail size
    | some k => (f.avail size).take k
  let n := got.length
  (n, fun i => if i < n then got.getD i 0 else buf i,
   { f.step (.fread size) with pos := f.pos + n, err := f.err || f.nextFault.isSome })

/-- The file contents after `bytes` have been stored at position `pos`; a gap
between the old end of file and `pos` reads as zeros. -/
def storeAt (data : List uint8) (pos : Nat) (bytes : List uint8) : List uint8 :=
  if bytes = [] then data
  else (data ++ List.replicate (pos - data.length) 0).take pos ++ bytes
        ++ data.drop (pos + bytes.length)

/-- The number of bytes an `fwrite` of `size` bytes gets through: none on a
read-only stream, at most `k` under the fault `some k`. -/
def FILE.accepts (f : FILE) (size : Nat) : Nat :=
  if f.writable then
    match f.nextFault with
    | none => size
    | some k => min k size
  else 0

/-- C `fwrite(buf, 1, size, f)`: the number of bytes written and the stream
afterwards.  A failure raises the error indicator. -/
def fwrite (f : FILE) (buf : Buffer) (size : Nat) : Nat × FILE :=
  let n := f.accepts size
  (n, { f.step (.fwrite size) with
          data := storeAt f.data f.pos ((List.range n).map buf),
          pos := f.pos + n,
          err := f.err || !f.writable || f.nextFault.isSome })

/-- C `fflush(f)`. -/
def fflush (f : FILE) : Int × FILE :=
  match f.nextFault with
  | none => (0, f.step .fflush)
  | some _ => (-1, { f.step .fflush with err := true })

/-- C `fclose(f)`. -/
def fclose (f : FILE) : Int × FILE :=
  match f.nextFault with
  | none => (0, f.step .fclose)
  | some _ => (-1, f.step .fclose)

/-- The total number of bytes requested from the medium by the `fread` calls
of a log. -/
def bytesRequested : List MediumCall → Nat
  | [] => 0
  | .fread k :: cs => k + bytesRequested cs
  | _ :: cs => bytesRequested cs

/-- Whether a logged call is a reposition (`fseek`). -/
def MediumCall.isSeek : MediumCall → Bool
  | .fseek_set _ => true
  | .fseek_end => true
  | _ => false

/-- Whether a logged call is a read of the medium. -/
def MediumCall.isRead : MediumCall → Bool
  | .fread _ => true
  | _ => false

/-! ## Files by name -/

/-- The directory the driver opens files in: the paths that exist, each with
its contents. -/
structure FileSys where
  files : List (String × List uint8)
  deriving DecidableEq, Repr

/-- The contents of the file at `name`, if it exists. -/
def FileSys.lookup (fs : FileSys) (name : String) : Option (List uint8) :=
  (fs.files.find? (fun e => e.1 == name)).map (fun e => e.2)

/-- The directory after the file at `name` has been created or replaced. -/
def FileSys.store (fs : FileSys) (name : String) (data : List uint8) : FileSys :=
  { files := (name, data) :: fs.files.filter (fun e => !(e.1 == name)) }

/-- C `access(name, F_OK)`: `0` when the path exists, `-1` otherwise. -/
def access (fs : FileSys) (name : String) : Int :=
  if (fs.lookup name).isSome then 0 else -1

/-- The `fopen` modes the driver uses: `"rb"`, `"rb+"` and `"wb+"`. -/
inductive fmode where
  | rb
  | rb_plus
  | wb_plus
  deriving DecidableEq, Repr

/-- A freshly opened stream on `data` whose medium will follow `script`. -/
def FILE.fresh (data : List uint8) (writable : Bool) (script : List (Option Nat)) : FILE :=
  { data := data, pos := 0, err := false, writable := writable,
    faults := script, calls := [] }

/-- C `fopen(name, mode)`.  `script` is the fault script of the medium; its
head decides whether `fopen` itself fails (then `NULL` is returned and nothing
changes), its tail becomes the script of the new stream.  `"wb+"` creates the
file or truncates it to length zero; `"rb"` and `"rb+"` need the file to
exist. -/
def fopen (fs : FileSys) (name : String) (mode : fmode) (script : List (Option Nat)) :
    Option FILE × FileSys :=
  match scriptHead script with
  | some _ => (none, fs)
  | none =>
    match mode with
    | .wb_plus => (some (FILE.fresh [] true script.tail), fs.store name [])
    | .rb_plus =>
      match fs.lookup name with
      | some d => (some (FILE.fresh d true script.tail), fs)
      | none => (none, fs)
    | .rb =>
      match fs.lookup name with
      | some d => (some (FILE.fresh d false script.tail), fs)
      | none => (none, fs)

/-! ## The driver -/

/-- The minor error codes raised in the two source files. -/
inductive H5E_minor where
  | H5E_CANTOPENFILE
  | H5E_FILEEXISTS
  | H5E_CLOSEERROR
  | H5E_SEEKERROR
  | H5E_READERROR
  | H5E_WRITEERROR
  | H5E_OVERFLOW
  | H5E_UNSUPPORTED
  | H5E_CANTREGISTER
  | H5E_UNINITIALIZED
  | H5E_BADITER
  | H5E_BADTYPE
  | H5E_CANTDEC
  | H5E_CANTCLOSEOBJ
  | H5E_CANTRELEASE
  deriving DecidableEq, Repr

/-- The status a driver method returns: `SUCCEED`, or `FAIL` with the error
pushed on the error stack. -/
inductive herr_t where
  | SUCCEED
  | FAIL (e : H5E_minor)
  deriving DecidableEq, Repr

/-- The last operation on the stream, as the handle remembers it. -/
inductive H5F_fileop_t where
  | H5F_OP_UNKNOWN
  | H5F_OP_SEEK
  | H5F_OP_READ
  | H5F_OP_WRITE
  deriving DecidableEq, Repr

/-- The handle of an open file (`H5F_low_t` with its `u.stdio` member): the
stream `u.stdio.f`, the last operation `u.stdio.op`, the tracked position
`u.stdio.cur` and the logical end of file `eof`.  Between open and close the
stream pointer is not `NULL`, so the stream itself is stored. -/
structure H5F_low_t where
  f : FILE
  op : H5F_fileop_t
  cur : Nat
  eof : Nat
  deriving DecidableEq, Repr

/-- Modelled from the spec: `H5F_addr_reset` is not in the source; it gives
the address zero, the logical end of file of an empty medium. -/
def H5F_addr_reset : Nat := 0

/-- Modelled from the spec: `H5F_addr_inc` is not in the source; it advances
an address by a byte count, which is how `logical_eof` is initialised to the
medium's current size. -/
def H5F_addr_inc (a inc : Nat) : Nat := a + inc

/-- C `memset(buf + off, 0, n)`. -/
def HDmemset (buf : Buffer) (off n : Nat) : Buffer :=
  fun i => if off ≤ i ∧ i < off + n then 0 else buf i

/-- What `H5F_stdio_open` returns: the new handle or the error raised, and the
directory afterwards. -/
structure OpenResult where
  handle : Except H5E_minor H5F_low_t
  fs : FileSys

/-- The stream `H5F_stdio_open` obtains from `fopen` (with the directory
afterwards), or the error it raises before the handle is built. -/
def H5F_stdio_open_stream (P : Platform) (fs : FileSys) (name : String) (flags : Nat)
    (script : List (Option Nat)) : Except H5E_minor (Option FILE) × FileSys :=
  if access fs name < 0 then
    if flagSet flags P.H5F_ACC_CREAT ∧ flagSet flags P.H5F_ACC_RDWR then
      let r := fopen fs name .wb_plus script
      (.ok r.1, r.2)
    else (.error .H5E_CANTOPENFILE, fs)
  else if flagSet flags P.H5F_ACC_CREAT ∧ flagSet flags P.H5F_ACC_EXCL then
    (.error .H5E_FILEEXISTS, fs)
  else if flagSet flags P.H5F_ACC_RDWR then
    if flagSet flags P.H5F_ACC_TRUNC then
      let r := fopen fs name .wb_plus script
      (.ok r.1, r.2)
    else
      let r := fopen fs name .rb_plus script
      (.ok r.1, r.2)
  else
    let r := fopen fs name .rb script
    (.ok r.1, r.2)

/-- The handle `H5F_stdio_open` builds around a stream: last operation `SEEK`,
position zero, logical end of file reset and then, when the seek to the end of
the medium succeeds, advanced by what `ftell` reports; when that seek fails,
the last operation becomes `UNKNOWN` and the logical end of file stays reset. -/
def H5F_stdio_open_handle (f : FILE) : H5F_low_t :=
  let lf : H5F_low_t :=
    { f := f, op := .H5F_OP_SEEK, cur := 0, eof := H5F_addr_reset }
  let s := fseek_end lf.f
  if s.1 < 0 then
    { lf with f := s.2, op := .H5F_OP_UNKNOWN }
  else
    let x := ftell s.2
    { lf with f := x.2, eof := H5F_addr_inc lf.eof x.1 }

/-- `H5F_stdio_open(name, access_parms, flags, key)`.  The key (device and
inode of the file) does not enter the handle and is left out. -/
def H5F_stdio_open (P : Platform) (fs : FileSys) (name : String) (flags : Nat)
    (script : List (Option Nat)) : OpenResult :=
  match H5F_stdio_open_stream P fs name flags script with
  | (.error e, fs1) => { handle := .error e, fs := fs1 }
  | (.ok none, fs1) => { handle := .error .H5E_CANTOPENFILE, fs := fs1 }
  | (.ok (some f), fs1) => { handle := .ok (H5F_stdio_open_handle f), fs := fs1 }

/-- What `H5F_stdio_close` leaves behind: the status, the stream after
`fclose` was called on it, and whether the handle's stream pointer was reset
to `NULL`. -/
structure CloseResult where
  ret : herr_t
  f : FILE
  f_is_null : Bool

/-- `H5F_stdio_close(lf, access_parms)`. -/
def H5F_stdio_close (lf : H5F_low_t) : CloseResult :=
  let r := fclose lf.f
  if r.1 < 0 then
    { ret := .FAIL .H5E_CLOSEERROR, f := r.2, f_is_null := false }
  else
    { ret := .SUCCEED, f := r.2, f_is_null := true }

/-- What `H5F_stdio_read` leaves behind: status, handle and buffer. -/
structure ReadResult where
  ret : herr_t
  lf : H5F_low_t
  buf : Buffer

/-- The overflow test shared by read and write: `mask` is
`(uint64)1 << (8*sizeof(offset)-1)` and the sum is taken in `uint64`. -/
def addrOverflows (P : Platform) (addr size : Nat) : Prop :=
  2 ^ (P.offBits - 1) % 2 ^ 64 ≤ addr ∨
  (addr + size) % 2 ^ 64 < addr ∨
  2 ^ (P.offBits - 1) % 2 ^ 64 ≤ (addr + size) % 2 ^ 64

instance (P : Platform) (addr size : Nat) : Decidable (addrOverflows P addr size) := by
  unfold addrOverflows; infer_instance

/-- The value of `(size_t) offset + size`, computed in `size_t`. -/
def sizetSum (P : Platform) (offset size : Nat) : Nat :=
  (offset % 2 ^ P.sizeBits + size) % 2 ^ P.sizeBits

/-- The block "Seek to the correct file position" of read and write, for the
operation `me` about to be done: `fseek` is called unless the optimisation is
on, the last operation was `me` and the tracked position is `offset`.  The
result is the status of `fseek` (`0` when it was not called) and the handle
afterwards, whose tracked position is `offset` once the seek has succeeded. -/
def seekBlock (P : Platform) (lf : H5F_low_t) (me : H5F_fileop_t) (offset : Nat) :
    Int × H5F_low_t :=
  if P.H5F_OPT_SEEK = false ∨ lf.op ≠ me ∨ lf.cur ≠ offset then
    let s := fseek lf.f offset
    if s.1 < 0 then (s.1, { lf with f := s.2 })
    else (s.1, { lf with f := s.2, cur := offset })
  else (0, lf)

/-- The local `nbytes` of read: the number of trailing bytes beyond the
logical end of file, `(size_t) offset + size - lf->eof.offset`, when
`(size_t) offset + size > lf->eof.offset`, and none otherwise. -/
def zeroTail (P : Platform) (eof offset size : Nat) : Nat :=
  if eof < sizetSum P offset size then (sizetSum P offset size - eof) % 2 ^ P.sizeBits
  else 0

/-- The part of read after the seek: zero the bytes beyond the logical end of
file, read the rest from the stream, zero what a short read left, and update
the position data.  `n` is a `size_t`, so `n <= 0` is `n = 0`.  Read calls
this part with `offset` below the logical end of file and `size` positive,
where `nbytes < size` (`zeroTail_lt`), so `size - nbytes` does not wrap, and
`offset + n` is at most `offset + size`, below the overflow mask. -/
def readData (P : Platform) (lf : H5F_low_t) (offset size : Nat) (buf : Buffer) :
    ReadResult :=
  let nbytes := zeroTail P lf.eof offset size
  let buf1 :=
    if lf.eof < sizetSum P offset size then HDmemset buf (size - nbytes) nbytes else buf
  let size1 := size - nbytes
  let r := fread lf.f buf1 size1
  let n := r.1
  if n ≤ 0 ∧ ferror r.2.2 = true then
    { ret := .FAIL .H5E_READERROR,
      lf := { lf with f := r.2.2, op := .H5F_OP_UNKNOWN }, buf := r.2.1 }
  else
    { ret := .SUCCEED,
      lf := { lf with f := r.2.2, op := .H5F_OP_READ, cur := offset + n },
      buf := if n < size1 then HDmemset r.2.1 n (size1 - n) else r.2.1 }

/-- `H5F_stdio_read(lf, access_parms, xfer_mode, addr, size, buf)`; `addr` is
`addr->offset`.  After the overflow test `offset` is `addr` itself. -/
def H5F_stdio_read (P : Platform) (lf : H5F_low_t) (addr size : Nat) (buf : Buffer) :
    ReadResult :=
  if addrOverflows P addr size then
    { ret := .FAIL .H5E_OVERFLOW, lf := lf, buf := buf }
  else
    let offset := addr
    if 0 = size then { ret := .SUCCEED, lf := lf, buf := buf }
    else if lf.eof ≤ offset then
      { ret := .SUCCEED, lf := lf, buf := HDmemset buf 0 size }
    else
      let s := seekBlock P lf .H5F_OP_READ offset
      if s.1 < 0 then { ret := .FAIL .H5E_SEEKERROR, lf := s.2, buf := buf }
      else readData P s.2 offset size buf

/-- What `H5F_stdio_write` and `H5F_stdio_flush` leave behind. -/
structure WriteResult where
  ret : herr_t
  lf : H5F_low_t
  deriving DecidableEq, Repr

/-- The part of write after the seek: write the buffer and update the seek
optimising data. -/
def writeData (lf : H5F_low_t) (offset size : Nat) (buf : Buffer) : WriteResult :=
  let n := size
  let w := fwrite lf.f buf size
  if n ≠ w.1 then
    { ret := .FAIL .H5E_WRITEERROR, lf := { lf with f := w.2, op := .H5F_OP_UNKNOWN } }
  else
    { ret := .SUCCEED, lf := { lf with f := w.2, op := .H5F_OP_WRITE, cur := offset + n } }

/-- `H5F_stdio_write(lf, access_parms, xfer_mode, addr, size, buf)`. -/
def H5F_stdio_write (P : Platform) (lf : H5F_low_t) (addr size : Nat) (buf : Buffer) :
    WriteResult :=
  if addrOverflows P addr size then
    { ret := .FAIL .H5E_OVERFLOW, lf := lf }
  else
    let offset := addr
    let s := seekBlock P lf .H5F_OP_WRITE offset
    if s.1 < 0 then { ret := .FAIL .H5E_SEEKERROR, lf := s.2 }
    else writeData s.2 offset size buf

/-- `H5F_stdio_flush(lf, access_parms)`. -/
def H5F_stdio_flush (lf : H5F_low_t) : WriteResult :=
  let lf1 : H5F_low_t := { lf with op := .H5F_OP_UNKNOWN }
  let r := fflush lf1.f
  if r.1 < 0 then
    { ret := .FAIL .H5E_WRITEERROR, lf := { lf1 with f := r.2 } }
  else
    { ret := .SUCCEED, lf := { lf1 with f := r.2 } }

/-! ## Reachable handles and sample inputs -/

/-- The handle's tracked position is the stream's position whenever the last
operation it remembers is a read or a write.  Every handle the driver builds
or updates has this property, as long as a failed `fseek` leaves the position
where it was. -/
def H5F_low_t.tracked (lf : H5F_low_t) : Prop :=
  (lf.op = .H5F_OP_READ ∨ lf.op = .H5F_OP_WRITE) → lf.cur = lf.f.pos

instance (lf : H5F_low_t) : Decidable lf.tracked := by
  unfold H5F_low_t.tracked; infer_instance

/-- An empty directory. -/
def fsEmpty : FileSys := { files := [] }

/-- A directory holding the three-byte file `"a"`. -/
def fsA : FileSys := { files := [("a", [1, 2, 3])] }

/-- The handle `H5F_stdio_open` returns for `"a"` in `fsA` opened read-write
on a medium that never fails. -/
def handleA : H5F_low_t :=
  { f := { data := [1, 2, 3], pos := 3, err := false, writable := true, faults := [],
           calls := [.fseek_end, .ftell] },
    op := .H5F_OP_SEEK, cur := 0, eof := 3 }

/-- The handle `H5F_stdio_open` returns for a file it has just created on a
medium that never fails. -/
def handleFresh : H5F_low_t :=
  { f := { data := [], pos := 0, err := false, writable := true, faults := [],
           calls := [.fseek_end, .ftell] },
    op := .H5F_OP_SEEK, cur := 0, eof := 0 }

/-- The ten bytes `"0123456789"`. -/
def digits : Buffer := fun i => if h : i < 10 then ⟨48 + i, by omega⟩ else 0

/-- A buffer holding no zero byte. -/
def blank : Buffer := fun _ => 255

/-- A freshly positioned handle on a file holding `d` whose logical end of
file is `2 ^ 32`. -/
def handleAt4G (d : List uint8) : H5F_low_t :=
  { f := { data := d, pos := 0, err := false, writable := true, faults := [], calls := [] },
    op := .H5F_OP_SEEK, cur := 0, eof := 2 ^ 32 }

/-! ## Runs of reads -/

/-- The number of reposition calls (`fseek`) in a log of medium calls. -/
def seekCount (cs : List MediumCall) : Nat := (cs.filter MediumCall.isSeek).length

/-- A run of reads through one handle: the first at `addr`, each next one at
the address where the previous one ended (`addr + size`), stopping at the
first read that fails.  The result is the handle after the run and whether
every read succeeded. -/
def readRun (P : Platform) (lf : H5F_low_t) (addr : Nat) (buf : Buffer) :
    List Nat → H5F_low_t × Bool
  | [] => (lf, true)
  | size :: rest =>
    if (H5F_stdio_read P lf addr size buf).ret = .SUCCEED then
      readRun P (H5F_stdio_read P lf addr size buf).lf (addr + size)
        (H5F_stdio_read P lf addr size buf).buf rest
    else ((H5F_stdio_read P lf addr size buf).lf, false)

/-- The handle is on a medium that serves every read in full: no fault is
scripted and the medium holds at least the bytes below the logical end of
file. -/
def H5F_low_t.served (lf : H5F_low_t) : Prop :=
  (∀ x ∈ lf.f.faults, x = none) ∧ lf.eof ≤ lf.f.data.length

instance (lf : H5F_low_t) : Decidable lf.served := by
  unfold H5F_low_t.served; infer_instance

/-- The handle `handleA` with a medium whose next call fails. -/
def handleAFaulty : H5F_low_t :=
  { handleA with f := { handleA.f with faults := [some 0] } }

/-! ## Sequences of driver calls -/

/-- A call on an open handle: a read into the caller's buffer, a write of a
buffer, or a flush. -/
inductive DriverCall where
  | read (addr size : Nat)
  | write (addr size : Nat) (buf : Buffer)
  | flush

/-- One call through a handle: the status returned, the handle afterwards and
the caller's read buffer afterwards. -/
def DriverCall.run (P : Platform) (lf : H5F_low_t) (buf : Buffer) :
    DriverCall → herr_t × H5F_low_t × Buffer
  | .read addr size =>
    ((H5F_stdio_read P lf addr size buf).ret, (H5F_stdio_read P lf addr size buf).lf,
      (H5F_stdio_read P lf addr size buf).buf)
  | .write addr size wbuf =>
    ((H5F_stdio_write P lf addr size wbuf).ret, (H5F_stdio_write P lf addr size wbuf).lf, buf)
  | .flush => ((H5F_stdio_flush lf).ret, (H5F_stdio_flush lf).lf, buf)

/-- A sequence of calls through one handle, every read into the same buffer:
the status and the read buffer after each call, and the handle after the last
call.  A call that fails does not end the sequence. -/
def runDriver (P : Platform) : H5F_low_t → Buffer → List DriverCall →
    List (herr_t × Buffer) × H5F_low_t
  | lf, _, [] => ([], lf)
  | lf, buf, c :: cs =>
    (((c.run P lf buf).1, (c.run P lf buf).2.2) ::
        (runDriver P (c.run P lf buf).2.1 (c.run P lf buf).2.2 cs).1,
      (runDriver P (c.run P lf buf).2.1 (c.run P lf buf).2.2 cs).2)

/-- The statuses of a sequence of calls. -/
def runStatuses (P : Platform) (lf : H5F_low_t) (buf : Buffer) (cs : List DriverCall) :
    List herr_t :=
  (runDriver P lf buf cs).1.map (fun r => r.1)

/-- The build of the driver that repositions before every medium access: the
same source compiled with `H5F_OPT_SEEK` zero. -/
def Platform.alwaysSeek (P : Platform) : Platform := { P with H5F_OPT_SEEK := false }

/-- Two handles agree on what a caller can observe and on the position data:
last operation, tracked position, logical end of file, and the contents,
position, error indicator and mode of the stream.  The log of medium calls and
the fault script are left out. -/
def H5F_low_t.agrees (a b : H5F_low_t) : Prop :=
  a.op = b.op ∧ a.cur = b.cur ∧ a.eof = b.eof ∧ a.f.data = b.f.data ∧ a.f.pos = b.f.pos ∧
  a.f.err = b.f.err ∧ a.f.writable = b.f.writable

instance (a b : H5F_low_t) : Decidable (a.agrees b) := by
  unfold H5F_low_t.agrees; infer_instance

/-- The medium of the handle never fails: its script holds no fault. -/
def H5F_low_t.quiet (lf : H5F_low_t) : Prop := ∀ x ∈ lf.f.faults, x = none

instance (lf : H5F_low_t) : Decidable lf.quiet := by
  unfold H5F_low_t.quiet; infer_instance

/-- Where a log of medium calls stands as to the direction of transfer: no
call yet, just repositioned, or last transfer a read or a write. -/
inductive Turn where
  | fresh
  | seek
  | read
  | write
  deriving DecidableEq, Repr

/-- The standing after one more medium call, or `none` when the call is a
transfer that is not allowed where the log stands: a read needs the log to
stand at a reposition or a read, a write at a reposition or a write.  A
reposition call is `fseek`; `ftell`, `fflush` and `fclose` change nothing. -/
def Turn.next : Turn → MediumCall → Option Turn
  | _, .fseek_set _ => some .seek
  | _, .fseek_end => some .seek
  | .seek, .fread _ => some .read
  | .read, .fread _ => some .read
  | _, .fread _ => none
  | .seek, .fwrite _ => some .write
  | .write, .fwrite _ => some .write
  | _, .fwrite _ => none
  | t, .ftell => some t
  | t, .fflush => some t
  | t, .fclose => some t

/-- The standing after a log of medium calls, or `none` when some transfer in
it follows a transfer of the other direction, or the start, without a
reposition call in between. -/
def turnsFrom : Turn → List MediumCall → Option Turn
  | t, [] => some t
  | t, c :: cs =>
    match t.next c with
    | none => none
    | some t1 => turnsFrom t1 cs

/-- The standing of the log goes with the last operation the handle
remembers: after a remembered read the log stands at a read or a reposition,
after a remembered write at a write or a reposition. -/
def Turn.fits (t : Turn) (op : H5F_fileop_t) : Prop :=
  (op = .H5F_OP_READ → t = .read ∨ t = .seek) ∧ (op = .H5F_OP_WRITE → t = .write ∨ t = .seek)

/-- The handle `handleA` on a medium that serves two calls and fails from the
third call on. -/
def handleAFailing : H5F_low_t :=
  { handleA with f := { handleA.f with faults := [none, none, some 0, some 0] } }

/-- Two contiguous one-byte reads from address 0. -/
def twoReads : List DriverCall := [.read 0 1, .read 1 1]

/-- A write, two contiguous reads of which the second crosses the logical end
of file, a flush, and two contiguous writes. -/
def mixedCalls : List DriverCall :=
  [.write 0 2 digits, .read 0 1, .read 1 4, .flush, .write 1 1 digits, .write 2 1 digits]

end H5Fstdio

/-!
# The virtual object layer (`src/H5VL.c`)

The registry calls `H5VLregister`, `H5VLunregister`, `H5VLis_registered`,
`H5VLinitialize`, `H5VLterminate` and `H5VLclose`, and the dispatch entry
points: those for the `specific` and `optional` verbs first, then all of them,
the three request calls included.  The identifier registry
(`H5I`) and the descriptor type are not in the source and are modelled from
the specification; the registry is passed explicitly.
-/

namespace H5VL

open H5Fstdio (herr_t H5E_minor)

/-! ## Identifiers and descriptors -/

/-- A library identifier. -/
abbrev hid_t := Int

/-- The identifier that is never handed out. -/
def H5I_INVALID_HID : hid_t := -1

/-- The callback result that lets an iteration go on. -/
def H5_ITER_CONT : Int := 0

/-- The callback result that stops an iteration. -/
def H5_ITER_STOP : Int := 1

/-- The seven operation domains. -/
inductive Domain where
  | File
  | Group
  | Dataset
  | Attribute
  | Datatype
  | Link
  | Object
  deriving DecidableEq, Repr

/-- The verbs of a domain. -/
inductive Verb where
  | Create
  | Open
  | Read
  | Write
  | Get
  | Specific
  | Optional
  | Close
  deriving DecidableEq, Repr

/-- An opaque pointer argument (`void *`, `void **`). -/
abbrev Ptr := Nat

/-- The opaque argument list of a dispatched call (`va_list`). -/
abbrev va_list := List Int

/-- Modelled from the spec: the driver descriptor `H5VL_class_t`, whose
declaration is not in the source: "unique name (string), function table
(operation-domain → implementation), optional init/terminate hooks".  The
name may be the `NULL` pointer; a hook or a table entry that is absent is
`none`.  The hooks are the members `initialize` and `terminate`. -/
structure H5VL_class_t where
  name : Option String
  initialize_hook : Option (hid_t → Int)
  terminate_hook : Option (hid_t → Int)
  table : Domain → Verb → Option (va_list → Int)

/-- Modelled from the spec: an entry of the identifier registry for the type
`H5I_VOL` (`H5I.c` is not in the source): "driver id → Driver Descriptor, plus
a reference count". -/
structure Entry where
  id : hid_t
  cls : H5VL_class_t
  refs : Nat

/-- Modelled from the spec: the process-wide driver registry (`H5I.c` is not
in the source), passed explicitly.  `next` is the identifier the next
registration gets, so that identifiers are "fresh, never-reused". -/
structure Registry where
  entries : List Entry
  next : hid_t

/-- The registry before any registration. -/
def Registry.empty : Registry := { entries := [], next := 0 }

/-- Modelled from the spec: `H5I_object_verify(id, H5I_VOL)`, not in the
source: the descriptor the identifier refers to, or `NULL` when it "does not
refer to a registered descriptor". -/
def H5I_object_verify (R : Registry) (id : hid_t) : Option H5VL_class_t :=
  (R.entries.find? (fun e => e.id == id)).map (fun e => e.cls)

/-- Modelled from the spec: `H5I_dec_app_ref(id)`, not in the source: it drops
one reference of the entry and "removes the entry" with its last reference;
the result is the number of references left, or negative when there is no
such entry. -/
def H5I_dec_app_ref (R : Registry) (id : hid_t) : Int × Registry :=
  match R.entries.find? (fun e => e.id == id) with
  | none => (-1, R)
  | some e =>
    if e.refs ≤ 1 then
      (0, { R with entries := R.entries.filter (fun x => !(x.id == id)) })
    else
      (e.refs - 1,
       { R with
         entries :=
           R.entries.map (fun x => if x.id == id then { x with refs := x.refs - 1 } else x) })

/-- Modelled from the spec: `H5VL_register(cls, size, app_ref)`, not in the
source: "on success, assigns a fresh, never-reused id" to a new entry with
one reference.  `ok` tells whether the library can create the identifier. -/
def H5VL_register (R : Registry) (cls : H5VL_class_t) (ok : Bool) : hid_t × Registry :=
  if ok then
    (R.next, { entries := R.entries ++ [{ id := R.next, cls := cls, refs := 1 }],
               next := R.next + 1 })
  else (-1, R)

/-- Modelled from the spec: `H5I_iterate(H5I_VOL, func, udata, app_ref)`, not
in the source: the "full scan over registered descriptors", calling `func` on
each entry in turn until it returns a value other than zero; a positive value
ends the scan with success, a negative one with failure. -/
def H5I_iterate {α : Type} (func : H5VL_class_t → hid_t → α → Int × α) :
    List Entry → α → Int × α
  | [], udata => (0, udata)
  | e :: es, udata =>
    if 0 < (func e.cls e.id udata).1 then (0, (func e.cls e.id udata).2)
    else if (func e.cls e.id udata).1 < 0 then (-1, (func e.cls e.id udata).2)
    else H5I_iterate func es (func e.cls e.id udata).2

/-! ## The registry calls -/

/-- The user data of the name search: the name looked for and the identifier
found, `H5I_INVALID_HID` while there is none. -/
structure H5VL_get_driver_ud_t where
  name : String
  found_id : hid_t
  deriving DecidableEq, Repr

/-- `H5VL__get_driver_cb(obj, id, _op_data)`: stop at a descriptor whose name
equals the name looked for, recording its identifier. -/
def H5VL__get_driver_cb (cls : H5VL_class_t) (id : hid_t) (op_data : H5VL_get_driver_ud_t) :
    Int × H5VL_get_driver_ud_t :=
  if cls.name = some op_data.name then (H5_ITER_STOP, { op_data with found_id := id })
  else (H5_ITER_CONT, op_data)

/-- What `H5VLregister` leaves behind: the identifier returned
(`H5I_INVALID_HID` on failure), the error raised, and the registry. -/
structure RegisterResult where
  ret : hid_t
  err : Option H5E_minor
  reg : Registry

/-- `H5VLregister(cls)`; `cls` may be the `NULL` pointer. -/
def H5VLregister (R : Registry) (cls : Option H5VL_class_t) (ok : Bool) : RegisterResult :=
  match cls with
  | none => { ret := H5I_INVALID_HID, err := some .H5E_UNINITIALIZED, reg := R }
  | some c =>
    match c.name with
    | none => { ret := H5I_INVALID_HID, err := some .H5E_CANTREGISTER, reg := R }
    | some name =>
      if 0 = name.length then
        { ret := H5I_INVALID_HID, err := some .H5E_CANTREGISTER, reg := R }
      else
        let op_data : H5VL_get_driver_ud_t := { name := name, found_id := H5I_INVALID_HID }
        let it := H5I_iterate H5VL__get_driver_cb R.entries op_data
        if it.1 < 0 then
          { ret := H5I_INVALID_HID, err := some .H5E_BADITER, reg := R }
        else if it.2.found_id ≠ H5I_INVALID_HID then
          { ret := H5I_INVALID_HID, err := some .H5E_CANTREGISTER, reg := R }
        else
          let r := H5VL_register R c ok
          if r.1 < 0 then
            { ret := H5I_INVALID_HID, err := some .H5E_CANTREGISTER, reg := r.2 }
          else { ret := r.1, err := none, reg := r.2 }

/-- What a registry call that returns a status leaves behind. -/
structure StatusResult where
  ret : herr_t
  reg : Registry

/-- `H5VLunregister(vol_id)`. -/
def H5VLunregister (R : Registry) (vol_id : hid_t) : StatusResult :=
  match H5I_object_verify R vol_id with
  | none => { ret := .FAIL .H5E_BADTYPE, reg := R }
  | some _ =>
    if (H5I_dec_app_ref R vol_id).1 < 0 then
      { ret := .FAIL .H5E_CANTDEC, reg := (H5I_dec_app_ref R vol_id).2 }
    else { ret := .SUCCEED, reg := (H5I_dec_app_ref R vol_id).2 }

/-- `H5VLclose(vol_id)`. -/
def H5VLclose (R : Registry) (vol_id : hid_t) : StatusResult :=
  match H5I_object_verify R vol_id with
  | none => { ret := .FAIL .H5E_BADTYPE, reg := R }
  | some _ =>
    if (H5I_dec_app_ref R vol_id).1 < 0 then
      { ret := .FAIL .H5E_CANTRELEASE, reg := (H5I_dec_app_ref R vol_id).2 }
    else { ret := .SUCCEED, reg := (H5I_dec_app_ref R vol_id).2 }

/-- What `H5VLis_registered` returns (`htri_t`): `TRUE`, `FALSE`, or the error
raised. -/
inductive htri_t where
  | TRUE
  | FALSE
  | FAIL (e : H5E_minor)
  deriving DecidableEq, Repr

/-- `H5VLis_registered(name)`. -/
def H5VLis_registered (R : Registry) (name : String) : htri_t :=
  let op_data : H5VL_get_driver_ud_t := { name := name, found_id := H5I_INVALID_HID }
  let it := H5I_iterate H5VL__get_driver_cb R.entries op_data
  if it.1 < 0 then .FAIL .H5E_BADITER
  else if it.2.found_id ≠ H5I_INVALID_HID then .TRUE
  else .FALSE

/-- An invocation of a descriptor's hook, with the argument passed. -/
inductive HookCall where
  | initialize_hook (vipl_id : hid_t)
  | terminate_hook (vtpl_id : hid_t)
  deriving DecidableEq, Repr

/-- What `H5VLinitialize` and `H5VLterminate` leave behind: the status and
the hook invocations made. -/
structure HookResult where
  ret : herr_t
  calls : List HookCall
  deriving DecidableEq, Repr

/-- `H5VLinitialize(driver_id, vipl_id)`. -/
def H5VLinitialize (R : Registry) (driver_id vipl_id : hid_t) : HookResult :=
  match H5I_object_verify R driver_id with
  | none => { ret := .FAIL .H5E_BADTYPE, calls := [] }
  | some cls =>
    match cls.initialize_hook with
    | none => { ret := .SUCCEED, calls := [] }
    | some hook =>
      if hook vipl_id < 0 then
        { ret := .FAIL .H5E_CANTCLOSEOBJ, calls := [.initialize_hook vipl_id] }
      else { ret := .SUCCEED, calls := [.initialize_hook vipl_id] }

/-- `H5VLterminate(driver_id, vtpl_id)`. -/
def H5VLterminate (R : Registry) (driver_id vtpl_id : hid_t) : HookResult :=
  match H5I_object_verify R driver_id with
  | none => { ret := .FAIL .H5E_BADTYPE, calls := [] }
  | some cls =>
    match cls.terminate_hook with
    | none => { ret := .SUCCEED, calls := [] }
    | some hook =>
      if hook vtpl_id < 0 then
        { ret := .FAIL .H5E_CANTCLOSEOBJ, calls := [.terminate_hook vtpl_id] }
      else { ret := .SUCCEED, calls := [.terminate_hook vtpl_id] }

/-! ## Sequences of registry calls -/

/-- A call that can change the registry. -/
inductive RegistryCall where
  | register (cls : Option H5VL_class_t) (ok : Bool)
  | unregister (vol_id : hid_t)
  | close (vol_id : hid_t)

/-- The registry after one call. -/
def RegistryCall.apply (R : Registry) : RegistryCall → Registry
  | .register cls ok => (H5VLregister R cls ok).reg
  | .unregister vol_id => (H5VLunregister R vol_id).reg
  | .close vol_id => (H5VLclose R vol_id).reg

/-- The registry after a sequence of calls. -/
def runCalls (R : Registry) (cs : List RegistryCall) : Registry :=
  cs.foldl RegistryCall.apply R

/-- The call gives up a reference of the entry with this identifier. -/
def RegistryCall.releases (c : RegistryCall) (id : hid_t) : Prop :=
  match c with
  | .register _ _ => False
  | .unregister vol_id => vol_id = id
  | .close vol_id => vol_id = id

/-- No two entries have descriptors with the same name. -/
def Registry.uniqueNames (R : Registry) : Prop :=
  R.entries.Pairwise (fun a b => a.cls.name ≠ b.cls.name)

/-- The registry is well formed: identifiers are not negative, every
identifier in it has been handed out (it is below `next`), every entry holds a
reference, and no identifier occurs twice. -/
def Registry.wf (R : Registry) : Prop :=
  0 ≤ R.next ∧
  (∀ e ∈ R.entries, 0 ≤ e.id ∧ e.id < R.next ∧ 1 ≤ e.refs) ∧
  R.entries.Pairwise (fun a b => a.id ≠ b.id)

/-- Some entry of the registry has a descriptor with this name. -/
def Registry.hasName (R : Registry) (name : String) : Prop :=
  ∃ e ∈ R.entries, e.cls.name = some name

instance (R : Registry) (name : String) : Decidable (R.hasName name) := by
  unfold Registry.hasName; infer_instance

/-! ## The dispatch entry points for `specific` and `optional` -/

/-- `H5VLattr_specific(obj, loc_params, driver_id, specific_type, dxpl_id, req, arguments)`. -/
def H5VLattr_specific (_obj : Ptr) (_loc_params : Nat) (_driver_id : hid_t)
    (_specific_type : Int) (_dxpl_id : hid_t) (_req : Ptr) (_arguments : va_list) : herr_t :=
  .FAIL .H5E_UNSUPPORTED

/-- `H5VLattr_optional(obj, driver_id, dxpl_id, req, arguments)`. -/
def H5VLattr_optional (_obj : Ptr) (_driver_id _dxpl_id : hid_t) (_req : Ptr)
    (_arguments : va_list) : herr_t :=
  .FAIL .H5E_UNSUPPORTED

/-- `H5VLdataset_specific(obj, driver_id, specific_type, dxpl_id, req, arguments)`. -/
def H5VLdataset_specific (_obj : Ptr) (_driver_id : hid_t) (_specific_type : Int)
    (_dxpl_id : hid_t) (_req : Ptr) (_arguments : va_list) : herr_t :=
  .FAIL .H5E_UNSUPPORTED

/-- `H5VLdataset_optional(obj, driver_id, dxpl_id, req, arguments)`. -/
def H5VLdataset_optional (_obj : Ptr) (_driver_id _dxpl_id : hid_t) (_req : Ptr)
    (_arguments : va_list) : herr_t :=
  .FAIL .H5E_UNSUPPORTED

/-- `H5VLfile_specific(file, driver_id, specific_type, dxpl_id, req, arguments)`. -/
def H5VLfile_specific (_file : Ptr) (_driver_id : hid_t) (_specific_type : Int)
    (_dxpl_id : hid_t) (_req : Ptr) (_arguments : va_list) : herr_t :=
  .FAIL .H5E_UNSUPPORTED

/-- `H5VLfile_optional(file, driver_id, dxpl_id, req, arguments)`: the body
raises no error, so the initial `ret_value = SUCCEED` is returned. -/
def H5VLfile_optional (_file : Ptr) (_driver_id _dxpl_id : hid_t) (_req : Ptr)
    (_arguments : va_list) : herr_t :=
  .SUCCEED

/-- `H5VLgroup_specific(obj, driver_id, specific_type, dxpl_id, req, arguments)`:
the body raises no error, so the initial `ret_value = SUCCEED` is returned. -/
def H5VLgroup_specific (_obj : Ptr) (_driver_id : hid_t) (_specific_type : Int)
    (_dxpl_id : hid_t) (_req : Ptr) (_arguments : va_list) : herr_t :=
  .SUCCEED

/-- `H5VLgroup_optional(obj, driver_id, dxpl_id, req, arguments)`. -/
def H5VLgroup_optional (_obj : Ptr) (_driver_id _dxpl_id : hid_t) (_req : Ptr)
    (_arguments : va_list) : herr_t :=
  .FAIL .H5E_UNSUPPORTED

/-- `H5VLlink_specific(obj, loc_params, driver_id, specific_type, dxpl_id, req, arguments)`. -/
def H5VLlink_specific (_obj : Ptr) (_loc_params : Nat) (_driver_id : hid_t)
    (_specific_type : Int) (_dxpl_id : hid_t) (_req : Ptr) (_arguments : va_list) : herr_t :=
  .FAIL .H5E_UNSUPPORTED

/-- `H5VLlink_optional(obj, driver_id, dxpl_id, req, arguments)`. -/
def H5VLlink_optional (_obj : Ptr) (_driver_id _dxpl_id : hid_t) (_req : Ptr)
    (_arguments : va_list) : herr_t :=
  .FAIL .H5E_UNSUPPORTED

/-- `H5VLobject_specific(obj, loc_params, driver_id, specific_type, dxpl_id, req, arguments)`. -/
def H5VLobject_specific (_obj : Ptr) (_loc_params : Nat) (_driver_id : hid_t)
    (_specific_type : Int) (_dxpl_id : hid_t) (_req : Ptr) (_arguments : va_list) : herr_t :=
  .FAIL .H5E_UNSUPPORTED

/-- `H5VLobject_optional(obj, driver_id, dxpl_id, req, arguments)`. -/
def H5VLobject_optional (_obj : Ptr) (_driver_id _dxpl_id : hid_t) (_req : Ptr)
    (_arguments : va_list) : herr_t :=
  .FAIL .H5E_UNSUPPORTED

/-- `H5VLdatatype_specific(obj, driver_id, specific_type, dxpl_id, req, arguments)`. -/
def H5VLdatatype_specific (_obj : Ptr) (_driver_id : hid_t) (_specific_type : Int)
    (_dxpl_id : hid_t) (_req : Ptr) (_arguments : va_list) : herr_t :=
  .FAIL .H5E_UNSUPPORTED

/-- `H5VLdatatype_optional(obj, driver_id, dxpl_id, req, arguments)`. -/
def H5VLdatatype_optional (_obj : Ptr) (_driver_id _dxpl_id : hid_t) (_req : Ptr)
    (_arguments : va_list) : herr_t :=
  .FAIL .H5E_UNSUPPORTED

/-- The arguments of a dispatched `specific` or `optional` call. -/
structure DispatchArgs where
  obj : Ptr
  loc_params : Nat
  driver_id : hid_t
  op_type : Int
  dxpl_id : hid_t
  req : Ptr
  arguments : va_list

/-- The entry point of a domain for the verb `specific`. -/
def dispatchSpecific (d : Domain) (a : DispatchArgs) : herr_t :=
  match d with
  | .File => H5VLfile_specific a.obj a.driver_id a.op_type a.dxpl_id a.req a.arguments
  | .Group => H5VLgroup_specific a.obj a.driver_id a.op_type a.dxpl_id a.req a.arguments
  | .Dataset => H5VLdataset_specific a.obj a.driver_id a.op_type a.dxpl_id a.req a.arguments
  | .Attribute =>
    H5VLattr_specific a.obj a.loc_params a.driver_id a.op_type a.dxpl_id a.req a.arguments
  | .Datatype => H5VLdatatype_specific a.obj a.driver_id a.op_type a.dxpl_id a.req a.arguments
  | .Link =>
    H5VLlink_specific a.obj a.loc_params a.driver_id a.op_type a.dxpl_id a.req a.arguments
  | .Object =>
    H5VLobject_specific a.obj a.loc_params a.driver_id a.op_type a.dxpl_id a.req a.arguments

/-- The entry point of a domain for the verb `optional`. -/
def dispatchOptional (d : Domain) (a : DispatchArgs) : herr_t :=
  match d with
  | .File => H5VLfile_optional a.obj a.driver_id a.dxpl_id a.req a.arguments
  | .Group => H5VLgroup_optional a.obj a.driver_id a.dxpl_id a.req a.arguments
  | .Dataset => H5VLdataset_optional a.obj a.driver_id a.dxpl_id a.req a.arguments
  | .Attribute => H5VLattr_optional a.obj a.driver_id a.dxpl_id a.req a.arguments
  | .Datatype => H5VLdatatype_optional a.obj a.driver_id a.dxpl_id a.req a.arguments
  | .Link => H5VLlink_optional a.obj a.driver_id a.dxpl_id a.req a.arguments
  | .Object => H5VLobject_optional a.obj a.driver_id a.dxpl_id a.req a.arguments

/-! ## Sample inputs -/

/-- A descriptor named `"native"` with no hooks and an empty function table. -/
def nativeDriver : H5VL_class_t :=
  { name := some "native", initialize_hook := none, terminate_hook := none,
    table := fun _ _ => none }

/-- A descriptor named `"hooked"` whose initialize hook fails on negative
arguments and whose terminate hook always fails. -/
def hookedDriver : H5VL_class_t :=
  { name := some "hooked", initialize_hook := some (fun x => if x < 0 then -1 else 0),
    terminate_hook := some (fun _ => -1), table := fun _ _ => none }

/-- The registry holding `nativeDriver` under identifier 0. -/
def regNative : Registry :=
  { entries := [{ id := 0, cls := nativeDriver, refs := 1 }], next := 1 }

/-- The registry holding `hookedDriver` under identifier 0. -/
def regHooked : Registry :=
  { entries := [{ id := 0, cls := hookedDriver, refs := 1 }], next := 1 }

/-- A sequence of calls: a second registration of the name `"native"`, a
registration that the library cannot complete, and the release of an
identifier that was never handed out. -/
def sampleCalls : List RegistryCall :=
  [.register (some nativeDriver) true, .register (some hookedDriver) false, .unregister 7]

/-- Some arguments for a dispatched call on the driver with identifier 0. -/
def sampleArgs : DispatchArgs :=
  { obj := 1, loc_params := 0, driver_id := 0, op_type := 0, dxpl_id := 0, req := 0,
    arguments := [] }

/-! ## All dispatch entry points -/

/-- What an entry point that returns an object pointer (`void *`) returns: the
object, or `NULL` with the error raised. -/
inductive objptr_t where
  | obj (p : Ptr)
  | NULL (e : H5E_minor)
  deriving DecidableEq, Repr

/-- `H5VLrequest_cancel(req, driver_id, status)`. -/
def H5VLrequest_cancel (_req : Ptr) (_driver_id : hid_t) (_status : Ptr) : herr_t :=
  .FAIL .H5E_UNSUPPORTED

/-- `H5VLrequest_test(req, driver_id, status)`. -/
def H5VLrequest_test (_req : Ptr) (_driver_id : hid_t) (_status : Ptr) : herr_t :=
  .FAIL .H5E_UNSUPPORTED

/-- `H5VLrequest_wait(req, driver_id, status)`. -/
def H5VLrequest_wait (_req : Ptr) (_driver_id : hid_t) (_status : Ptr) : herr_t :=
  .FAIL .H5E_UNSUPPORTED

/-- `H5VLattr_create(obj, loc_params, driver_id, name, acpl_id, aapl_id,
dxpl_id, req)`. -/
def H5VLattr_create (_obj : Ptr) (_loc_params : Nat) (_driver_id : hid_t) (_name : String)
    (_acpl_id : hid_t) (_aapl_id : hid_t) (_dxpl_id : hid_t) (_req : Ptr) : objptr_t :=
  .NULL .H5E_UNSUPPORTED

/-- `H5VLattr_open(obj, loc_params, driver_id, name, aapl_id, dxpl_id, req)`. -/
def H5VLattr_open (_obj : Ptr) (_loc_params : Nat) (_driver_id : hid_t) (_name : String)
    (_aapl_id : hid_t) (_dxpl_id : hid_t) (_req : Ptr) : objptr_t :=
  .NULL .H5E_UNSUPPORTED

/-- `H5VLattr_read(attr, driver_id, mem_type_id, buf, dxpl_id, req)`. -/
def H5VLattr_read (_attr : Ptr) (_driver_id : hid_t) (_mem_type_id : hid_t) (_buf : Ptr)
    (_dxpl_id : hid_t) (_req : Ptr) : herr_t :=
  .FAIL .H5E_UNSUPPORTED

/-- `H5VLattr_write(attr, driver_id, mem_type_id, buf, dxpl_id, req)`. -/
def H5VLattr_write (_attr : Ptr) (_driver_id : hid_t) (_mem_type_id : hid_t) (_buf : Ptr)
    (_dxpl_id : hid_t) (_req : Ptr) : herr_t :=
  .FAIL .H5E_UNSUPPORTED

/-- `H5VLattr_get(obj, driver_id, get_type, dxpl_id, req, arguments)`. -/
def H5VLattr_get (_obj : Ptr) (_driver_id : hid_t) (_get_type : Int) (_dxpl_id : hid_t)
    (_req : Ptr) (_arguments : va_list) : herr_t :=
  .FAIL .H5E_UNSUPPORTED

/-- `H5VLattr_close(attr, driver_id, dxpl_id, req)`. -/
def H5VLattr_close (_attr : Ptr) (_driver_id : hid_t) (_dxpl_id : hid_t) (_req : Ptr) : herr_t :=
  .FAIL .H5E_UNSUPPORTED

/-- `H5VLdataset_create(obj, loc_params, driver_id, name, dcpl_id, dapl_id,
dxpl_id, req)`. -/
def H5VLdataset_create (_obj : Ptr) (_loc_params : Nat) (_driver_id : hid_t) (_name : String)
    (_dcpl_id : hid_t) (_dapl_id : hid_t) (_dxpl_id : hid_t) (_req : Ptr) : objptr_t :=
  .NULL .H5E_UNSUPPORTED

/-- `H5VLdataset_open(obj, loc_params, driver_id, name, dapl_id, dxpl_id,
req)`. -/
def H5VLdataset_open (_obj : Ptr) (_loc_params : Nat) (_driver_id : hid_t) (_name : String)
    (_dapl_id : hid_t) (_dxpl_id : hid_t) (_req : Ptr) : objptr_t :=
  .NULL .H5E_UNSUPPORTED

/-- `H5VLdataset_read(dset, driver_id, mem_type_id, mem_space_id,
file_space_id, plist_id, buf, req)`. -/
def H5VLdataset_read (_dset : Ptr) (_driver_id : hid_t) (_mem_type_id : hid_t)
    (_mem_space_id : hid_t) (_file_space_id : hid_t) (_plist_id : hid_t) (_buf : Ptr)
    (_req : Ptr) : herr_t :=
  .FAIL .H5E_UNSUPPORTED

/-- `H5VLdataset_write(dset, driver_id, mem_type_id, mem_space_id,
file_space_id, plist_id, buf, req)`. -/
def H5VLdataset_write (_dset : Ptr) (_driver_id : hid_t) (_mem_type_id : hid_t)
    (_mem_space_id : hid_t) (_file_space_id : hid_t) (_plist_id : hid_t) (_buf : Ptr)
    (_req : Ptr) : herr_t :=
  .FAIL .H5E_UNSUPPORTED

/-- `H5VLdataset_get(dset, driver_id, get_type, dxpl_id, req, arguments)`. -/
def H5VLdataset_get (_dset : Ptr) (_driver_id : hid_t) (_get_type : Int) (_dxpl_id : hid_t)
    (_req : Ptr) (_arguments : va_list) : herr_t :=
  .FAIL .H5E_UNSUPPORTED

/-- `H5VLdataset_close(dset, driver_id, dxpl_id, req)`. -/
def H5VLdataset_close (_dset : Ptr) (_driver_id : hid_t) (_dxpl_id : hid_t) (_req : Ptr) :
    herr_t :=
  .FAIL .H5E_UNSUPPORTED

/-- `H5VLfile_create(name, flags, fcpl_id, fapl_id, dxpl_id, req)`. -/
def H5VLfile_create (_name : String) (_flags : Nat) (_fcpl_id : hid_t) (_fapl_id : hid_t)
    (_dxpl_id : hid_t) (_req : Ptr) : objptr_t :=
  .NULL .H5E_UNSUPPORTED

/-- `H5VLfile_open(name, flags, fapl_id, dxpl_id, req)`. -/
def H5VLfile_open (_name : String) (_flags : Nat) (_fapl_id : hid_t) (_dxpl_id : hid_t)
    (_req : Ptr) : objptr_t :=
  .NULL .H5E_UNSUPPORTED

/-- `H5VLfile_get(file, driver_id, get_type, dxpl_id, req, arguments)`. -/
def H5VLfile_get (_file : Ptr) (_driver_id : hid_t) (_get_type : Int) (_dxpl_id : hid_t)
    (_req : Ptr) (_arguments : va_list) : herr_t :=
  .FAIL .H5E_UNSUPPORTED

/-- `H5VLfile_close(file, driver_id, dxpl_id, req)`. -/
def H5VLfile_close (_file : Ptr) (_driver_id : hid_t) (_dxpl_id : hid_t) (_req : Ptr) : herr_t :=
  .FAIL .H5E_UNSUPPORTED

/-- `H5VLgroup_create(obj, loc_params, driver_id, name, gcpl_id, gapl_id,
dxpl_id, req)`. -/
def H5VLgroup_create (_obj : Ptr) (_loc_params : Nat) (_driver_id : hid_t) (_name : String)
    (_gcpl_id : hid_t) (_gapl_id : hid_t) (_dxpl_id : hid_t) (_req : Ptr) : objptr_t :=
  .NULL .H5E_UNSUPPORTED

/-- `H5VLgroup_open(obj, loc_params, driver_id, name, gapl_id, dxpl_id, req)`.
-/
def H5VLgroup_open (_obj : Ptr) (_loc_params : Nat) (_driver_id : hid_t) (_name : String)
    (_gapl_id : hid_t) (_dxpl_id : hid_t) (_req : Ptr) : objptr_t :=
  .NULL .H5E_UNSUPPORTED

/-- `H5VLgroup_get(obj, driver_id, get_type, dxpl_id, req, arguments)`: the
body raises no error, so the initial `ret_value = SUCCEED` is returned. -/
def H5VLgroup_get (_obj : Ptr) (_driver_id : hid_t) (_get_type : Int) (_dxpl_id : hid_t)
    (_req : Ptr) (_arguments : va_list) : herr_t :=
  .SUCCEED

/-- `H5VLgroup_close(grp, driver_id, dxpl_id, req)`. -/
def H5VLgroup_close (_grp : Ptr) (_driver_id : hid_t) (_dxpl_id : hid_t) (_req : Ptr) : herr_t :=
  .FAIL .H5E_UNSUPPORTED

/-- `H5VLlink_create(create_type, obj, loc_params, driver_id, lcpl_id,
lapl_id, dxpl_id, req)`. -/
def H5VLlink_create (_create_type : Int) (_obj : Ptr) (_loc_params : Nat) (_driver_id : hid_t)
    (_lcpl_id : hid_t) (_lapl_id : hid_t) (_dxpl_id : hid_t) (_req : Ptr) : herr_t :=
  .FAIL .H5E_UNSUPPORTED

/-- `H5VLlink_copy(src_obj, loc_params1, dst_obj, loc_params2, driver_id,
lcpl_id, lapl_id, dxpl_id, req)`. -/
def H5VLlink_copy (_src_obj : Ptr) (_loc_params1 : Nat) (_dst_obj : Ptr) (_loc_params2 : Nat)
    (_driver_id : hid_t) (_lcpl_id : hid_t) (_lapl_id : hid_t) (_dxpl_id : hid_t) (_req : Ptr) :
    herr_t :=
  .FAIL .H5E_UNSUPPORTED

/-- `H5VLlink_move(src_obj, loc_params1, dst_obj, loc_params2, driver_id,
lcpl_id, lapl_id, dxpl_id, req)`. -/
def H5VLlink_move (_src_obj : Ptr) (_loc_params1 : Nat) (_dst_obj : Ptr) (_loc_params2 : Nat)
    (_driver_id : hid_t) (_lcpl_id : hid_t) (_lapl_id : hid_t) (_dxpl_id : hid_t) (_req : Ptr) :
    herr_t :=
  .FAIL .H5E_UNSUPPORTED

/-- `H5VLlink_get(obj, loc_params, driver_id, get_type, dxpl_id, req,
arguments)`. -/
def H5VLlink_get (_obj : Ptr) (_loc_params : Nat) (_driver_id : hid_t) (_get_type : Int)
    (_dxpl_id : hid_t) (_req : Ptr) (_arguments : va_list) : herr_t :=
  .FAIL .H5E_UNSUPPORTED

/-- `H5VLobject_open(obj, params, driver_id, opened_type, dxpl_id, req)`. -/
def H5VLobject_open (_obj : Ptr) (_params : Nat) (_driver_id : hid_t) (_opened_type : Ptr)
    (_dxpl_id : hid_t) (_req : Ptr) : objptr_t :=
  .NULL .H5E_UNSUPPORTED

/-- `H5VLobject_copy(src_obj, loc_params1, driver_id1, src_name, dst_obj,
loc_params2, driver_id2, dst_name, ocpypl_id, lcpl_id, dxpl_id, req)`. -/
def H5VLobject_copy (_src_obj : Ptr) (_loc_params1 : Nat) (_driver_id1 : hid_t)
    (_src_name : String) (_dst_obj : Ptr) (_loc_params2 : Nat) (_driver_id2 : hid_t)
    (_dst_name : String) (_ocpypl_id : hid_t) (_lcpl_id : hid_t) (_dxpl_id : hid_t) (_req : Ptr) :
    herr_t :=
  .FAIL .H5E_UNSUPPORTED

/-- `H5VLobject_get(obj, loc_params, driver_id, get_type, dxpl_id, req,
arguments)`. -/
def H5VLobject_get (_obj : Ptr) (_loc_params : Nat) (_driver_id : hid_t) (_get_type : Int)
    (_dxpl_id : hid_t) (_req : Ptr) (_arguments : va_list) : herr_t :=
  .FAIL .H5E_UNSUPPORTED

/-- `H5VLdatatype_commit(obj, loc_params, driver_id, name, type_id, lcpl_id,
tcpl_id, tapl_id, dxpl_id, req)`. -/
def H5VLdatatype_commit (_obj : Ptr) (_loc_params : Nat) (_driver_id : hid_t) (_name : String)
    (_type_id : hid_t) (_lcpl_id : hid_t) (_tcpl_id : hid_t) (_tapl_id : hid_t)
    (_dxpl_id : hid_t) (_req : Ptr) : objptr_t :=
  .NULL .H5E_UNSUPPORTED

/-- `H5VLdatatype_open(obj, loc_params, driver_id, name, tapl_id, dxpl_id,
req)`. -/
def H5VLdatatype_open (_obj : Ptr) (_loc_params : Nat) (_driver_id : hid_t) (_name : String)
    (_tapl_id : hid_t) (_dxpl_id : hid_t) (_req : Ptr) : objptr_t :=
  .NULL .H5E_UNSUPPORTED

/-- `H5VLdatatype_get(obj, driver_id, get_type, dxpl_id, req, arguments)`. -/
def H5VLdatatype_get (_obj : Ptr) (_driver_id : hid_t) (_get_type : Int) (_dxpl_id : hid_t)
    (_req : Ptr) (_arguments : va_list) : herr_t :=
  .FAIL .H5E_UNSUPPORTED

/-- `H5VLdatatype_close(dt, driver_id, dxpl_id, req)`. -/
def H5VLdatatype_close (_dt : Ptr) (_driver_id : hid_t) (_dxpl_id : hid_t) (_req : Ptr) :
    herr_t :=
  .FAIL .H5E_UNSUPPORTED

/-- The dispatch entry points of `H5VL.c`, one per function `H5VL<name>`: the
three request calls and the calls of the seven domains. -/
inductive EntryPoint where
  | request_cancel
  | request_test
  | request_wait
  | attr_create
  | attr_open
  | attr_read
  | attr_write
  | attr_get
  | attr_specific
  | attr_optional
  | attr_close
  | dataset_create
  | dataset_open
  | dataset_read
  | dataset_write
  | dataset_get
  | dataset_specific
  | dataset_optional
  | dataset_close
  | file_create
  | file_open
  | file_get
  | file_specific
  | file_optional
  | file_close
  | group_create
  | group_open
  | group_get
  | group_specific
  | group_optional
  | group_close
  | link_create
  | link_copy
  | link_move
  | link_get
  | link_specific
  | link_optional
  | object_open
  | object_copy
  | object_get
  | object_specific
  | object_optional
  | datatype_commit
  | datatype_open
  | datatype_specific
  | datatype_optional
  | datatype_get
  | datatype_close
  deriving DecidableEq, Repr

/-- The arguments of a call of an entry point: the parameters of
`DispatchArgs` and every other parameter some entry point has.  `id1` to `id4`
are the identifiers of property lists, types and spaces in the order of the
parameter list, `out` is a pointer the call may write a status or a type to,
and the second location, driver and name are those of the destination of a
copy or a move. -/
structure EntryArgs extends DispatchArgs where
  dst_obj : Ptr
  loc_params2 : Nat
  driver_id2 : hid_t
  name : String
  dst_name : String
  flags : Nat
  id1 : hid_t
  id2 : hid_t
  id3 : hid_t
  id4 : hid_t
  buf : Ptr
  out : Ptr

/-- What a call of an entry point returns: a status, or an object pointer. -/
inductive EntryResult where
  | status (r : herr_t)
  | object (p : objptr_t)
  deriving DecidableEq, Repr

/-- The call of an entry point with its parameters taken from `a`. -/
def EntryPoint.call (e : EntryPoint) (a : EntryArgs) : EntryResult :=
  match e with
  | .request_cancel => .status (H5VLrequest_cancel a.req a.driver_id a.out)
  | .request_test => .status (H5VLrequest_test a.req a.driver_id a.out)
  | .request_wait => .status (H5VLrequest_wait a.req a.driver_id a.out)
  | .attr_create =>
    .object (H5VLattr_create a.obj a.loc_params a.driver_id a.name a.id1 a.id2 a.dxpl_id a.req)
  | .attr_open =>
    .object (H5VLattr_open a.obj a.loc_params a.driver_id a.name a.id1 a.dxpl_id a.req)
  | .attr_read => .status (H5VLattr_read a.obj a.driver_id a.id1 a.buf a.dxpl_id a.req)
  | .attr_write => .status (H5VLattr_write a.obj a.driver_id a.id1 a.buf a.dxpl_id a.req)
  | .attr_get => .status (H5VLattr_get a.obj a.driver_id a.op_type a.dxpl_id a.req a.arguments)
  | .attr_specific => .status (dispatchSpecific .Attribute a.toDispatchArgs)
  | .attr_optional => .status (dispatchOptional .Attribute a.toDispatchArgs)
  | .attr_close => .status (H5VLattr_close a.obj a.driver_id a.dxpl_id a.req)
  | .dataset_create =>
    .object (H5VLdataset_create a.obj a.loc_params a.driver_id a.name a.id1 a.id2 a.dxpl_id
      a.req)
  | .dataset_open =>
    .object (H5VLdataset_open a.obj a.loc_params a.driver_id a.name a.id1 a.dxpl_id a.req)
  | .dataset_read =>
    .status (H5VLdataset_read a.obj a.driver_id a.id1 a.id2 a.id3 a.dxpl_id a.buf a.req)
  | .dataset_write =>
    .status (H5VLdataset_write a.obj a.driver_id a.id1 a.id2 a.id3 a.dxpl_id a.buf a.req)
  | .dataset_get =>
    .status (H5VLdataset_get a.obj a.driver_id a.op_type a.dxpl_id a.req a.arguments)
  | .dataset_specific => .status (dispatchSpecific .Dataset a.toDispatchArgs)
  | .dataset_optional => .status (dispatchOptional .Dataset a.toDispatchArgs)
  | .dataset_close => .status (H5VLdataset_close a.obj a.driver_id a.dxpl_id a.req)
  | .file_create => .object (H5VLfile_create a.name a.flags a.id1 a.id2 a.dxpl_id a.req)
  | .file_open => .object (H5VLfile_open a.name a.flags a.id1 a.dxpl_id a.req)
  | .file_get => .status (H5VLfile_get a.obj a.driver_id a.op_type a.dxpl_id a.req a.arguments)
  | .file_specific => .status (dispatchSpecific .File a.toDispatchArgs)
  | .file_optional => .status (dispatchOptional .File a.toDispatchArgs)
  | .file_close => .status (H5VLfile_close a.obj a.driver_id a.dxpl_id a.req)
  | .group_create =>
    .object (H5VLgroup_create a.obj a.loc_params a.driver_id a.name a.id1 a.id2 a.dxpl_id
      a.req)
  | .group_open =>
    .object (H5VLgroup_open a.obj a.loc_params a.driver_id a.name a.id1 a.dxpl_id a.req)
  | .group_get => .status (H5VLgroup_get a.obj a.driver_id a.op_type a.dxpl_id a.req a.arguments)
  | .group_specific => .status (dispatchSpecific .Group a.toDispatchArgs)
  | .group_optional => .status (dispatchOptional .Group a.toDispatchArgs)
  | .group_close => .status (H5VLgroup_close a.obj a.driver_id a.dxpl_id a.req)
  | .link_create =>
    .status (H5VLlink_create a.op_type a.obj a.loc_params a.driver_id a.id1 a.id2 a.dxpl_id
      a.req)
  | .link_copy =>
    .status (H5VLlink_copy a.obj a.loc_params a.dst_obj a.loc_params2 a.driver_id a.id1 a.id2
      a.dxpl_id a.req)
  | .link_move =>
    .status (H5VLlink_move a.obj a.loc_params a.dst_obj a.loc_params2 a.driver_id a.id1 a.id2
      a.dxpl_id a.req)
  | .link_get =>
    .status (H5VLlink_get a.obj a.loc_params a.driver_id a.op_type a.dxpl_id a.req a.arguments)
  | .link_specific => .status (dispatchSpecific .Link a.toDispatchArgs)
  | .link_optional => .status (dispatchOptional .Link a.toDispatchArgs)
  | .object_open => .object (H5VLobject_open a.obj a.loc_params a.driver_id a.out a.dxpl_id a.req)
  | .object_copy =>
    .status (H5VLobject_copy a.obj a.loc_params a.driver_id a.name a.dst_obj a.loc_params2
      a.driver_id2 a.dst_name a.id1 a.id2 a.dxpl_id a.req)
  | .object_get =>
    .status (H5VLobject_get a.obj a.loc_params a.driver_id a.op_type a.dxpl_id a.req
      a.arguments)
  | .object_specific => .status (dispatchSpecific .Object a.toDispatchArgs)
  | .object_optional => .status (dispatchOptional .Object a.toDispatchArgs)
  | .datatype_commit =>
    .object (H5VLdatatype_commit a.obj a.loc_params a.driver_id a.name a.id1 a.id2 a.id3 a.id4
      a.dxpl_id a.req)
  | .datatype_open =>
    .object (H5VLdatatype_open a.obj a.loc_params a.driver_id a.name a.id1 a.dxpl_id a.req)
  | .datatype_specific => .status (dispatchSpecific .Datatype a.toDispatchArgs)
  | .datatype_optional => .status (dispatchOptional .Datatype a.toDispatchArgs)
  | .datatype_get =>
    .status (H5VLdatatype_get a.obj a.driver_id a.op_type a.dxpl_id a.req a.arguments)
  | .datatype_close => .status (H5VLdatatype_close a.obj a.driver_id a.dxpl_id a.req)

/-- Whether the entry point returns an object pointer (`void *`) and not a
status (`herr_t`): the create, open and commit calls but `H5VLlink_create`. -/
def EntryPoint.returnsObject : EntryPoint → Bool
  | .attr_create => true
  | .attr_open => true
  | .dataset_create => true
  | .dataset_open => true
  | .file_create => true
  | .file_open => true
  | .group_create => true
  | .group_open => true
  | .object_open => true
  | .datatype_commit => true
  | .datatype_open => true
  | _ => false

/-- Whether the entry point has a parameter `driver_id`: all but
`H5VLfile_create` and `H5VLfile_open`. -/
def EntryPoint.takesDriverId : EntryPoint → Bool
  | .file_create => false
  | .file_open => false
  | _ => true

/-- An invocation of an implementation from the function table of a
descriptor, with the argument list passed. -/
structure BackendCall where
  domain : Domain
  verb : Verb
  arguments : va_list
  deriving DecidableEq, Repr

/-- What a call of an entry point leaves behind: the value returned, the
implementations of the descriptor invoked, and the registry. -/
structure EntryOutcome where
  ret : EntryResult
  invoked : List BackendCall
  reg : Registry

/-- A call of an entry point in the registry `R`.  No body of an entry point
names the registry, the descriptor or a member of it (`H5I_object_verify` is
not called, no function pointer is called): nothing is invoked and the
registry is the one before the call. -/
def callEntry (R : Registry) (e : EntryPoint) (a : EntryArgs) : EntryOutcome :=
  { ret := e.call a, invoked := [], reg := R }

/-- A descriptor named `"impl"` whose function table has one entry, an
implementation of `Read` for datasets that returns 0 (success). -/
def implDriver : H5VL_class_t :=
  { name := some "impl", initialize_hook := none, terminate_hook := none,
    table := fun d v => if d = .Dataset ∧ v = .Read then some (fun _ => 0) else none }

/-- The registry holding `implDriver` under identifier 0. -/
def regImpl : Registry :=
  { entries := [{ id := 0, cls := implDriver, refs := 1 }], next := 1 }

/-- Some arguments for a call of an entry point on the driver with
identifier 0. -/
def sampleEntryArgs : EntryArgs :=
  { sampleArgs with
    dst_obj := 2, loc_params2 := 0, driver_id2 := 0, name := "x", dst_name := "y", flags := 0,
    id1 := 0, id2 := 0, id3 := 0, id4 := 0, buf := 3, out := 4 }

/-- The arguments `sampleEntryArgs` with the identifier 7, which no registry
of the samples holds, for the driver. -/
def strayEntryArgs : EntryArgs :=
  { sampleEntryArgs with driver_id := 7 }

end H5VL

namespace H5Fstdio

/-! ## The stream and the directory -/

theorem lookup_store (fs : FileSys) (name : String) (d : List uint8) :
    (fs.store name d).lookup name = some d := by
  simp [FileSys.store, FileSys.lookup, List.find?]

theorem access_lt_iff (fs : FileSys) (name : String) :
    access fs name < 0 ↔ fs.lookup name = none := by
  unfold access
  cases h : fs.lookup name <;> simp

theorem fopen_some (fs : FileSys) (name : String) (mode : fmode) (script : List (Option Nat))
    (f : FILE) (fs1 : FileSys) (h : fopen fs name mode script = (some f, fs1)) :
    scriptHead script = none ∧ f.faults = script.tail ∧ f.pos = 0 ∧
    fs1.lookup name = some f.data ∧
    (mode = .wb_plus → f.data = [] ∧ f.writable = true) ∧
    (mode = .rb_plus → fs1 = fs ∧ fs.lookup name = some f.data ∧ f.writable = true) ∧
    (mode = .rb → fs1 = fs ∧ fs.lookup name = some f.data ∧ f.writable = false) := by
  unfold fopen at h
  cases hs : scriptHead script with
  | some k => simp [hs] at h
  | none =>
    simp only [hs] at h
    cases mode with
    | wb_plus =>
      simp only [Prod.mk.injEq, Option.some.injEq] at h
      obtain ⟨rfl, rfl⟩ := h
      simp [FILE.fresh, lookup_store]
    | rb_plus =>
      cases hl : fs.lookup name with
      | none => simp [hl] at h
      | some d =>
        simp only [hl, Prod.mk.injEq, Option.some.injEq] at h
        obtain ⟨rfl, rfl⟩ := h
        simp [FILE.fresh, hl]
    | rb =>
      cases hl : fs.lookup name with
      | none => simp [hl] at h
      | some d =>
        simp only [hl, Prod.mk.injEq, Option.some.injEq] at h
        obtain ⟨rfl, rfl⟩ := h
        simp [FILE.fresh, hl]

theorem fseek_neg_iff (f : FILE) (offset : Nat) :
    (fseek f offset).1 < 0 ↔ f.nextFault ≠ none := by
  cases hq : f.nextFault <;> simp [fseek, hq]

theorem storeAt_read_back (data : List uint8) (pos : Nat) (bytes : List uint8) :
    ((storeAt data pos bytes).drop pos).take bytes.length = bytes := by
  unfold storeAt
  by_cases hb : bytes = []
  · simp [hb]
  · simp only [hb, if_false]
    have hlen : ((data ++ List.replicate (pos - data.length) 0).take pos).length = pos := by
      simp
      omega
    rw [List.append_assoc, List.drop_append_of_le_length (le_of_eq hlen.symm)]
    rw [List.drop_of_length_le (le_of_eq hlen), List.nil_append]
    simp

theorem fread_clean (f : FILE) (buf : Buffer) (size : Nat) (h : f.nextFault = none) :
    (fread f buf size).1 = (f.avail size).length ∧
    (∀ i, i < (f.avail size).length → (fread f buf size).2.1 i = (f.avail size).getD i 0) ∧
    (fread f buf size).2.2.pos = f.pos + (f.avail size).length := by
  simp only [fread, h]
  refine ⟨trivial, ?_, trivial⟩
  intro i hi
  simp [hi]

/-! ## Opening -/

theorem open_handle_data (f : FILE) :
    (H5F_stdio_open_handle f).f.data = f.data ∧
    (H5F_stdio_open_handle f).f.writable = f.writable := by
  cases h : f.nextFault <;> simp [H5F_stdio_open_handle, fseek_end, ftell, FILE.step, h]

theorem open_handle_eof (f : FILE) :
    (f.nextFault = none →
      (H5F_stdio_open_handle f).eof = f.data.length ∧
      (H5F_stdio_open_handle f).op = .H5F_OP_SEEK) ∧
    (f.nextFault.isSome →
      (H5F_stdio_open_handle f).eof = 0 ∧
      (H5F_stdio_open_handle f).op = .H5F_OP_UNKNOWN) := by
  cases h : f.nextFault <;>
    simp [H5F_stdio_open_handle, fseek_end, ftell, FILE.step, H5F_addr_inc, H5F_addr_reset, h]

theorem open_via_fopen (P : Platform) (fs : FileSys) (name : String) (flags : Nat)
    (script : List (Option Nat)) (mode : fmode)
    (hs : H5F_stdio_open_stream P fs name flags script =
      (.ok (fopen fs name mode script).1, (fopen fs name mode script).2)) :
    (∀ h, (H5F_stdio_open P fs name flags script).handle = .ok h →
      ∃ f, fopen fs name mode script = (some f, (H5F_stdio_open P fs name flags script).fs) ∧
        h = H5F_stdio_open_handle f) ∧
    (∀ f fs1, fopen fs name mode script = (some f, fs1) →
      (H5F_stdio_open P fs name flags script).handle = .ok (H5F_stdio_open_handle f) ∧
      (H5F_stdio_open P fs name flags script).fs = fs1) ∧
    ((fopen fs name mode script).1 = none →
      (H5F_stdio_open P fs name flags script).handle = .error .H5E_CANTOPENFILE) := by
  unfold H5F_stdio_open
  rw [hs]
  cases hf : fopen fs name mode script with
  | mk o fs1 =>
    cases o with
    | none => simp
    | some f => simp

/-- The `fopen` call behind an open that does not fail early. -/
theorem open_stream_mode (P : Platform) (fs : FileSys) (name : String) (flags : Nat)
    (script : List (Option Nat)) :
    (fs.lookup name = none → flagSet flags P.H5F_ACC_CREAT → flagSet flags P.H5F_ACC_RDWR →
      H5F_stdio_open_stream P fs name flags script =
        (.ok (fopen fs name .wb_plus script).1, (fopen fs name .wb_plus script).2)) ∧
    (fs.lookup name ≠ none →
      ¬ (flagSet flags P.H5F_ACC_CREAT ∧ flagSet flags P.H5F_ACC_EXCL) →
      (flagSet flags P.H5F_ACC_RDWR → flagSet flags P.H5F_ACC_TRUNC →
        H5F_stdio_open_stream P fs name flags script =
          (.ok (fopen fs name .wb_plus script).1, (fopen fs name .wb_plus script).2)) ∧
      (flagSet flags P.H5F_ACC_RDWR → ¬ flagSet flags P.H5F_ACC_TRUNC →
        H5F_stdio_open_stream P fs name flags script =
          (.ok (fopen fs name .rb_plus script).1, (fopen fs name .rb_plus script).2)) ∧
      (¬ flagSet flags P.H5F_ACC_RDWR →
        H5F_stdio_open_stream P fs name flags script =
          (.ok (fopen fs name .rb script).1, (fopen fs name .rb script).2))) := by
  constructor
  · intro hl hc hr
    have ha : access fs name < 0 := (access_lt_iff fs name).2 hl
    simp [H5F_stdio_open_stream, ha, hc, hr]
  · intro hl hne
    have ha : ¬ access fs name < 0 := fun h => hl ((access_lt_iff fs name).1 h)
    refine ⟨?_, ?_, ?_⟩
    · intro hr ht
      simp only [H5F_stdio_open_stream, ha, hne, hr, ht, if_true, if_false]
    · intro hr ht
      simp only [H5F_stdio_open_stream, ha, hne, hr, ht, if_true, if_false]
    · intro hr
      simp only [H5F_stdio_open_stream, ha, hne, hr, if_false]

theorem open_fails_early (P : Platform) (fs : FileSys) (name : String) (flags : Nat)
    (script : List (Option Nat)) (e : H5E_minor)
    (hs : H5F_stdio_open_stream P fs name flags script = (.error e, fs)) :
    (H5F_stdio_open P fs name flags script).handle = .error e ∧
    (H5F_stdio_open P fs name flags script).fs = fs := by
  unfold H5F_stdio_open
  rw [hs]
  exact ⟨rfl, rfl⟩

/-- The shape of every successful open: a stream obtained from `fopen` in the
mode the flags select, wrapped by `H5F_stdio_open_handle`. -/
theorem open_ok_shape (P : Platform) (fs : FileSys) (name : String) (flags : Nat)
    (script : List (Option Nat)) (h : H5F_low_t)
    (hopen : (H5F_stdio_open P fs name flags script).handle = .ok h) :
    ∃ f mode, fopen fs name mode script = (some f, (H5F_stdio_open P fs name flags script).fs) ∧
      h = H5F_stdio_open_handle f ∧
      (fs.lookup name = none ∨
        (flagSet flags P.H5F_ACC_RDWR ∧ flagSet flags P.H5F_ACC_TRUNC) → mode = .wb_plus) := by
  by_cases hl : fs.lookup name = none
  · by_cases hc : flagSet flags P.H5F_ACC_CREAT ∧ flagSet flags P.H5F_ACC_RDWR
    · have hm := (open_stream_mode P fs name flags script).1 hl hc.1 hc.2
      obtain ⟨f, hf, hh⟩ := (open_via_fopen P fs name flags script _ hm).1 h hopen
      exact ⟨f, _, hf, hh, fun _ => rfl⟩
    · have ha : access fs name < 0 := (access_lt_iff fs name).2 hl
      have := (open_fails_early P fs name flags script .H5E_CANTOPENFILE
        (by simp [H5F_stdio_open_stream, ha, hc])).1
      rw [this] at hopen
      cases hopen
  · by_cases hx : flagSet flags P.H5F_ACC_CREAT ∧ flagSet flags P.H5F_ACC_EXCL
    · have ha : ¬ access fs name < 0 := fun h => hl ((access_lt_iff fs name).1 h)
      have := (open_fails_early P fs name flags script .H5E_FILEEXISTS
        (by simp [H5F_stdio_open_stream, ha, hx])).1
      rw [this] at hopen
      cases hopen
    · obtain ⟨hm1, hm2, hm3⟩ := (open_stream_mode P fs name flags script).2 hl hx
      by_cases hr : flagSet flags P.H5F_ACC_RDWR
      · by_cases ht : flagSet flags P.H5F_ACC_TRUNC
        · obtain ⟨f, hf, hh⟩ := (open_via_fopen P fs name flags script _ (hm1 hr ht)).1 h hopen
          exact ⟨f, _, hf, hh, fun _ => rfl⟩
        · obtain ⟨f, hf, hh⟩ := (open_via_fopen P fs name flags script _ (hm2 hr ht)).1 h hopen
          refine ⟨f, _, hf, hh, ?_⟩
          rintro (h1 | h1)
          · exact absurd h1 hl
          · exact absurd h1.2 ht
      · obtain ⟨f, hf, hh⟩ := (open_via_fopen P fs name flags script _ (hm3 hr)).1 h hopen
        refine ⟨f, _, hf, hh, ?_⟩
        rintro (h1 | h1)
        · exact absurd h1 hl
        · exact absurd h1.1 hr

/-! ## The seek block -/

theorem seekBlock_frame (P : Platform) (lf : H5F_low_t) (me : H5F_fileop_t) (offset : Nat) :
    (seekBlock P lf me offset).2.eof = lf.eof ∧
    (seekBlock P lf me offset).2.op = lf.op ∧
    (seekBlock P lf me offset).2.f.data = lf.f.data ∧
    (seekBlock P lf me offset).2.f.writable = lf.f.writable ∧
    (seekBlock P lf me offset).2.f.err = lf.f.err := by
  unfold seekBlock
  dsimp only
  split_ifs <;> simp [fseek, FILE.step] <;> cases lf.f.nextFault <;> simp

theorem seekBlock_fail (P : Platform) (lf : H5F_low_t) (me : H5F_fileop_t) (offset : Nat)
    (h : (seekBlock P lf me offset).1 < 0) :
    (P.H5F_OPT_SEEK = false ∨ lf.op ≠ me ∨ lf.cur ≠ offset) ∧
    lf.f.nextFault ≠ none ∧
    (seekBlock P lf me offset).2 = { lf with f := lf.f.step (.fseek_set offset) } := by
  unfold seekBlock at h ⊢
  by_cases hs : P.H5F_OPT_SEEK = false ∨ lf.op ≠ me ∨ lf.cur ≠ offset
  · simp only [hs, if_true] at h ⊢
    cases hq : lf.f.nextFault with
    | none => simp [fseek, hq] at h
    | some k => simp [fseek, hq]
  · simp [hs] at h

theorem seekBlock_ok (P : Platform) (lf : H5F_low_t) (me : H5F_fileop_t) (offset : Nat)
    (h : ¬ (seekBlock P lf me offset).1 < 0) :
    ((P.H5F_OPT_SEEK = false ∨ lf.op ≠ me ∨ lf.cur ≠ offset) ∧ lf.f.nextFault = none ∧
      (seekBlock P lf me offset).2 =
        { lf with f := { lf.f.step (.fseek_set offset) with pos := offset }, cur := offset }) ∨
    (¬ (P.H5F_OPT_SEEK = false ∨ lf.op ≠ me ∨ lf.cur ≠ offset) ∧
      (seekBlock P lf me offset).2 = lf) := by
  unfold seekBlock at h ⊢
  by_cases hs : P.H5F_OPT_SEEK = false ∨ lf.op ≠ me ∨ lf.cur ≠ offset
  · simp only [hs, if_true] at h ⊢
    cases hq : lf.f.nextFault with
    | none => simp [fseek, hq]
    | some k => simp [fseek, hq] at h
  · simp [hs]

/-- The stream the seek block leaves when the seek is skipped or succeeds is
positioned at `offset`, for a handle that tracks its position. -/
theorem seekBlock_pos (P : Platform) (lf : H5F_low_t) (me : H5F_fileop_t) (offset : Nat)
    (hme : me = .H5F_OP_READ ∨ me = .H5F_OP_WRITE) (ht : lf.tracked)
    (h : ¬ (seekBlock P lf me offset).1 < 0) :
    (seekBlock P lf me offset).2.f.pos = offset ∧ (seekBlock P lf me offset).2.cur = offset := by
  rcases seekBlock_ok P lf me offset h with ⟨_, _, he⟩ | ⟨hs, he⟩
  · rw [he]; exact ⟨rfl, rfl⟩
  · rw [he]
    push_neg at hs
    have hop : lf.op = me := hs.2.1
    have hcur : lf.cur = offset := hs.2.2
    have := ht (by rw [hop]; exact hme)
    exact ⟨by rw [← this, hcur], hcur⟩

/-! ## Read and write, case by case -/

theorem mask_eq (P : Platform) (hN : P.offBits ≤ 64) :
    2 ^ (P.offBits - 1) % 2 ^ 64 = 2 ^ (P.offBits - 1) := by
  apply Nat.mod_eq_of_lt
  exact Nat.pow_lt_pow_right (by norm_num) (by omega)

theorem addrOverflows_iff (P : Platform) (addr size : Nat) (hN : P.offBits ≤ 64)
    (ha : addr < 2 ^ 64) (hs : size < 2 ^ 64) :
    addrOverflows P addr size ↔ 2 ^ (P.offBits - 1) ≤ addr + size := by
  unfold addrOverflows
  rw [mask_eq P hN]
  have hM : 2 ^ (P.offBits - 1) ≤ 2 ^ 63 := Nat.pow_le_pow_right (by norm_num) (by omega)
  generalize 2 ^ (P.offBits - 1) = M at hM ⊢
  norm_num at ha hs hM ⊢
  omega

theorem sizetSum_le (P : Platform) (offset size : Nat) :
    sizetSum P offset size ≤ offset + size := by
  unfold sizetSum
  calc (offset % 2 ^ P.sizeBits + size) % 2 ^ P.sizeBits
      ≤ offset % 2 ^ P.sizeBits + size := Nat.mod_le _ _
    _ ≤ offset + size := Nat.add_le_add_right (Nat.mod_le _ _) _

theorem zeroTail_inside (P : Platform) (eof offset size : Nat) (h : offset + size ≤ eof) :
    ¬ eof < sizetSum P offset size ∧ zeroTail P eof offset size = 0 := by
  have := sizetSum_le P offset size
  have hn : ¬ eof < sizetSum P offset size := by omega
  exact ⟨hn, by simp [zeroTail, hn]⟩

theorem read_overflow (P : Platform) (lf : H5F_low_t) (addr size : Nat) (buf : Buffer)
    (h : addrOverflows P addr size) :
    H5F_stdio_read P lf addr size buf = { ret := .FAIL .H5E_OVERFLOW, lf := lf, buf := buf } := by
  simp [H5F_stdio_read, h]

theorem read_reaches_medium (P : Platform) (lf : H5F_low_t) (addr size : Nat) (buf : Buffer)
    (ho : ¬ addrOverflows P addr size) (hz : 0 ≠ size) (he : ¬ lf.eof ≤ addr) :
    H5F_stdio_read P lf addr size buf =
      if (seekBlock P lf .H5F_OP_READ addr).1 < 0 then
        { ret := .FAIL .H5E_SEEKERROR, lf := (seekBlock P lf .H5F_OP_READ addr).2, buf := buf }
      else readData P (seekBlock P lf .H5F_OP_READ addr).2 addr size buf := by
  simp [H5F_stdio_read, ho, hz, he]

theorem write_overflow (P : Platform) (lf : H5F_low_t) (addr size : Nat) (buf : Buffer)
    (h : addrOverflows P addr size) :
    H5F_stdio_write P lf addr size buf = { ret := .FAIL .H5E_OVERFLOW, lf := lf } := by
  simp [H5F_stdio_write, h]

theorem write_reaches_medium (P : Platform) (lf : H5F_low_t) (addr size : Nat) (buf : Buffer)
    (ho : ¬ addrOverflows P addr size) :
    H5F_stdio_write P lf addr size buf =
      if (seekBlock P lf .H5F_OP_WRITE addr).1 < 0 then
        { ret := .FAIL .H5E_SEEKERROR, lf := (seekBlock P lf .H5F_OP_WRITE addr).2 }
      else writeData (seekBlock P lf .H5F_OP_WRITE addr).2 addr size buf := by
  simp [H5F_stdio_write, ho]

theorem readData_ret (P : Platform) (lf : H5F_low_t) (offset size : Nat) (buf : Buffer) :
    (readData P lf offset size buf).ret = .SUCCEED ∨
    ((readData P lf offset size buf).ret = .FAIL .H5E_READERROR ∧
      (readData P lf offset size buf).lf.op = .H5F_OP_UNKNOWN) := by
  unfold readData
  dsimp only
  split_ifs <;> simp

theorem readData_eof (P : Platform) (lf : H5F_low_t) (offset size : Nat) (buf : Buffer) :
    (readData P lf offset size buf).lf.eof = lf.eof := by
  unfold readData
  dsimp only
  split_ifs <;> rfl

theorem writeData_ret (lf : H5F_low_t) (offset size : Nat) (buf : Buffer) :
    ((writeData lf offset size buf).ret = .SUCCEED ∧
      (writeData lf offset size buf).lf.op = .H5F_OP_WRITE) ∨
    ((writeData lf offset size buf).ret = .FAIL .H5E_WRITEERROR ∧
      (writeData lf offset size buf).lf.op = .H5F_OP_UNKNOWN) := by
  unfold writeData
  dsimp only
  split_ifs <;> simp

theorem writeData_eof (lf : H5F_low_t) (offset size : Nat) (buf : Buffer) :
    (writeData lf offset size buf).lf.eof = lf.eof := by
  unfold writeData
  dsimp only
  split_ifs <;> rfl

theorem read_overflow_iff (P : Platform) (lf : H5F_low_t) (addr size : Nat) (buf : Buffer) :
    (H5F_stdio_read P lf addr size buf).ret = .FAIL .H5E_OVERFLOW ↔ addrOverflows P addr size := by
  by_cases h : addrOverflows P addr size
  · simp [read_overflow, h]
  · simp only [h, iff_false]
    unfold H5F_stdio_read
    simp only [h, if_false]
    split_ifs
    · simp
    · simp
    · simp
    · rcases readData_ret P (seekBlock P lf .H5F_OP_READ addr).2 addr size buf with h1 | h1
      · rw [h1]; simp
      · rw [h1.1]; simp

theorem write_overflow_iff (P : Platform) (lf : H5F_low_t) (addr size : Nat) (buf : Buffer) :
    (H5F_stdio_write P lf addr size buf).ret = .FAIL .H5E_OVERFLOW ↔ addrOverflows P addr size := by
  by_cases h : addrOverflows P addr size
  · simp [write_overflow, h]
  · simp only [h, iff_false]
    rw [write_reaches_medium P lf addr size buf h]
    split_ifs
    · simp
    · rcases writeData_ret (seekBlock P lf .H5F_OP_WRITE addr).2 addr size buf with h1 | h1
      · rw [h1.1]; simp
      · rw [h1.1]; simp

theorem write_eof (P : Platform) (lf : H5F_low_t) (addr size : Nat) (buf : Buffer) :
    (H5F_stdio_write P lf addr size buf).lf.eof = lf.eof := by
  unfold H5F_stdio_write
  dsimp only
  split_ifs
  · rfl
  · exact (seekBlock_frame P lf _ addr).1
  · rw [writeData_eof]; exact (seekBlock_frame P lf _ addr).1

theorem read_eof (P : Platform) (lf : H5F_low_t) (addr size : Nat) (buf : Buffer) :
    (H5F_stdio_read P lf addr size buf).lf.eof = lf.eof := by
  unfold H5F_stdio_read
  dsimp only
  split_ifs
  · rfl
  · rfl
  · rfl
  · exact (seekBlock_frame P lf _ addr).1
  · rw [readData_eof]; exact (seekBlock_frame P lf _ addr).1

/-- What a successful write leaves behind. -/
theorem write_succeed (P : Platform) (lf : H5F_low_t) (addr size : Nat) (buf : Buffer)
    (hw : (H5F_stdio_write P lf addr size buf).ret = .SUCCEED) (ht : lf.tracked) :
    ¬ addrOverflows P addr size ∧
    (H5F_stdio_write P lf addr size buf).lf.op = .H5F_OP_WRITE ∧
    (H5F_stdio_write P lf addr size buf).lf.cur = addr + size ∧
    (H5F_stdio_write P lf addr size buf).lf.f.pos = addr + size ∧
    (H5F_stdio_write P lf addr size buf).lf.f.data =
      storeAt lf.f.data addr ((List.range size).map buf) := by
  have ho : ¬ addrOverflows P addr size := by
    intro h; rw [write_overflow P lf addr size buf h] at hw; cases hw
  refine ⟨ho, ?_⟩
  rw [write_reaches_medium P lf addr size buf ho] at hw ⊢
  by_cases hs : (seekBlock P lf .H5F_OP_WRITE addr).1 < 0
  · simp [hs] at hw
  · simp only [hs, if_false] at hw ⊢
    obtain ⟨hpos, _⟩ := seekBlock_pos P lf _ addr (Or.inr rfl) ht hs
    have hdata := (seekBlock_frame P lf .H5F_OP_WRITE addr).2.2.1
    generalize (seekBlock P lf .H5F_OP_WRITE addr).2 = lf1 at hw hpos hdata ⊢
    unfold writeData at hw ⊢
    dsimp only at hw ⊢
    by_cases hn : size ≠ (fwrite lf1.f buf size).1
    · simp [hn] at hw
    · simp only [hn, if_false]
      have hn2 : lf1.f.accepts size = size := by
        simp only [ne_eq, not_not, fwrite] at hn; exact hn.symm
      simp [fwrite, FILE.step, hn2, hpos, hdata]

/-- A read wholly below the logical end of file, served by a medium that holds
the bytes and does not fail, succeeds and delivers the medium's bytes. -/
theorem readData_inside (P : Platform) (lf : H5F_low_t) (offset size : Nat) (buf : Buffer)
    (hin : offset + size ≤ lf.eof) (hpos : 0 < size) (hf : lf.f.nextFault = none)
    (hav : (lf.f.avail size).length = size) :
    (readData P lf offset size buf).ret = .SUCCEED ∧
    ∀ i, i < size → (readData P lf offset size buf).buf i = (lf.f.avail size).getD i 0 := by
  obtain ⟨hn, hz⟩ := zeroTail_inside P lf.eof offset size hin
  obtain ⟨h1, h2, _⟩ := fread_clean lf.f buf size hf
  unfold readData
  simp only [hz, hn, if_false, Nat.sub_zero]
  rw [h1, hav]
  have hne : ¬ (size ≤ 0 ∧ ferror (fread lf.f buf size).2.2 = true) := by omega
  simp only [hne, if_false, Nat.lt_irrefl, true_and]
  intro i hi
  exact h2 i (by rw [hav]; exact hi)

/-! ## What a read returns -/

theorem getD_take_drop (data : List uint8) (pos k i : Nat)
    (hi : i < ((data.drop pos).take k).length) :
    ((data.drop pos).take k).getD i 0 = data.getD (pos + i) 0 := by
  simp only [List.length_take, List.length_drop] at hi
  simp only [List.getD_eq_getElem?_getD]
  rw [List.getElem?_take_of_lt (by omega), List.getElem?_drop]

theorem getD_take_take_drop (data : List uint8) (pos k j i : Nat)
    (hi : i < (((data.drop pos).take k).take j).length) :
    (((data.drop pos).take k).take j).getD i 0 = data.getD (pos + i) 0 := by
  simp only [List.length_take, List.length_drop] at hi
  simp only [List.getD_eq_getElem?_getD]
  rw [List.getElem?_take_of_lt (by omega), List.getElem?_take_of_lt (by omega), List.getElem?_drop]

/-- What `fread` does, whatever the medium does: it delivers at most `size`
bytes, they are the bytes of the file at the position, the rest of the buffer
is untouched, and the call is logged. -/
theorem fread_spec (f : FILE) (buf : Buffer) (size : Nat) :
    (fread f buf size).1 ≤ size ∧
    (∀ i, i < (fread f buf size).1 → (fread f buf size).2.1 i = f.data.getD (f.pos + i) 0) ∧
    (∀ i, (fread f buf size).1 ≤ i → (fread f buf size).2.1 i = buf i) ∧
    (fread f buf size).2.2.calls = f.calls ++ [.fread size] ∧
    (fread f buf size).2.2.pos = f.pos + (fread f buf size).1 ∧
    (fread f buf size).2.2.data = f.data := by
  cases hq : f.nextFault with
  | none =>
    simp only [fread, hq, FILE.step, FILE.avail]
    refine ⟨?_, ?_, ?_, trivial, trivial, trivial⟩
    · simp only [List.length_take]; omega
    · intro i hi
      simp only [hi, if_true]
      exact getD_take_drop f.data f.pos size i hi
    · intro i hi
      have : ¬ i < ((f.data.drop f.pos).take size).length := by omega
      simp only [this, if_false]
  | some k =>
    simp only [fread, hq, FILE.step, FILE.avail]
    refine ⟨?_, ?_, ?_, trivial, trivial, trivial⟩
    · simp only [List.length_take]; omega
    · intro i hi
      simp only [hi, if_true]
      exact getD_take_take_drop f.data f.pos size k i hi
    · intro i hi
      have : ¬ i < (((f.data.drop f.pos).take size).take k).length := by omega
      simp only [this, if_false]

theorem bytesRequested_append (a b : List MediumCall) :
    bytesRequested (a ++ b) = bytesRequested a + bytesRequested b := by
  induction a with
  | nil => simp [bytesRequested]
  | cons c cs ih =>
    cases c <;> simp [bytesRequested, ih]; omega

/-- The zero-filled tail never exceeds the request: `size - nbytes` does not
wrap. -/
theorem zeroTail_lt (P : Platform) (eof offset size : Nat) (h : offset < eof) (hs : 0 < size) :
    zeroTail P eof offset size < size := by
  unfold zeroTail
  split_ifs with hc
  · have h1 := sizetSum_le P offset size
    have h2 : sizetSum P offset size ≤ offset % 2 ^ P.sizeBits + size := by
      unfold sizetSum; exact Nat.mod_le _ _
    have h3 : offset % 2 ^ P.sizeBits ≤ offset := Nat.mod_le _ _
    calc (sizetSum P offset size - eof) % 2 ^ P.sizeBits
        ≤ sizetSum P offset size - eof := Nat.mod_le _ _
      _ < size := by omega
  · exact hs

/-- Where the request fits `size_t`, the sum does not wrap and the zero-filled
tail is the part of the request beyond the logical end of file. -/
theorem zeroTail_fit (P : Platform) (eof offset size : Nat)
    (hfit : offset + size < 2 ^ P.sizeBits) :
    sizetSum P offset size = offset + size ∧
    zeroTail P eof offset size = offset + size - eof := by
  have h1 : offset % 2 ^ P.sizeBits = offset := Nat.mod_eq_of_lt (by omega)
  have h2 : sizetSum P offset size = offset + size := by
    unfold sizetSum; rw [h1]; exact Nat.mod_eq_of_lt hfit
  refine ⟨h2, ?_⟩
  unfold zeroTail
  rw [h2]
  split_ifs with hc
  · exact Nat.mod_eq_of_lt (by omega)
  · omega

/-- What the part of read after the seek does when it succeeds: it asks the
stream for `size - nbytes` bytes once; the `n` bytes delivered are those of
the file at the stream position, the rest of the request is zero. -/
theorem readData_spec (P : Platform) (lf : H5F_low_t) (offset size : Nat) (buf : Buffer)
    (hs : (readData P lf offset size buf).ret = .SUCCEED) :
    ∃ n, n ≤ size - zeroTail P lf.eof offset size ∧
      (readData P lf offset size buf).lf.op = .H5F_OP_READ ∧
      (readData P lf offset size buf).lf.cur = offset + n ∧
      (readData P lf offset size buf).lf.f.pos = lf.f.pos + n ∧
      (readData P lf offset size buf).lf.f.data = lf.f.data ∧
      (readData P lf offset size buf).lf.f.calls =
        lf.f.calls ++ [.fread (size - zeroTail P lf.eof offset size)] ∧
      (∀ i, i < n → (readData P lf offset size buf).buf i = lf.f.data.getD (lf.f.pos + i) 0) ∧
      (∀ i, n ≤ i → i < size - zeroTail P lf.eof offset size →
        (readData P lf offset size buf).buf i = 0) ∧
      (zeroTail P lf.eof offset size ≤ size →
        ∀ i, size - zeroTail P lf.eof offset size ≤ i → i < size →
          (readData P lf offset size buf).buf i = 0) := by
  unfold readData at hs ⊢
  dsimp only at hs ⊢
  generalize hz : zeroTail P lf.eof offset size = z at hs ⊢
  generalize hb : (if lf.eof < sizetSum P offset size then HDmemset buf (size - z) z else buf)
    = buf1 at hs ⊢
  obtain ⟨f1, f2, f3, f4, f5, f6⟩ := fread_spec lf.f buf1 (size - z)
  split_ifs at hs ⊢ with hc hlt
  · refine ⟨(fread lf.f buf1 (size - z)).1, f1, rfl, rfl, f5, f6, f4, ?_, ?_, ?_⟩
    · intro i hi
      have : ¬ ((fread lf.f buf1 (size - z)).1 ≤ i ∧
          i < (fread lf.f buf1 (size - z)).1 + (size - z - (fread lf.f buf1 (size - z)).1)) := by
        omega
      simp only [HDmemset, this, if_false]
      exact f2 i hi
    · intro i hi1 hi2
      have : (fread lf.f buf1 (size - z)).1 ≤ i ∧
          i < (fread lf.f buf1 (size - z)).1 + (size - z - (fread lf.f buf1 (size - z)).1) := by
        omega
      simp only [HDmemset, this, and_self, if_true]
    · intro hzs i hi1 hi2
      have : ¬ ((fread lf.f buf1 (size - z)).1 ≤ i ∧
          i < (fread lf.f buf1 (size - z)).1 + (size - z - (fread lf.f buf1 (size - z)).1)) := by
        omega
      simp only [HDmemset, this, if_false]
      rw [f3 i (by omega), ← hb]
      by_cases he : lf.eof < sizetSum P offset size
      · have : size - z ≤ i ∧ i < size - z + z := by omega
        simp only [he, if_true, HDmemset, this, and_self]
      · have hz0 : z = 0 := by rw [← hz]; simp [zeroTail, he]
        omega
  · refine ⟨(fread lf.f buf1 (size - z)).1, f1, rfl, rfl, f5, f6, f4, ?_, ?_, ?_⟩
    · intro i hi
      exact f2 i hi
    · intro i hi1 hi2
      omega
    · intro hzs i hi1 hi2
      show (fread lf.f buf1 (size - z)).2.1 i = 0
      rw [f3 i (by omega), ← hb]
      by_cases he : lf.eof < sizetSum P offset size
      · have : size - z ≤ i ∧ i < size - z + z := by omega
        simp only [he, if_true, HDmemset, this, and_self]
      · have hz0 : z = 0 := by rw [← hz]; simp [zeroTail, he]
        omega

theorem seekBlock_requests (P : Platform) (lf : H5F_low_t) (me : H5F_fileop_t) (offset : Nat) :
    bytesRequested (seekBlock P lf me offset).2.f.calls = bytesRequested lf.f.calls := by
  unfold seekBlock
  dsimp only
  split_ifs <;> cases hq : lf.f.nextFault <;>
    simp [fseek, FILE.step, hq, bytesRequested_append, bytesRequested]

/-- A successful read below the logical end of file, on a build where the
request fits `size_t`: the medium is asked for `min size (eof - addr)` bytes;
the `n` bytes it delivers are the medium's bytes from `addr` on, and every
other byte of the request is zero. -/
theorem read_below_eof (P : Platform) (lf : H5F_low_t) (addr size : Nat) (buf : Buffer)
    (ht : lf.tracked) (hfit : addr + size < 2 ^ P.sizeBits) (hlt : addr < lf.eof)
    (hs : (H5F_stdio_read P lf addr size buf).ret = .SUCCEED) :
    bytesRequested (H5F_stdio_read P lf addr size buf).lf.f.calls =
      bytesRequested lf.f.calls + min size (lf.eof - addr) ∧
    ∃ n, n ≤ min size (lf.eof - addr) ∧
      (0 < size → (H5F_stdio_read P lf addr size buf).lf.op = .H5F_OP_READ ∧
        (H5F_stdio_read P lf addr size buf).lf.cur = addr + n) ∧
      (∀ i, i < n → (H5F_stdio_read P lf addr size buf).buf i = lf.f.data.getD (addr + i) 0) ∧
      (∀ i, n ≤ i → i < size → (H5F_stdio_read P lf addr size buf).buf i = 0) := by
  have ho : ¬ addrOverflows P addr size := by
    intro h; rw [read_overflow P lf addr size buf h] at hs; cases hs
  by_cases hz : 0 = size
  · subst hz
    have : H5F_stdio_read P lf addr 0 buf = { ret := .SUCCEED, lf := lf, buf := buf } := by
      simp [H5F_stdio_read, ho]
    rw [this]
    refine ⟨by simp, 0, by simp, by simp, by simp, ?_⟩
    intro i _ hi; omega
  · have he : ¬ lf.eof ≤ addr := by omega
    rw [read_reaches_medium P lf addr size buf ho hz he] at hs ⊢
    by_cases hsk : (seekBlock P lf .H5F_OP_READ addr).1 < 0
    · simp [hsk] at hs
    · simp only [hsk, if_false] at hs ⊢
      obtain ⟨hpos, _⟩ := seekBlock_pos P lf _ addr (Or.inl rfl) ht hsk
      obtain ⟨heof, _, hdata, _, _⟩ := seekBlock_frame P lf .H5F_OP_READ addr
      have hreq := seekBlock_requests P lf .H5F_OP_READ addr
      generalize (seekBlock P lf .H5F_OP_READ addr).2 = lf1 at hs hpos heof hdata hreq ⊢
      obtain ⟨n, hn, hop, hcur, _, _, hcalls, hb1, hb2, hb3⟩ := readData_spec P lf1 addr size buf hs
      have hzt := (zeroTail_fit P lf1.eof addr size hfit).2
      rw [heof] at hzt
      rw [heof, hzt] at hn hcalls hb2 hb3
      have hmin : size - (addr + size - lf.eof) = min size (lf.eof - addr) := by omega
      rw [hmin] at hn hcalls hb2 hb3
      refine ⟨?_, n, hn, fun _ => ⟨hop, hcur⟩, ?_, ?_⟩
      · rw [hcalls, bytesRequested_append, hreq]; simp [bytesRequested]
      · intro i hi
        rw [hb1 i hi, hdata, hpos]
      · intro i hi1 hi2
        by_cases hi3 : i < min size (lf.eof - addr)
        · exact hb2 i hi1 hi3
        · exact hb3 (by omega) i (by omega) hi2

/-! ## Position tracking is an invariant -/

theorem tracked_open_handle (f : FILE) : (H5F_stdio_open_handle f).tracked := by
  intro h
  cases hq : f.nextFault with
  | none =>
    have := ((open_handle_eof f).1 hq).2
    rw [this] at h; simp at h
  | some k =>
    have := ((open_handle_eof f).2 (by simp [hq])).2
    rw [this] at h; simp at h

theorem tracked_open (P : Platform) (fs : FileSys) (name : String) (flags : Nat)
    (script : List (Option Nat)) (h : H5F_low_t)
    (hopen : (H5F_stdio_open P fs name flags script).handle = .ok h) : h.tracked := by
  obtain ⟨f, _, _, rfl, _⟩ := open_ok_shape P fs name flags script h hopen
  exact tracked_open_handle f

theorem tracked_seekBlock (P : Platform) (lf : H5F_low_t) (me : H5F_fileop_t) (offset : Nat)
    (ht : lf.tracked) : (seekBlock P lf me offset).2.tracked := by
  unfold seekBlock
  dsimp only
  split_ifs with h1 h2
  · cases hq : lf.f.nextFault with
    | none => simp [fseek, hq] at h2
    | some k =>
      intro h
      simpa [fseek, hq, FILE.step] using ht h
  · cases hq : lf.f.nextFault with
    | none => intro _; simp [fseek, hq]
    | some k => simp [fseek, hq] at h2
  · exact ht

theorem tracked_write (P : Platform) (lf : H5F_low_t) (addr size : Nat) (buf : Buffer)
    (ht : lf.tracked) : (H5F_stdio_write P lf addr size buf).lf.tracked := by
  by_cases ho : addrOverflows P addr size
  · rw [write_overflow P lf addr size buf ho]; exact ht
  · rw [write_reaches_medium P lf addr size buf ho]
    by_cases hs : (seekBlock P lf .H5F_OP_WRITE addr).1 < 0
    · simp only [hs, if_true]; exact tracked_seekBlock P lf _ addr ht
    · simp only [hs, if_false]
      obtain ⟨hpos, _⟩ := seekBlock_pos P lf _ addr (Or.inr rfl) ht hs
      generalize (seekBlock P lf .H5F_OP_WRITE addr).2 = lf1 at hpos ⊢
      unfold writeData
      dsimp only
      split_ifs with hn
      · intro h; simp at h
      · intro _
        have hn2 : lf1.f.accepts size = size := by
          simp only [ne_eq, not_not, fwrite] at hn; exact hn.symm
        simp [fwrite, FILE.step, hn2, hpos]

theorem tracked_read (P : Platform) (lf : H5F_low_t) (addr size : Nat) (buf : Buffer)
    (ht : lf.tracked) : (H5F_stdio_read P lf addr size buf).lf.tracked := by
  by_cases ho : addrOverflows P addr size
  · rw [read_overflow P lf addr size buf ho]; exact ht
  · by_cases hz : 0 = size
    · have : H5F_stdio_read P lf addr size buf = { ret := .SUCCEED, lf := lf, buf := buf } := by
        simp [H5F_stdio_read, ho, hz]
      rw [this]; exact ht
    · by_cases he : lf.eof ≤ addr
      · have : (H5F_stdio_read P lf addr size buf).lf = lf := by
          simp [H5F_stdio_read, ho, hz, he]
        rw [this]; exact ht
      · rw [read_reaches_medium P lf addr size buf ho hz he]
        by_cases hs : (seekBlock P lf .H5F_OP_READ addr).1 < 0
        · simp only [hs, if_true]; exact tracked_seekBlock P lf _ addr ht
        · simp only [hs, if_false]
          obtain ⟨hpos, _⟩ := seekBlock_pos P lf _ addr (Or.inl rfl) ht hs
          generalize (seekBlock P lf .H5F_OP_READ addr).2 = lf1 at hpos ⊢
          rcases readData_ret P lf1 addr size buf with h1 | h1
          · obtain ⟨n, _, _, hcur, hp, _⟩ := readData_spec P lf1 addr size buf h1
            intro _
            rw [hcur, hp, hpos]
          · intro h
            rw [h1.2] at h; simp at h

theorem tracked_flush (lf : H5F_low_t) : (H5F_stdio_flush lf).lf.tracked := by
  unfold H5F_stdio_flush
  dsimp only
  split_ifs <;> intro h <;> simp at h

/-! ## The size_t sum on a build with 64-bit offsets and a 32-bit size_t -/

/-- On `ilp32_fseek64`, a read of ten bytes that starts five bytes below a
logical end of file of `2 ^ 32` asks the medium for all ten bytes and returns
what the medium holds there. -/
theorem read_at4G (d : List uint8) (buf : Buffer)
    (hd : ((d.drop (2 ^ 32 - 5)).take 10).length = 10) :
    (H5F_stdio_read ilp32_fseek64 (handleAt4G d) (2 ^ 32 - 5) 10 buf).ret = .SUCCEED ∧
    (H5F_stdio_read ilp32_fseek64 (handleAt4G d) (2 ^ 32 - 5) 10 buf).lf.f.calls =
      [.fseek_set (2 ^ 32 - 5), .fread 10] ∧
    ∀ i, i < 10 → (H5F_stdio_read ilp32_fseek64 (handleAt4G d) (2 ^ 32 - 5) 10 buf).buf i =
      ((d.drop (2 ^ 32 - 5)).take 10).getD i 0 := by
  have ho : ¬ addrOverflows ilp32_fseek64 (2 ^ 32 - 5) 10 := by decide
  have hz : zeroTail ilp32_fseek64 (2 ^ 32) (2 ^ 32 - 5) 10 = 0 := by decide
  have hs : ¬ (2 ^ 32 < sizetSum ilp32_fseek64 (2 ^ 32 - 5) 10) := by decide
  have hsb : seekBlock ilp32_fseek64 (handleAt4G d) .H5F_OP_READ (2 ^ 32 - 5) =
      (0, { handleAt4G d with
              f := { (handleAt4G d).f.step (.fseek_set (2 ^ 32 - 5)) with pos := 2 ^ 32 - 5 },
              cur := 2 ^ 32 - 5 }) := by
    simp [seekBlock, handleAt4G, fseek, FILE.nextFault, scriptHead, FILE.step]
  have hr := read_reaches_medium ilp32_fseek64 (handleAt4G d) (2 ^ 32 - 5) 10 buf ho (by decide)
    (by simp [handleAt4G])
  rw [hsb] at hr
  simp only [Int.lt_irrefl, if_false] at hr
  rw [hr]
  unfold readData
  have he : (handleAt4G d).eof = 2 ^ 32 := rfl
  simp only [he, hz, hs, if_false, Nat.sub_zero]
  have hav : ({ (handleAt4G d).f.step (.fseek_set (2 ^ 32 - 5)) with
      pos := 2 ^ 32 - 5 } : FILE).avail 10 = (d.drop (2 ^ 32 - 5)).take 10 := rfl
  have hnf : ({ (handleAt4G d).f.step (.fseek_set (2 ^ 32 - 5)) with
      pos := 2 ^ 32 - 5 } : FILE).nextFault = none := rfl
  simp only [fread, hav, hnf, hd]
  refine ⟨by simp, by simp [FILE.step, handleAt4G], ?_⟩
  intro i hi
  simp [hi]

theorem sevens_at4G :
    ((List.replicate (2 ^ 32 + 5) (7 : uint8)).drop (2 ^ 32 - 5)).take 10 =
      List.replicate 10 7 := by
  rw [List.drop_replicate, List.take_replicate]
  have : min 10 (2 ^ 32 + 5 - (2 ^ 32 - 5)) = 10 := by decide
  rw [this]
/-- The logical end of file that a successful open leaves in the handle. -/
theorem open_eof_spec (P : Platform) (fs : FileSys) (name : String) (flags : Nat)
    (script : List (Option Nat)) (h : H5F_low_t)
    (hopen : (H5F_stdio_open P fs name flags script).handle = .ok h) :
    (H5F_stdio_open P fs name flags script).fs.lookup name = some h.f.data ∧
    (scriptHead script.tail = none → h.eof = h.f.data.length ∧ h.op = .H5F_OP_SEEK) ∧
    ((scriptHead script.tail).isSome → h.eof = 0 ∧ h.op = .H5F_OP_UNKNOWN) ∧
    (fs.lookup name = none ∨ (flagSet flags P.H5F_ACC_RDWR ∧ flagSet flags P.H5F_ACC_TRUNC) →
      h.f.data = [] ∧ h.eof = 0) := by
  obtain ⟨f, mode, hf, rfl, hmode⟩ := open_ok_shape P fs name flags script h hopen
  obtain ⟨_, hfaults, _, hlook, hwb, _, _⟩ := fopen_some fs name mode script f _ hf
  have hnf : f.nextFault = scriptHead script.tail := by simp [FILE.nextFault, hfaults]
  obtain ⟨he1, he2⟩ := open_handle_eof f
  rw [(open_handle_data f).1]
  refine ⟨hlook, ?_, ?_, ?_⟩
  · intro hs; exact he1 (hnf.trans hs)
  · intro hs; exact he2 (hnf ▸ hs)
  · intro hc
    have hd := (hwb (hmode hc)).1
    refine ⟨hd, ?_⟩
    cases hq : f.nextFault with
    | none => rw [(he1 hq).1, hd]; rfl
    | some k => exact (he2 (by simp [hq])).1

/-- The position data a successful write leaves in the handle. -/
theorem write_succeed_state (P : Platform) (lf : H5F_low_t) (addr size : Nat) (buf : Buffer)
    (hw : (H5F_stdio_write P lf addr size buf).ret = .SUCCEED) :
    (H5F_stdio_write P lf addr size buf).lf.op = .H5F_OP_WRITE ∧
    (H5F_stdio_write P lf addr size buf).lf.cur = addr + size := by
  have ho : ¬ addrOverflows P addr size := by
    intro h; rw [write_overflow P lf addr size buf h] at hw; cases hw
  rw [write_reaches_medium P lf addr size buf ho] at hw ⊢
  by_cases hs : (seekBlock P lf .H5F_OP_WRITE addr).1 < 0
  · simp [hs] at hw
  · simp only [hs, if_false] at hw ⊢
    unfold writeData at hw ⊢
    dsimp only at hw ⊢
    split_ifs at hw ⊢
    exact ⟨rfl, rfl⟩

/-! ## The claims -/

/-- C1, as amended: for a handle that tracks its position, if a write of the
`n` bytes of `B` at address `a` succeeds, the written range lies at or below
the logical end of file (`a + n ≤ eof`), and the medium serves the reposition
and the transfer of the read that follows without a fault, then that read of
`n` bytes at `a` succeeds and returns exactly `B`. -/
theorem write_then_read_round_trip (P : Platform) (lf : H5F_low_t) (a n : Nat)
    (B rbuf : Buffer)
    (ht : lf.tracked)
    (hw : (H5F_stdio_write P lf a n B).ret = .SUCCEED)
    (hin : a + n ≤ lf.eof)
    (hf1 : scriptHead (H5F_stdio_write P lf a n B).lf.f.faults = none)
    (hf2 : scriptHead (H5F_stdio_write P lf a n B).lf.f.faults.tail = none) :
    (H5F_stdio_read P (H5F_stdio_write P lf a n B).lf a n rbuf).ret = .SUCCEED ∧
    ∀ i, i < n → (H5F_stdio_read P (H5F_stdio_write P lf a n B).lf a n rbuf).buf i = B i := by
  obtain ⟨ho, hop, _, _, hdata⟩ := write_succeed P lf a n B hw ht
  have heof := write_eof P lf a n B
  generalize (H5F_stdio_write P lf a n B).lf = lw at hf1 hf2 hop hdata heof ⊢
  by_cases hz : 0 = n
  · subst hz
    simp [H5F_stdio_read, ho]
  · have he : ¬ lw.eof ≤ a := by omega
    rw [read_reaches_medium P lw a n rbuf ho hz he]
    have hsb : seekBlock P lw .H5F_OP_READ a =
        (0, { lw with f := { lw.f.step (.fseek_set a) with pos := a }, cur := a }) := by
      simp [seekBlock, hop, fseek, FILE.nextFault, hf1]
    rw [hsb]
    simp only [Int.lt_irrefl, if_false]
    have hav : ({ lw.f.step (.fseek_set a) with pos := a } : FILE).avail n =
        (List.range n).map B := by
      have := storeAt_read_back lf.f.data a ((List.range n).map B)
      simp only [List.length_map, List.length_range] at this
      simp only [FILE.avail, FILE.step, hdata]
      exact this
    have hres := readData_inside P
      { lw with f := { lw.f.step (.fseek_set a) with pos := a }, cur := a } a n rbuf
      (by simp only [heof]; exact hin) (by omega)
      (by simp only [FILE.nextFault, FILE.step]; exact hf2)
      (by rw [hav]; simp)
    refine ⟨hres.1, ?_⟩
    intro i hi
    rw [hres.2 i hi, hav]
    simp [List.getD, hi]

/-- Witness for C1: two bytes written at address 1 of the three-byte file. -/
theorem write_then_read_round_trip_witness :
    handleA.tracked ∧
    (H5F_stdio_write lp64 handleA 1 2 digits).ret = .SUCCEED ∧
    1 + 2 ≤ handleA.eof ∧
    scriptHead (H5F_stdio_write lp64 handleA 1 2 digits).lf.f.faults = none ∧
    scriptHead (H5F_stdio_write lp64 handleA 1 2 digits).lf.f.faults.tail = none ∧
    ((H5F_stdio_read lp64 (H5F_stdio_write lp64 handleA 1 2 digits).lf 1 2 blank).ret
        = .SUCCEED ∧
      ∀ i, i < 2 →
        (H5F_stdio_read lp64 (H5F_stdio_write lp64 handleA 1 2 digits).lf 1 2 blank).buf i
          = digits i) :=
  ⟨by decide, by decide, by decide, by decide, by decide,
   write_then_read_round_trip lp64 handleA 1 2 digits blank
     (by decide) (by decide) (by decide) (by decide) (by decide)⟩

/-- Counterexample to C1 as stated: on a freshly created file, opened
read-write, the write of `"0123456789"` at address 0 succeeds, and the read of
ten bytes at address 0 that follows succeeds but returns zeros, because the
logical end of file is still 0. -/
theorem round_trip_counterexample :
    (H5F_stdio_open lp64 fsEmpty "t.bin" 17 []).handle = .ok handleFresh ∧
    handleFresh.f.writable = true ∧
    (H5F_stdio_write lp64 handleFresh 0 10 digits).ret = .SUCCEED ∧
    (H5F_stdio_read lp64 (H5F_stdio_write lp64 handleFresh 0 10 digits).lf 0 10 blank).ret
      = .SUCCEED ∧
    (H5F_stdio_read lp64 (H5F_stdio_write lp64 handleFresh 0 10 digits).lf 0 10 blank).buf 0
      = 0 ∧
    digits 0 = 48 :=
  ⟨rfl, by decide, by decide, by decide, by decide, by decide⟩

/-- C2, as amended: a successful write of `size` bytes at `addr` sets the
last operation to `WRITE` and the tracked position to `addr + size`, and
leaves the handle's logical end of file equal to the previous one; in
particular writing 10 bytes at address 0 to a freshly created file leaves the
logical end of file at 0. -/
theorem write_keeps_logical_eof (P : Platform) (lf : H5F_low_t) (addr size : Nat)
    (buf : Buffer) (fs : FileSys) (name : String) (flags : Nat) (script : List (Option Nat))
    (hw : (H5F_stdio_write P lf addr size buf).ret = .SUCCEED) :
    (H5F_stdio_write P lf addr size buf).lf.eof = lf.eof ∧
    (H5F_stdio_write P lf addr size buf).lf.op = .H5F_OP_WRITE ∧
    (H5F_stdio_write P lf addr size buf).lf.cur = addr + size ∧
    (fs.lookup name = none → (H5F_stdio_open P fs name flags script).handle = .ok lf →
      addr = 0 → size = 10 → (H5F_stdio_write P lf addr size buf).lf.eof = 0) := by
  refine ⟨write_eof P lf addr size buf, (write_succeed_state P lf addr size buf hw).1,
    (write_succeed_state P lf addr size buf hw).2, ?_⟩
  intro hl hopen _ _
  rw [write_eof P lf addr size buf]
  exact ((open_eof_spec P fs name flags script lf hopen).2.2.2 (Or.inl hl)).2

/-- Witness for C2: ten bytes written at address 0 of a freshly created file. -/
theorem write_keeps_logical_eof_witness :
    (H5F_stdio_write lp64 handleFresh 0 10 digits).ret = .SUCCEED ∧
    ((H5F_stdio_write lp64 handleFresh 0 10 digits).lf.eof = handleFresh.eof ∧
      (H5F_stdio_write lp64 handleFresh 0 10 digits).lf.op = .H5F_OP_WRITE ∧
      (H5F_stdio_write lp64 handleFresh 0 10 digits).lf.cur = 0 + 10 ∧
      (fsEmpty.lookup "t.bin" = none →
        (H5F_stdio_open lp64 fsEmpty "t.bin" 17 []).handle = .ok handleFresh →
        0 = 0 → 10 = 10 → (H5F_stdio_write lp64 handleFresh 0 10 digits).lf.eof = 0)) :=
  ⟨by decide,
   write_keeps_logical_eof lp64 handleFresh 0 10 digits fsEmpty "t.bin" 17 [] (by decide)⟩

/-- Counterexample to C2 as stated: after the successful write of 10 bytes at
address 0 to a freshly created file the medium holds 10 bytes, yet the
handle's logical end of file is 0 and not `max 0 (0 + 10) = 10`. -/
theorem write_eof_counterexample :
    (H5F_stdio_open lp64 fsEmpty "t.bin" 17 []).handle = .ok handleFresh ∧
    handleFresh.eof = 0 ∧
    (H5F_stdio_write lp64 handleFresh 0 10 digits).ret = .SUCCEED ∧
    (H5F_stdio_write lp64 handleFresh 0 10 digits).lf.f.data.length = 10 ∧
    (H5F_stdio_write lp64 handleFresh 0 10 digits).lf.eof = 0 ∧
    (H5F_stdio_write lp64 handleFresh 0 10 digits).lf.eof ≠ max handleFresh.eof (0 + 10) :=
  ⟨rfl, by decide, by decide, by decide, by decide, by decide⟩

/-- C3: when the overflow check passes and `addr` is at or beyond the logical
end of file, read succeeds, every one of the `size` bytes of the buffer is
zero, and the handle with its stream, hence the log of medium calls, is
untouched: no seek and no read is issued. -/
theorem read_past_eof_zero_fills (P : Platform) (lf : H5F_low_t) (addr size : Nat)
    (buf : Buffer) (hno : ¬ addrOverflows P addr size) (hp : lf.eof ≤ addr) :
    (H5F_stdio_read P lf addr size buf).ret = .SUCCEED ∧
    (∀ i, i < size → (H5F_stdio_read P lf addr size buf).buf i = 0) ∧
    (H5F_stdio_read P lf addr size buf).lf = lf ∧
    (H5F_stdio_read P lf addr size buf).lf.f.calls = lf.f.calls := by
  unfold H5F_stdio_read
  by_cases hz : 0 = size
  · subst hz; simp [hno]
  · simp only [hno, hz, hp, if_true, if_false, true_and, and_true]
    intro i hi
    simp [HDmemset, hi]

/-- Witness for C3: five bytes read at address 20 of the three-byte file. -/
theorem read_past_eof_zero_fills_witness :
    ¬ addrOverflows lp64 20 5 ∧ handleA.eof ≤ 20 ∧
    ((H5F_stdio_read lp64 handleA 20 5 blank).ret = .SUCCEED ∧
      (∀ i, i < 5 → (H5F_stdio_read lp64 handleA 20 5 blank).buf i = 0) ∧
      (H5F_stdio_read lp64 handleA 20 5 blank).lf = handleA ∧
      (H5F_stdio_read lp64 handleA 20 5 blank).lf.f.calls = handleA.f.calls) :=
  ⟨by decide, by decide, read_past_eof_zero_fills lp64 handleA 20 5 blank (by decide) (by decide)⟩

/-- C4, failing input: on a build with 64-bit offsets and a 32-bit `size_t`,
for a handle whose logical end of file is `2 ^ 32` on a medium of
`2 ^ 32 + 5` bytes, the read of 10 bytes at address `2 ^ 32 - 5` passes the
overflow check and succeeds, but `(size_t) offset + size` wraps to 5: the
medium is asked for 10 bytes, not `min 10 (eof - addr) = 5`, and the last byte
returned is the medium's byte beyond the logical end of file, not zero. -/
theorem read_wraps_in_size_t :
    ¬ addrOverflows ilp32_fseek64 (2 ^ 32 - 5) 10 ∧
    (handleAt4G (List.replicate (2 ^ 32 + 5) 7)).eof = 2 ^ 32 ∧
    sizetSum ilp32_fseek64 (2 ^ 32 - 5) 10 = 5 ∧
    (H5F_stdio_read ilp32_fseek64 (handleAt4G (List.replicate (2 ^ 32 + 5) 7))
      (2 ^ 32 - 5) 10 blank).ret = .SUCCEED ∧
    (H5F_stdio_read ilp32_fseek64 (handleAt4G (List.replicate (2 ^ 32 + 5) 7))
      (2 ^ 32 - 5) 10 blank).lf.f.calls = [.fseek_set (2 ^ 32 - 5), .fread 10] ∧
    min 10 (2 ^ 32 - (2 ^ 32 - 5)) = 5 ∧
    (H5F_stdio_read ilp32_fseek64 (handleAt4G (List.replicate (2 ^ 32 + 5) 7))
      (2 ^ 32 - 5) 10 blank).buf 9 = 7 := by
  have hd : (((List.replicate (2 ^ 32 + 5) (7 : uint8)).drop (2 ^ 32 - 5)).take 10).length
      = 10 := by
    rw [sevens_at4G, List.length_replicate]
  obtain ⟨h1, h2, h3⟩ := read_at4G (List.replicate (2 ^ 32 + 5) 7) blank hd
  refine ⟨by decide, rfl, by decide, h1, h2, by decide, ?_⟩
  rw [h3 9 (by decide), sevens_at4G]
  decide

/-- C5: with `N = offBits ≤ 64` and `addr`, `size` 64-bit values, the
three-clause check is equivalent to `2 ^ (N - 1) ≤ addr + size` computed
without wrap-around; read and write fail with `OVERFLOW` exactly then, for
every `size` including 0; and when they do, the handle (position, last
operation, logical end of file and stream) and the buffer are unchanged. -/
theorem overflow_exact (P : Platform) (lf : H5F_low_t) (addr size : Nat) (buf : Buffer)
    (hN : P.offBits ≤ 64) (ha : addr < 2 ^ 64) (hs : size < 2 ^ 64) :
    (addrOverflows P addr size ↔ 2 ^ (P.offBits - 1) ≤ addr + size) ∧
    ((H5F_stdio_read P lf addr size buf).ret = .FAIL .H5E_OVERFLOW ↔
      2 ^ (P.offBits - 1) ≤ addr + size) ∧
    ((H5F_stdio_write P lf addr size buf).ret = .FAIL .H5E_OVERFLOW ↔
      2 ^ (P.offBits - 1) ≤ addr + size) ∧
    ((H5F_stdio_read P lf addr size buf).ret = .FAIL .H5E_OVERFLOW →
      (H5F_stdio_read P lf addr size buf).lf = lf ∧
      (H5F_stdio_read P lf addr size buf).buf = buf) ∧
    ((H5F_stdio_write P lf addr size buf).ret = .FAIL .H5E_OVERFLOW →
      (H5F_stdio_write P lf addr size buf).lf = lf) := by
  have hiff := addrOverflows_iff P addr size hN ha hs
  refine ⟨hiff, (read_overflow_iff P lf addr size buf).trans hiff,
    (write_overflow_iff P lf addr size buf).trans hiff, ?_, ?_⟩
  · intro h
    have ho := (read_overflow_iff P lf addr size buf).1 h
    simp [H5F_stdio_read, ho]
  · intro h
    have ho := (write_overflow_iff P lf addr size buf).1 h
    simp [H5F_stdio_write, ho]

/-- Witness for C5: a zero-size read and write at address `2 ^ 63`. -/
theorem overflow_exact_witness :
    lp64.offBits ≤ 64 ∧ 2 ^ 63 < 2 ^ 64 ∧ 0 < 2 ^ 64 ∧
    ((H5F_stdio_read lp64 handleA (2 ^ 63) 0 blank).ret = .FAIL .H5E_OVERFLOW ↔
      2 ^ (lp64.offBits - 1) ≤ 2 ^ 63 + 0) ∧
    ((H5F_stdio_write lp64 handleA (2 ^ 63) 0 blank).ret = .FAIL .H5E_OVERFLOW ↔
      2 ^ (lp64.offBits - 1) ≤ 2 ^ 63 + 0) :=
  ⟨by decide, by decide, by decide,
   (overflow_exact lp64 handleA (2 ^ 63) 0 blank (by decide) (by decide) (by decide)).2.1,
   (overflow_exact lp64 handleA (2 ^ 63) 0 blank (by decide) (by decide) (by decide)).2.2.1⟩
/-- C6: opening a path that does not exist without the `CREAT` flag fails with
`CANTOPENFILE`, and opening a path that exists with both `CREAT` and `EXCL`
set fails with `FILEEXISTS`, whatever the other flags and whatever the medium
does; in both cases no handle is returned and the directory is unchanged. -/
theorem open_missing_or_exclusive (P : Platform) (fs : FileSys) (name : String) (flags : Nat)
    (script : List (Option Nat)) :
    (fs.lookup name = none → ¬ flagSet flags P.H5F_ACC_CREAT →
      (H5F_stdio_open P fs name flags script).handle = .error .H5E_CANTOPENFILE ∧
      (H5F_stdio_open P fs name flags script).fs = fs) ∧
    ((fs.lookup name).isSome → flagSet flags P.H5F_ACC_CREAT → flagSet flags P.H5F_ACC_EXCL →
      (H5F_stdio_open P fs name flags script).handle = .error .H5E_FILEEXISTS ∧
      (H5F_stdio_open P fs name flags script).fs = fs) := by
  constructor
  · intro hmiss hc
    have ha : access fs name < 0 := (access_lt_iff fs name).2 hmiss
    exact open_fails_early P fs name flags script _ (by simp [H5F_stdio_open_stream, ha, hc])
  · intro hex hc he
    have ha : ¬ access fs name < 0 := by
      rw [access_lt_iff]; intro h; simp [h] at hex
    exact open_fails_early P fs name flags script _ (by simp [H5F_stdio_open_stream, ha, hc, he])

/-- Witness for C6: `"b"` does not exist and is opened read-write with
truncation; `"a"` exists and is opened with `CREAT`, `EXCL` and read-write. -/
theorem open_missing_or_exclusive_witness :
    (fsA.lookup "b" = none ∧ ¬ flagSet 3 lp64.H5F_ACC_CREAT ∧
      (H5F_stdio_open lp64 fsA "b" 3 []).handle = .error .H5E_CANTOPENFILE ∧
      (H5F_stdio_open lp64 fsA "b" 3 []).fs = fsA) ∧
    ((fsA.lookup "a").isSome ∧ flagSet 21 lp64.H5F_ACC_CREAT ∧ flagSet 21 lp64.H5F_ACC_EXCL ∧
      (H5F_stdio_open lp64 fsA "a" 21 []).handle = .error .H5E_FILEEXISTS ∧
      (H5F_stdio_open lp64 fsA "a" 21 []).fs = fsA) :=
  ⟨⟨by decide, by decide,
    (open_missing_or_exclusive lp64 fsA "b" 3 []).1 (by decide) (by decide)⟩,
   ⟨by decide, by decide, by decide,
    (open_missing_or_exclusive lp64 fsA "a" 21 []).2 (by decide) (by decide) (by decide)⟩⟩

/-- C7: for an existing path whose flags do not hold both `CREAT` and `EXCL`,
open selects the `fopen` mode from the flags alone: `"wb+"` with `RDWR` and
`TRUNC`, `"rb+"` with `RDWR` without `TRUNC`, `"rb"` without `RDWR`.  When
`fopen` itself does not fail, open therefore returns a handle whose stream is
writable on a medium truncated to length 0, writable on the contents as they
were, or read-only on the contents as they were, respectively. -/
theorem open_existing_mode (P : Platform) (fs : FileSys) (name : String) (flags : Nat)
    (script : List (Option Nat)) (d : List uint8)
    (hex : fs.lookup name = some d)
    (hne : ¬ (flagSet flags P.H5F_ACC_CREAT ∧ flagSet flags P.H5F_ACC_EXCL)) :
    (flagSet flags P.H5F_ACC_RDWR → flagSet flags P.H5F_ACC_TRUNC →
      H5F_stdio_open_stream P fs name flags script =
        (.ok (fopen fs name .wb_plus script).1, (fopen fs name .wb_plus script).2) ∧
      (scriptHead script = none →
        ∃ h, (H5F_stdio_open P fs name flags script).handle = .ok h ∧
          h.f.writable = true ∧ h.f.data = [] ∧
          (H5F_stdio_open P fs name flags script).fs.lookup name = some [])) ∧
    (flagSet flags P.H5F_ACC_RDWR → ¬ flagSet flags P.H5F_ACC_TRUNC →
      H5F_stdio_open_stream P fs name flags script =
        (.ok (fopen fs name .rb_plus script).1, (fopen fs name .rb_plus script).2) ∧
      (scriptHead script = none →
        ∃ h, (H5F_stdio_open P fs name flags script).handle = .ok h ∧
          h.f.writable = true ∧ h.f.data = d ∧
          (H5F_stdio_open P fs name flags script).fs = fs)) ∧
    (¬ flagSet flags P.H5F_ACC_RDWR →
      H5F_stdio_open_stream P fs name flags script =
        (.ok (fopen fs name .rb script).1, (fopen fs name .rb script).2) ∧
      (scriptHead script = none →
        ∃ h, (H5F_stdio_open P fs name flags script).handle = .ok h ∧
          h.f.writable = false ∧ h.f.data = d ∧
          (H5F_stdio_open P fs name flags script).fs = fs)) := by
  have hl : fs.lookup name ≠ none := by simp [hex]
  obtain ⟨hm1, hm2, hm3⟩ := (open_stream_mode P fs name flags script).2 hl hne
  refine ⟨?_, ?_, ?_⟩
  · intro hr ht
    refine ⟨hm1 hr ht, fun hok => ?_⟩
    have hf : fopen fs name .wb_plus script =
        (some (FILE.fresh [] true script.tail), fs.store name []) := by
      simp [fopen, hok]
    obtain ⟨h1, h2⟩ := (open_via_fopen P fs name flags script .wb_plus (hm1 hr ht)).2.1 _ _ hf
    refine ⟨_, h1, ?_, ?_, ?_⟩
    · rw [(open_handle_data _).2]; rfl
    · rw [(open_handle_data _).1]; rfl
    · rw [h2]; exact lookup_store fs name []
  · intro hr ht
    refine ⟨hm2 hr ht, fun hok => ?_⟩
    have hf : fopen fs name .rb_plus script = (some (FILE.fresh d true script.tail), fs) := by
      simp [fopen, hok, hex]
    obtain ⟨h1, h2⟩ := (open_via_fopen P fs name flags script .rb_plus (hm2 hr ht)).2.1 _ _ hf
    refine ⟨_, h1, ?_, ?_, h2⟩
    · rw [(open_handle_data _).2]; rfl
    · rw [(open_handle_data _).1]; rfl
  · intro hr
    refine ⟨hm3 hr, fun hok => ?_⟩
    have hf : fopen fs name .rb script = (some (FILE.fresh d false script.tail), fs) := by
      simp [fopen, hok, hex]
    obtain ⟨h1, h2⟩ := (open_via_fopen P fs name flags script .rb (hm3 hr)).2.1 _ _ hf
    refine ⟨_, h1, ?_, ?_, h2⟩
    · rw [(open_handle_data _).2]; rfl
    · rw [(open_handle_data _).1]; rfl

/-- Witness for C7: the three-byte file opened with `RDWR` and `TRUNC`. -/
theorem open_existing_mode_witness :
    fsA.lookup "a" = some [1, 2, 3] ∧
    ¬ (flagSet 3 lp64.H5F_ACC_CREAT ∧ flagSet 3 lp64.H5F_ACC_EXCL) ∧
    flagSet 3 lp64.H5F_ACC_RDWR ∧ flagSet 3 lp64.H5F_ACC_TRUNC ∧ scriptHead [] = none ∧
    (∃ h, (H5F_stdio_open lp64 fsA "a" 3 []).handle = .ok h ∧
        h.f.writable = true ∧ h.f.data = [] ∧
        (H5F_stdio_open lp64 fsA "a" 3 []).fs.lookup "a" = some []) :=
  ⟨by decide, by decide, by decide, by decide, rfl,
   ((open_existing_mode lp64 fsA "a" 3 [] [1, 2, 3] (by decide) (by decide)).1
     (by decide) (by decide)).2 rfl⟩

/-- C8, as amended: on every successful open the stream is on the medium found
at the path afterwards; when the seek to the end of the medium succeeds, the
handle's logical end of file equals the medium's size at that moment (0 for a
freshly created or truncated file); when that seek fails, open still
succeeds, with logical end of file 0 and last operation `UNKNOWN`. -/
theorem open_logical_eof (P : Platform) (fs : FileSys) (name : String) (flags : Nat)
    (script : List (Option Nat)) (h : H5F_low_t)
    (hopen : (H5F_stdio_open P fs name flags script).handle = .ok h) :
    (H5F_stdio_open P fs name flags script).fs.lookup name = some h.f.data ∧
    (scriptHead script.tail = none → h.eof = h.f.data.length) ∧
    ((scriptHead script.tail).isSome → h.eof = 0 ∧ h.op = .H5F_OP_UNKNOWN) ∧
    (fs.lookup name = none ∨ (flagSet flags P.H5F_ACC_RDWR ∧ flagSet flags P.H5F_ACC_TRUNC) →
      h.f.data = [] ∧ h.eof = 0) := by
  obtain ⟨h1, h2, h3, h4⟩ := open_eof_spec P fs name flags script h hopen
  exact ⟨h1, fun hs => (h2 hs).1, h3, h4⟩

/-- Witness for C8: the three-byte file opened read-write on a medium that
does not fail. -/
theorem open_logical_eof_witness :
    (H5F_stdio_open lp64 fsA "a" 1 []).handle = .ok handleA ∧
    scriptHead ([] : List (Option Nat)).tail = none ∧
    handleA.eof = handleA.f.data.length :=
  ⟨rfl, rfl, (open_logical_eof lp64 fsA "a" 1 [] handleA rfl).2.1 rfl⟩

/-- Counterexample to C8 as stated: the three-byte file is opened read-only on
a medium whose seek to the end fails; open succeeds, the medium holds three
bytes, and the handle's logical end of file is 0. -/
theorem open_eof_counterexample :
    ∃ h, (H5F_stdio_open lp64 fsA "a" 0 [none, some 0]).handle = .ok h ∧
      (H5F_stdio_open lp64 fsA "a" 0 [none, some 0]).fs.lookup "a" = some [1, 2, 3] ∧
      h.f.data = [1, 2, 3] ∧ h.eof = 0 ∧ h.eof ≠ h.f.data.length :=
  ⟨_, rfl, by decide, rfl, rfl, by decide⟩

/-- C9, failing input: the three-byte file is opened read-write, one byte is
written at address 0 (last operation `WRITE`), and the read of one byte at
address 0 that follows meets a failing `fseek`.  The read fails with
`SEEKERROR` and the handle's last operation is still `WRITE`, not
`UNKNOWN`. -/
theorem seek_error_keeps_last_operation :
    ∃ h, (H5F_stdio_open lp64 fsA "a" 1 [none, none, none, none, some 0]).handle = .ok h ∧
      (H5F_stdio_write lp64 h 0 1 digits).ret = .SUCCEED ∧
      (H5F_stdio_read lp64 (H5F_stdio_write lp64 h 0 1 digits).lf 0 1 blank).ret =
        .FAIL .H5E_SEEKERROR ∧
      (H5F_stdio_read lp64 (H5F_stdio_write lp64 h 0 1 digits).lf 0 1 blank).lf.op =
        .H5F_OP_WRITE ∧
      (H5F_stdio_read lp64 (H5F_stdio_write lp64 h 0 1 digits).lf 0 1 blank).lf.op ≠
        .H5F_OP_UNKNOWN :=
  ⟨_, rfl, by decide, by decide, by decide, by decide⟩

/-- C10, failing input: the three-byte file is opened read-only and three
bytes are read at address 0 from a medium whose `fread` delivers one byte and
then reports an I/O error.  The error indicator of the stream is set, yet
read returns `SUCCEED` with last operation `READ`, and the two bytes that
were not delivered are returned as zeros. -/
theorem short_read_with_error_succeeds :
    ∃ h, (H5F_stdio_open lp64 fsA "a" 0 [none, none, none, some 1]).handle = .ok h ∧
      (H5F_stdio_read lp64 h 0 3 blank).lf.f.calls =
        [.fseek_end, .ftell, .fseek_set 0, .fread 3] ∧
      ferror (H5F_stdio_read lp64 h 0 3 blank).lf.f = true ∧
      (H5F_stdio_read lp64 h 0 3 blank).ret = .SUCCEED ∧
      (H5F_stdio_read lp64 h 0 3 blank).lf.op = .H5F_OP_READ ∧
      (H5F_stdio_read lp64 h 0 3 blank).buf 0 = 1 ∧
      (H5F_stdio_read lp64 h 0 3 blank).buf 1 = 0 ∧
      (H5F_stdio_read lp64 h 0 3 blank).buf 2 = 0 :=
  ⟨_, rfl, by decide, by decide, by decide, by decide, by decide, by decide, by decide⟩

/-! ## Runs of contiguous reads -/

theorem scriptHead_none (l : List (Option Nat)) (h : ∀ x ∈ l, x = none) :
    scriptHead l = none := by
  cases l with
  | nil => rfl
  | cons x xs => exact h x (List.mem_cons_self x xs)

theorem tail_all_none (l : List (Option Nat)) (h : ∀ x ∈ l, x = none) :
    ∀ x ∈ l.tail, x = none :=
  fun x hx => h x (List.mem_of_mem_tail hx)

theorem seekCount_append (a b : List MediumCall) :
    seekCount (a ++ b) = seekCount a + seekCount b := by
  simp [seekCount]

/-- The seek block on a medium that does not fail: the seek, when it is
needed, succeeds and is logged; the script loses one entry. -/
theorem seekBlock_served (P : Platform) (lf : H5F_low_t) (me : H5F_fileop_t) (offset : Nat)
    (hf : ∀ x ∈ lf.f.faults, x = none) :
    ¬ (seekBlock P lf me offset).1 < 0 ∧
    (∀ x ∈ (seekBlock P lf me offset).2.f.faults, x = none) ∧
    seekCount (seekBlock P lf me offset).2.f.calls = seekCount lf.f.calls +
      (if P.H5F_OPT_SEEK = false ∨ lf.op ≠ me ∨ lf.cur ≠ offset then 1 else 0) := by
  have hn : lf.f.nextFault = none := scriptHead_none _ hf
  unfold seekBlock
  by_cases hs : P.H5F_OPT_SEEK = false ∨ lf.op ≠ me ∨ lf.cur ≠ offset
  · simp only [hs, if_true, fseek, hn, FILE.step]
    refine ⟨by simp, ?_, ?_⟩
    · simpa using tail_all_none _ hf
    · simp [seekCount_append, seekCount, MediumCall.isSeek]
  · simp only [hs, if_false]
    exact ⟨by simp, hf, by simp⟩

/-- The part of read after the seek on a medium that does not fail and still
holds a byte at the position: it succeeds and delivers all the medium has, up
to the amount asked for. -/
theorem readData_served (P : Platform) (lf : H5F_low_t) (offset size : Nat) (buf : Buffer)
    (hf : ∀ x ∈ lf.f.faults, x = none)
    (hsz : 0 < size - zeroTail P lf.eof offset size) (hpos : lf.f.pos < lf.f.data.length) :
    (readData P lf offset size buf).ret = .SUCCEED ∧
    (readData P lf offset size buf).lf.op = .H5F_OP_READ ∧
    (readData P lf offset size buf).lf.cur = offset +
      min (size - zeroTail P lf.eof offset size) (lf.f.data.length - lf.f.pos) ∧
    (readData P lf offset size buf).lf.f.data = lf.f.data ∧
    (∀ x ∈ (readData P lf offset size buf).lf.f.faults, x = none) ∧
    seekCount (readData P lf offset size buf).lf.f.calls = seekCount lf.f.calls := by
  have hn : lf.f.nextFault = none := scriptHead_none _ hf
  unfold readData
  dsimp only
  generalize hz : zeroTail P lf.eof offset size = z at hsz ⊢
  generalize (if lf.eof < sizetSum P offset size then HDmemset buf (size - z) z else buf)
    = buf1
  have h1 : (fread lf.f buf1 (size - z)).1 = min (size - z) (lf.f.data.length - lf.f.pos) := by
    simp [fread, hn, FILE.avail]
  have hne : ¬ ((fread lf.f buf1 (size - z)).1 ≤ 0 ∧
      ferror (fread lf.f buf1 (size - z)).2.2 = true) := by
    rw [h1]; omega
  rw [if_neg hne]
  refine ⟨rfl, rfl, by rw [← h1], ?_, ?_, ?_⟩
  · simp [fread, FILE.step]
  · simpa [fread, FILE.step] using tail_all_none _ hf
  · simp [fread, FILE.step, seekCount_append, seekCount, MediumCall.isSeek]

/-- One successful read through a tracked handle on a medium that serves every
read in full. -/
theorem read_served (P : Platform) (lf : H5F_low_t) (addr size : Nat) (buf : Buffer)
    (ht : lf.tracked) (hsv : lf.served)
    (hs : (H5F_stdio_read P lf addr size buf).ret = .SUCCEED) :
    (H5F_stdio_read P lf addr size buf).lf.served ∧
    (H5F_stdio_read P lf addr size buf).lf.tracked ∧
    (size = 0 ∨ lf.eof ≤ addr → (H5F_stdio_read P lf addr size buf).lf = lf) ∧
    (0 < size → addr < lf.eof →
      (H5F_stdio_read P lf addr size buf).lf.op = .H5F_OP_READ ∧
      (addr + size ≤ lf.eof → (H5F_stdio_read P lf addr size buf).lf.cur = addr + size) ∧
      seekCount (H5F_stdio_read P lf addr size buf).lf.f.calls = seekCount lf.f.calls +
        (if P.H5F_OPT_SEEK = false ∨ lf.op ≠ .H5F_OP_READ ∨ lf.cur ≠ addr then 1 else 0)) := by
  have ho : ¬ addrOverflows P addr size := by
    intro h; rw [read_overflow P lf addr size buf h] at hs; cases hs
  have htr := tracked_read P lf addr size buf ht
  by_cases hz : 0 = size
  · have he : H5F_stdio_read P lf addr size buf = { ret := .SUCCEED, lf := lf, buf := buf } := by
      simp [H5F_stdio_read, ho, hz]
    rw [he]
    exact ⟨hsv, ht, fun _ => rfl, fun h => by omega⟩
  · by_cases he : lf.eof ≤ addr
    · have hl : (H5F_stdio_read P lf addr size buf).lf = lf := by
        simp [H5F_stdio_read, ho, hz, he]
      rw [hl]
      exact ⟨hsv, ht, fun _ => rfl, fun _ h => by omega⟩
    · obtain ⟨hk1, hk2, hk3⟩ := seekBlock_served P lf .H5F_OP_READ addr hsv.1
      obtain ⟨hpos, _⟩ := seekBlock_pos P lf _ addr (Or.inl rfl) ht hk1
      obtain ⟨heof, _, hdata, _, _⟩ := seekBlock_frame P lf .H5F_OP_READ addr
      have hr := read_reaches_medium P lf addr size buf ho hz he
      simp only [hk1, if_false] at hr
      rw [hr] at htr ⊢
      generalize (seekBlock P lf .H5F_OP_READ addr).2 = lf1 at hk2 hk3 hpos heof hdata htr ⊢
      have hzl := zeroTail_lt P lf1.eof addr size (by rw [heof]; omega) (by omega)
      obtain ⟨_, r2, r3, r4, r5, r6⟩ := readData_served P lf1 addr size buf hk2 (by omega)
        (by rw [hpos, hdata]; have := hsv.2; omega)
      refine ⟨⟨r5, ?_⟩, htr, fun h => by omega, fun _ _ => ⟨r2, ?_, ?_⟩⟩
      · rw [readData_eof, r4, heof, hdata]; exact hsv.2
      · intro hin
        rw [r3, (zeroTail_inside P lf1.eof addr size (by rw [heof]; exact hin)).2, hpos, hdata]
        have := hsv.2
        omega
      · rw [r6, hk3]


/-- Once a read has reached the medium, the contiguous reads that follow on a
medium that serves every read in full issue no reposition call. -/
theorem readRun_after_first (P : Platform) (hopt : P.H5F_OPT_SEEK = true) (sizes : List Nat) :
    ∀ (lf : H5F_low_t) (addr : Nat) (buf : Buffer),
      lf.op = .H5F_OP_READ → (addr < lf.eof → lf.cur = addr) → lf.tracked → lf.served →
      (readRun P lf addr buf sizes).2 = true →
      seekCount (readRun P lf addr buf sizes).1.f.calls = seekCount lf.f.calls := by
  induction sizes with
  | nil => intro lf addr buf _ _ _ _ _; rfl
  | cons s rest ih =>
    intro lf addr buf hop hcur ht hsv hrun
    unfold readRun at hrun ⊢
    by_cases hs : (H5F_stdio_read P lf addr s buf).ret = .SUCCEED
    · simp only [hs, if_true] at hrun ⊢
      obtain ⟨r1, r2, r3, r4⟩ := read_served P lf addr s buf ht hsv hs
      by_cases hreach : 0 < s ∧ addr < lf.eof
      · obtain ⟨q1, q2, q3⟩ := r4 hreach.1 hreach.2
        have hskip : ¬ (P.H5F_OPT_SEEK = false ∨ lf.op ≠ .H5F_OP_READ ∨ lf.cur ≠ addr) := by
          simp [hopt, hop, hcur hreach.2]
        rw [if_neg hskip, Nat.add_zero] at q3
        rw [← q3]
        refine ih _ _ _ q1 ?_ r2 r1 hrun
        intro hlt
        rw [read_eof] at hlt
        exact q2 (by omega)
      · have hl := r3 (by omega)
        rw [hl] at hrun ⊢
        refine ih lf (addr + s) _ hop ?_ ht hsv hrun
        intro hlt
        have hs0 : s = 0 := by omega
        rw [hs0, Nat.add_zero]
        exact hcur (by omega)
    · simp [hs] at hrun

/-- The reposition calls of a run of contiguous reads through a handle whose
last operation is not a read, on a medium that serves every read in full: one
if some read has a positive size and the run starts below the logical end of
file, none otherwise. -/
theorem readRun_seeks (P : Platform) (hopt : P.H5F_OPT_SEEK = true) (sizes : List Nat) :
    ∀ (lf : H5F_low_t) (addr : Nat) (buf : Buffer),
      lf.op ≠ .H5F_OP_READ → lf.tracked → lf.served →
      (readRun P lf addr buf sizes).2 = true →
      seekCount (readRun P lf addr buf sizes).1.f.calls = seekCount lf.f.calls +
        (if (∃ s ∈ sizes, 0 < s) ∧ addr < lf.eof then 1 else 0) := by
  induction sizes with
  | nil => intro lf addr buf _ _ _ _; simp [readRun]
  | cons s rest ih =>
    intro lf addr buf hop ht hsv hrun
    unfold readRun at hrun ⊢
    by_cases hs : (H5F_stdio_read P lf addr s buf).ret = .SUCCEED
    · simp only [hs, if_true] at hrun ⊢
      obtain ⟨r1, r2, r3, r4⟩ := read_served P lf addr s buf ht hsv hs
      by_cases hreach : 0 < s ∧ addr < lf.eof
      · obtain ⟨q1, q2, q3⟩ := r4 hreach.1 hreach.2
        have hseek : P.H5F_OPT_SEEK = false ∨ lf.op ≠ .H5F_OP_READ ∨ lf.cur ≠ addr :=
          Or.inr (Or.inl hop)
        rw [if_pos hseek] at q3
        have hafter := readRun_after_first P hopt rest _ (addr + s) _ q1
          (fun hlt => q2 (by rw [read_eof] at hlt; omega)) r2 r1 hrun
        rw [hafter, q3]
        have : (∃ x ∈ s :: rest, 0 < x) ∧ addr < lf.eof :=
          ⟨⟨s, List.mem_cons_self s rest, hreach.1⟩, hreach.2⟩
        rw [if_pos this]
      · have hl := r3 (by omega)
        rw [hl] at hrun ⊢
        rw [ih lf (addr + s) _ hop ht hsv hrun]
        congr 1
        by_cases hs0 : s = 0
        · subst hs0
          simp
        · have hge : lf.eof ≤ addr := by omega
          have h1 : ¬ ((∃ x ∈ rest, 0 < x) ∧ addr + s < lf.eof) := by omega
          have h2 : ¬ ((∃ x ∈ s :: rest, 0 < x) ∧ addr < lf.eof) := by omega
          rw [if_neg h1, if_neg h2]
    · simp [hs] at hrun

/-- C11, as amended: with the seek-skip optimisation enabled, for a handle
that has not read yet and tracks its position (as every freshly opened handle
does) on a medium that serves every read in full, and every sequence of
successful reads in which the first is at address 0 and each next one starts
where the previous one ended, the reads issue at most one reposition call in
total: exactly one when some read has a positive size and the logical end of
file is not 0, and none otherwise. -/
theorem contiguous_reads_seek_once (P : Platform) (lf : H5F_low_t) (buf : Buffer)
    (sizes : List Nat)
    (hopt : P.H5F_OPT_SEEK = true) (hop : lf.op ≠ .H5F_OP_READ) (ht : lf.tracked)
    (hsv : lf.served) (hrun : (readRun P lf 0 buf sizes).2 = true) :
    seekCount (readRun P lf 0 buf sizes).1.f.calls ≤ seekCount lf.f.calls + 1 ∧
    ((∃ s ∈ sizes, 0 < s) ∧ 0 < lf.eof →
      seekCount (readRun P lf 0 buf sizes).1.f.calls = seekCount lf.f.calls + 1) ∧
    (¬ ((∃ s ∈ sizes, 0 < s) ∧ 0 < lf.eof) →
      seekCount (readRun P lf 0 buf sizes).1.f.calls = seekCount lf.f.calls) := by
  have h := readRun_seeks P hopt sizes lf 0 buf hop ht hsv hrun
  refine ⟨?_, ?_, ?_⟩
  · rw [h]; split_ifs <;> omega
  · intro hc; rw [h, if_pos hc]
  · intro hc; rw [h, if_neg hc, Nat.add_zero]

/-- Witness for C11: the three-byte file read in steps of 1, 1 and 4 bytes. -/
theorem contiguous_reads_seek_once_witness :
    (H5F_stdio_open lp64 fsA "a" 1 []).handle = .ok handleA ∧
    lp64.H5F_OPT_SEEK = true ∧ handleA.op ≠ .H5F_OP_READ ∧ handleA.tracked ∧ handleA.served ∧
    (readRun lp64 handleA 0 blank [1, 1, 4]).2 = true ∧
    ((∃ s ∈ [1, 1, 4], 0 < s) ∧ 0 < handleA.eof) ∧
    seekCount (readRun lp64 handleA 0 blank [1, 1, 4]).1.f.calls =
      seekCount handleA.f.calls + 1 :=
  ⟨rfl, rfl, by decide, by decide, by decide, by decide, by decide,
   (contiguous_reads_seek_once lp64 handleA blank [1, 1, 4] rfl (by decide) (by decide)
     (by decide) (by decide)).2.1 (by decide)⟩

/-- Counterexample to C11 as stated: on a freshly created (empty) file, the
non-empty sequence of two successful contiguous reads from address 0 issues no
reposition call at all: the log of medium calls is the one open left. -/
theorem contiguous_reads_counterexample :
    (H5F_stdio_open lp64 fsEmpty "t.bin" 17 []).handle = .ok handleFresh ∧
    lp64.H5F_OPT_SEEK = true ∧
    (readRun lp64 handleFresh 0 blank [4, 4]).2 = true ∧
    (readRun lp64 handleFresh 0 blank [4, 4]).1.f.calls = handleFresh.f.calls ∧
    seekCount ((readRun lp64 handleFresh 0 blank [4, 4]).1.f.calls.drop
      handleFresh.f.calls.length) = 0 :=
  ⟨rfl, rfl, by decide, by decide, by decide⟩


/-! ## Write, flush and close -/

theorem accepts_le (f : FILE) (size : Nat) : f.accepts size ≤ size := by
  unfold FILE.accepts
  split_ifs
  · cases f.nextFault with
    | none => exact Nat.le_refl _
    | some k => exact Nat.min_le_right _ _
  · exact Nat.zero_le _

/-- The part of write after the seek: an error with the last operation
`UNKNOWN` when the stream takes fewer than `size` bytes, success with the
position data updated when it takes them all. -/
theorem writeData_spec (lf : H5F_low_t) (offset size : Nat) (buf : Buffer) :
    (fwrite lf.f buf size).1 ≤ size ∧
    ((fwrite lf.f buf size).1 < size →
      (writeData lf offset size buf).ret = .FAIL .H5E_WRITEERROR ∧
      (writeData lf offset size buf).lf.op = .H5F_OP_UNKNOWN) ∧
    (¬ (fwrite lf.f buf size).1 < size →
      (writeData lf offset size buf).ret = .SUCCEED ∧
      (writeData lf offset size buf).lf.op = .H5F_OP_WRITE ∧
      (writeData lf offset size buf).lf.cur = offset + size) := by
  have hle : (fwrite lf.f buf size).1 ≤ size := accepts_le lf.f size
  refine ⟨hle, ?_, ?_⟩
  · intro h
    have hne : size ≠ (fwrite lf.f buf size).1 := by omega
    simp [writeData, hne]
  · intro h
    have heq : ¬ size ≠ (fwrite lf.f buf size).1 := by omega
    simp [writeData, heq]

/-- C12: when the overflow check passes and repositioning succeeds, the medium
takes at most `size` bytes; if it takes fewer, write returns `WRITEERROR` with
last operation `UNKNOWN`; otherwise write succeeds with last operation `WRITE`
and tracked position `addr + size`.  Hence write never succeeds with fewer
than `size` bytes transferred. -/
theorem write_all_or_error (P : Platform) (lf : H5F_low_t) (addr size : Nat) (buf : Buffer)
    (ho : ¬ addrOverflows P addr size)
    (hs : ¬ (seekBlock P lf .H5F_OP_WRITE addr).1 < 0) :
    (fwrite (seekBlock P lf .H5F_OP_WRITE addr).2.f buf size).1 ≤ size ∧
    ((fwrite (seekBlock P lf .H5F_OP_WRITE addr).2.f buf size).1 < size →
      (H5F_stdio_write P lf addr size buf).ret = .FAIL .H5E_WRITEERROR ∧
      (H5F_stdio_write P lf addr size buf).lf.op = .H5F_OP_UNKNOWN) ∧
    (¬ (fwrite (seekBlock P lf .H5F_OP_WRITE addr).2.f buf size).1 < size →
      (H5F_stdio_write P lf addr size buf).ret = .SUCCEED ∧
      (H5F_stdio_write P lf addr size buf).lf.op = .H5F_OP_WRITE ∧
      (H5F_stdio_write P lf addr size buf).lf.cur = addr + size) ∧
    ((H5F_stdio_write P lf addr size buf).ret = .SUCCEED →
      (fwrite (seekBlock P lf .H5F_OP_WRITE addr).2.f buf size).1 = size) := by
  rw [write_reaches_medium P lf addr size buf ho]
  simp only [hs, if_false]
  obtain ⟨h1, h2, h3⟩ := writeData_spec (seekBlock P lf .H5F_OP_WRITE addr).2 addr size buf
  refine ⟨h1, h2, h3, ?_⟩
  intro hret
  by_contra hne
  have hlt : (fwrite (seekBlock P lf .H5F_OP_WRITE addr).2.f buf size).1 < size := by omega
  rw [(h2 hlt).1] at hret
  cases hret

/-- Witness for C12: three bytes written at address 0 of the three-byte
file. -/
theorem write_all_or_error_witness :
    ¬ addrOverflows lp64 0 3 ∧ ¬ (seekBlock lp64 handleA .H5F_OP_WRITE 0).1 < 0 ∧
    ¬ (fwrite (seekBlock lp64 handleA .H5F_OP_WRITE 0).2.f digits 3).1 < 3 ∧
    ((H5F_stdio_write lp64 handleA 0 3 digits).ret = .SUCCEED ∧
      (H5F_stdio_write lp64 handleA 0 3 digits).lf.op = .H5F_OP_WRITE ∧
      (H5F_stdio_write lp64 handleA 0 3 digits).lf.cur = 0 + 3) :=
  ⟨by decide, by decide, by decide,
   (write_all_or_error lp64 handleA 0 3 digits (by decide) (by decide)).2.2.1 (by decide)⟩

/-- C13: flush leaves the last operation `UNKNOWN` whether or not the
underlying flush fails (it is set before `fflush` is called), returns
`WRITEERROR` exactly when the underlying flush fails and succeeds otherwise,
and leaves the tracked position and the logical end of file unchanged. -/
theorem flush_resets_last_operation (lf : H5F_low_t) :
    (H5F_stdio_flush lf).lf.op = .H5F_OP_UNKNOWN ∧
    ((H5F_stdio_flush lf).ret = .FAIL .H5E_WRITEERROR ↔ (fflush lf.f).1 < 0) ∧
    ((H5F_stdio_flush lf).ret = .SUCCEED ↔ ¬ (fflush lf.f).1 < 0) ∧
    (H5F_stdio_flush lf).lf.f = (fflush lf.f).2 ∧
    (H5F_stdio_flush lf).lf.cur = lf.cur ∧
    (H5F_stdio_flush lf).lf.eof = lf.eof := by
  unfold H5F_stdio_flush
  dsimp only
  by_cases h : (fflush lf.f).1 < 0
  · simp [h]
  · simp [h]

/-- C14, failing input: close of the handle on the three-byte file when the
underlying `fclose` fails.  Close returns `CLOSEERROR` before the stream
pointer of the handle is reset: the handle still holds it. -/
theorem close_error_keeps_stream :
    (fclose handleAFaulty.f).1 < 0 ∧
    (H5F_stdio_close handleAFaulty).ret = .FAIL .H5E_CLOSEERROR ∧
    (H5F_stdio_close handleAFaulty).f_is_null = false ∧
    (H5F_stdio_close handleA).ret = .SUCCEED ∧
    (H5F_stdio_close handleA).f_is_null = true :=
  ⟨by decide, by decide, by decide, by decide, by decide⟩


/-! ## The log of medium calls over a sequence of driver calls -/

theorem turnsFrom_append (a b : List MediumCall) :
    ∀ t : Turn, turnsFrom t (a ++ b) = (turnsFrom t a).bind (fun t1 => turnsFrom t1 b) := by
  induction a with
  | nil => intro t; rfl
  | cons c cs ih =>
    intro t
    show (match t.next c with
      | none => none
      | some t1 => turnsFrom t1 (cs ++ b)) = _
    cases h : t.next c with
    | none => simp [turnsFrom, h]
    | some t1 => simp [turnsFrom, h, ih t1]

/-- The part of read after the seek logs one `fread` and leaves the last
operation `READ` or `UNKNOWN`. -/
theorem readData_calls (P : Platform) (lf : H5F_low_t) (offset size : Nat) (buf : Buffer) :
    (readData P lf offset size buf).lf.f.calls =
      lf.f.calls ++ [.fread (size - zeroTail P lf.eof offset size)] ∧
    ((readData P lf offset size buf).lf.op = .H5F_OP_READ ∨
      (readData P lf offset size buf).lf.op = .H5F_OP_UNKNOWN) := by
  unfold readData
  dsimp only
  split_ifs <;> simp [fread, FILE.step]

/-- The part of write after the seek logs one `fwrite` and leaves the last
operation `WRITE` or `UNKNOWN`. -/
theorem writeData_calls (lf : H5F_low_t) (offset size : Nat) (buf : Buffer) :
    (writeData lf offset size buf).lf.f.calls = lf.f.calls ++ [.fwrite size] ∧
    ((writeData lf offset size buf).lf.op = .H5F_OP_WRITE ∨
      (writeData lf offset size buf).lf.op = .H5F_OP_UNKNOWN) := by
  unfold writeData
  dsimp only
  split_ifs <;> simp [fwrite, FILE.step]

/-- What the seek block adds to the log: the `fseek` call, or nothing when the
handle remembers an operation in the direction `me`. -/
theorem seekBlock_turn (P : Platform) (lf : H5F_low_t) (me : H5F_fileop_t) (offset : Nat) :
    ((seekBlock P lf me offset).1 < 0 →
      (seekBlock P lf me offset).2.f.calls = lf.f.calls ++ [.fseek_set offset] ∧
      (seekBlock P lf me offset).2.op = lf.op) ∧
    (¬ (seekBlock P lf me offset).1 < 0 →
      ((seekBlock P lf me offset).2.f.calls = lf.f.calls ++ [.fseek_set offset]) ∨
      ((seekBlock P lf me offset).2.f.calls = lf.f.calls ∧ lf.op = me)) := by
  constructor
  · intro h
    rw [(seekBlock_fail P lf me offset h).2.2]
    exact ⟨rfl, rfl⟩
  · intro h
    rcases seekBlock_ok P lf me offset h with ⟨_, _, he⟩ | ⟨hs, he⟩
    · left; rw [he]; rfl
    · right
      push_neg at hs
      rw [he]
      exact ⟨rfl, hs.2.1⟩

/-- One read keeps the log free of a turn without reposition. -/
theorem read_turn (P : Platform) (lf : H5F_low_t) (addr size : Nat) (buf : Buffer)
    (t : Turn) (hf : t.fits lf.op) :
    ∃ ext t1, (H5F_stdio_read P lf addr size buf).lf.f.calls = lf.f.calls ++ ext ∧
      turnsFrom t ext = some t1 ∧ t1.fits (H5F_stdio_read P lf addr size buf).lf.op := by
  by_cases ho : addrOverflows P addr size
  · rw [read_overflow P lf addr size buf ho]
    exact ⟨[], t, by simp, rfl, hf⟩
  by_cases hz : 0 = size
  · have : H5F_stdio_read P lf addr size buf = { ret := .SUCCEED, lf := lf, buf := buf } := by
      simp [H5F_stdio_read, ho, hz]
    rw [this]
    exact ⟨[], t, by simp, rfl, hf⟩
  by_cases he : lf.eof ≤ addr
  · have : H5F_stdio_read P lf addr size buf =
        { ret := .SUCCEED, lf := lf, buf := HDmemset buf 0 size } := by
      simp [H5F_stdio_read, ho, hz, he]
    rw [this]
    exact ⟨[], t, by simp, rfl, hf⟩
  rw [read_reaches_medium P lf addr size buf ho hz he]
  obtain ⟨hfail, hok⟩ := seekBlock_turn P lf .H5F_OP_READ addr
  by_cases hs : (seekBlock P lf .H5F_OP_READ addr).1 < 0
  · rw [if_pos hs]
    refine ⟨[.fseek_set addr], .seek, (hfail hs).1, ?_, ?_⟩
    · cases t <;> rfl
    · exact ⟨fun _ => Or.inr rfl, fun _ => Or.inr rfl⟩
  · rw [if_neg hs]
    obtain ⟨hc, hop⟩ := readData_calls P (seekBlock P lf .H5F_OP_READ addr).2 addr size buf
    have hfit : Turn.read.fits
        (readData P (seekBlock P lf .H5F_OP_READ addr).2 addr size buf).lf.op := by
      rcases hop with h | h <;> rw [h] <;>
        exact ⟨fun _ => Or.inl rfl, fun hw => by cases hw⟩
    generalize size - zeroTail P (seekBlock P lf .H5F_OP_READ addr).2.eof addr size = k at hc
    rcases hok hs with h1 | ⟨h1, h2⟩
    · refine ⟨[.fseek_set addr, .fread k], .read, ?_, ?_, hfit⟩
      · rw [hc, h1]; simp
      · cases t <;> rfl
    · refine ⟨[.fread k], .read, ?_, ?_, hfit⟩
      · rw [hc, h1]
      · rcases hf.1 h2 with ht | ht <;> rw [ht] <;> rfl

/-- One write keeps the log free of a turn without reposition. -/
theorem write_turn (P : Platform) (lf : H5F_low_t) (addr size : Nat) (buf : Buffer)
    (t : Turn) (hf : t.fits lf.op) :
    ∃ ext t1, (H5F_stdio_write P lf addr size buf).lf.f.calls = lf.f.calls ++ ext ∧
      turnsFrom t ext = some t1 ∧ t1.fits (H5F_stdio_write P lf addr size buf).lf.op := by
  by_cases ho : addrOverflows P addr size
  · rw [write_overflow P lf addr size buf ho]
    exact ⟨[], t, by simp, rfl, hf⟩
  rw [write_reaches_medium P lf addr size buf ho]
  obtain ⟨hfail, hok⟩ := seekBlock_turn P lf .H5F_OP_WRITE addr
  by_cases hs : (seekBlock P lf .H5F_OP_WRITE addr).1 < 0
  · rw [if_pos hs]
    refine ⟨[.fseek_set addr], .seek, (hfail hs).1, ?_, ?_⟩
    · cases t <;> rfl
    · exact ⟨fun _ => Or.inr rfl, fun _ => Or.inr rfl⟩
  · rw [if_neg hs]
    obtain ⟨hc, hop⟩ := writeData_calls (seekBlock P lf .H5F_OP_WRITE addr).2 addr size buf
    have hfit : Turn.write.fits
        (writeData (seekBlock P lf .H5F_OP_WRITE addr).2 addr size buf).lf.op := by
      rcases hop with h | h <;> rw [h] <;>
        exact ⟨fun hw => (by cases hw), fun _ => Or.inl rfl⟩
    rcases hok hs with h1 | ⟨h1, h2⟩
    · refine ⟨[.fseek_set addr, .fwrite size], .write, ?_, ?_, hfit⟩
      · rw [hc, h1]; simp
      · cases t <;> rfl
    · refine ⟨[.fwrite size], .write, ?_, ?_, hfit⟩
      · rw [hc, h1]
      · rcases hf.2 h2 with ht | ht <;> rw [ht] <;> rfl

/-- A flush logs one `fflush` and forgets the last operation. -/
theorem flush_turn (lf : H5F_low_t) (t : Turn) :
    (H5F_stdio_flush lf).lf.f.calls = lf.f.calls ++ [.fflush] ∧
    turnsFrom t [.fflush] = some t ∧ t.fits (H5F_stdio_flush lf).lf.op := by
  have hop : (H5F_stdio_flush lf).lf.op = .H5F_OP_UNKNOWN := by
    unfold H5F_stdio_flush; dsimp only; split_ifs <;> rfl
  have hc : (H5F_stdio_flush lf).lf.f.calls = lf.f.calls ++ [.fflush] := by
    unfold H5F_stdio_flush fflush
    dsimp only
    cases lf.f.nextFault <;> simp [FILE.step]
  refine ⟨hc, by cases t <;> rfl, ?_⟩
  rw [hop]
  exact ⟨fun h => (by cases h), fun h => (by cases h)⟩

/-- One driver call keeps the log free of a turn without reposition. -/
theorem run_turn (P : Platform) (lf : H5F_low_t) (buf : Buffer) (c : DriverCall)
    (t : Turn) (hf : t.fits lf.op) :
    ∃ ext t1, (c.run P lf buf).2.1.f.calls = lf.f.calls ++ ext ∧
      turnsFrom t ext = some t1 ∧ t1.fits (c.run P lf buf).2.1.op := by
  cases c with
  | read addr size => exact read_turn P lf addr size buf t hf
  | write addr size wbuf => exact write_turn P lf addr size wbuf t hf
  | flush => exact ⟨[.fflush], t, (flush_turn lf t).1, (flush_turn lf t).2.1, (flush_turn lf t).2.2⟩

/-- A sequence of driver calls keeps the log free of a turn without
reposition. -/
theorem runDriver_turn (P : Platform) (cs : List DriverCall) :
    ∀ (lf : H5F_low_t) (buf : Buffer) (t : Turn), t.fits lf.op →
      ∃ ext t1, (runDriver P lf buf cs).2.f.calls = lf.f.calls ++ ext ∧
        turnsFrom t ext = some t1 ∧ t1.fits (runDriver P lf buf cs).2.op := by
  induction cs with
  | nil => intro lf buf t hf; exact ⟨[], t, by simp [runDriver], rfl, hf⟩
  | cons c cs ih =>
    intro lf buf t hf
    obtain ⟨e1, t1, hc1, ht1, hf1⟩ := run_turn P lf buf c t hf
    obtain ⟨e2, t2, hc2, ht2, hf2⟩ := ih (c.run P lf buf).2.1 (c.run P lf buf).2.2 t1 hf1
    refine ⟨e1 ++ e2, t2, ?_, ?_, hf2⟩
    · show (runDriver P (c.run P lf buf).2.1 (c.run P lf buf).2.2 cs).2.f.calls = _
      rw [hc2, hc1, List.append_assoc]
    · rw [turnsFrom_append, ht1]
      exact ht2

/-- The handle open builds has made one reposition call and remembers neither
a read nor a write. -/
theorem open_handle_turn (f : FILE) :
    ((H5F_stdio_open_handle f).op = .H5F_OP_SEEK ∨
      (H5F_stdio_open_handle f).op = .H5F_OP_UNKNOWN) ∧
    ∃ ext, (H5F_stdio_open_handle f).f.calls = f.calls ++ ext ∧
      turnsFrom .fresh ext = some .seek := by
  unfold H5F_stdio_open_handle
  dsimp only
  cases hq : f.nextFault with
  | none =>
    refine ⟨Or.inl ?_, [.fseek_end, .ftell], ?_, rfl⟩
    · simp [fseek_end, hq]
    · simp [fseek_end, hq, ftell, FILE.step]
  | some k =>
    refine ⟨Or.inr ?_, [.fseek_end], ?_, rfl⟩
    · simp [fseek_end, hq]
    · simp [fseek_end, hq, FILE.step]

/-- A stream that `fopen` returns has an empty log. -/
theorem fopen_calls (fs : FileSys) (name : String) (mode : fmode) (script : List (Option Nat))
    (f : FILE) (fs1 : FileSys) (h : fopen fs name mode script = (some f, fs1)) :
    f.calls = [] := by
  unfold fopen at h
  cases hs : scriptHead script with
  | some k => simp [hs] at h
  | none =>
    simp only [hs] at h
    cases mode with
    | wb_plus =>
      simp only [Prod.mk.injEq, Option.some.injEq] at h
      obtain ⟨rfl, _⟩ := h
      rfl
    | rb_plus =>
      cases hl : fs.lookup name with
      | none => simp [hl] at h
      | some d =>
        simp only [hl, Prod.mk.injEq, Option.some.injEq] at h
        obtain ⟨rfl, _⟩ := h
        rfl
    | rb =>
      cases hl : fs.lookup name with
      | none => simp [hl] at h
      | some d =>
        simp only [hl, Prod.mk.injEq, Option.some.injEq] at h
        obtain ⟨rfl, _⟩ := h
        rfl

/-- C24: for a handle that open returns, and every sequence of read, write
and flush calls through it, the log of medium calls never has a read of the
medium after a write of the medium, nor a write after a read, nor a first
transfer, without a reposition call (`fseek`) in between: this holds for the
calls made after open taken alone, so the first medium access after open is
preceded by a reposition of its own, and for the whole log of the stream. -/
theorem no_turn_without_reposition (P : Platform) (fs : FileSys) (name : String) (flags : Nat)
    (script : List (Option Nat)) (lf : H5F_low_t)
    (hopen : (H5F_stdio_open P fs name flags script).handle = .ok lf)
    (buf : Buffer) (cs : List DriverCall) :
    (∃ ext, (runDriver P lf buf cs).2.f.calls = lf.f.calls ++ ext ∧
      (turnsFrom .fresh ext).isSome = true) ∧
    (turnsFrom .fresh (runDriver P lf buf cs).2.f.calls).isSome = true := by
  obtain ⟨f, mode, hf, hh, _⟩ := open_ok_shape P fs name flags script lf hopen
  obtain ⟨hop, e0, hc0, ht0⟩ := open_handle_turn f
  rw [← hh] at hop hc0
  have hfit : ∀ t : Turn, t.fits lf.op := by
    intro t
    rcases hop with h | h <;> rw [h] <;> exact ⟨fun hc => (by cases hc), fun hc => (by cases hc)⟩
  constructor
  · obtain ⟨ext, t1, hc, ht, _⟩ := runDriver_turn P cs lf buf .fresh (hfit _)
    exact ⟨ext, hc, by rw [ht]; rfl⟩
  · obtain ⟨ext, t1, hc, ht, _⟩ := runDriver_turn P cs lf buf .seek (hfit _)
    rw [hc, hc0, fopen_calls fs name mode script f _ hf, List.nil_append, turnsFrom_append,
      ht0]
    show (turnsFrom .seek ext).isSome = true
    rw [ht]; rfl

/-- Witness for C24: the three-byte file opened read-write, then a write, two
reads, a flush and two writes. -/
theorem no_turn_without_reposition_witness :
    (H5F_stdio_open lp64 fsA "a" 1 []).handle = .ok handleA ∧
    (turnsFrom .fresh (runDriver lp64 handleA blank mixedCalls).2.f.calls).isSome = true ∧
    (turnsFrom .fresh [.fseek_set 0, .fwrite 2, .fread 1]).isSome = false :=
  ⟨rfl, (no_turn_without_reposition lp64 fsA "a" 1 [] handleA rfl blank mixedCalls).2, rfl⟩

/-! ## Opening a missing path, and opening without `RDWR` -/

/-- Opening a path that does not exist, case by case. -/
theorem open_missing (P : Platform) (fs : FileSys) (name : String) (flags : Nat)
    (script : List (Option Nat)) (hmiss : fs.lookup name = none) :
    (¬ (flagSet flags P.H5F_ACC_CREAT ∧ flagSet flags P.H5F_ACC_RDWR) →
      (H5F_stdio_open P fs name flags script).handle = .error .H5E_CANTOPENFILE ∧
      (H5F_stdio_open P fs name flags script).fs = fs) ∧
    (flagSet flags P.H5F_ACC_CREAT → flagSet flags P.H5F_ACC_RDWR →
      (scriptHead script = none →
        (H5F_stdio_open P fs name flags script).handle =
          .ok (H5F_stdio_open_handle (FILE.fresh [] true script.tail)) ∧
        (H5F_stdio_open P fs name flags script).fs = fs.store name []) ∧
      ((scriptHead script).isSome →
        (H5F_stdio_open P fs name flags script).handle = .error .H5E_CANTOPENFILE ∧
        (H5F_stdio_open P fs name flags script).fs = fs)) := by
  have ha : access fs name < 0 := (access_lt_iff fs name).2 hmiss
  constructor
  · intro hn
    exact open_fails_early P fs name flags script _ (by simp [H5F_stdio_open_stream, ha, hn])
  · intro hc hr
    have hm := (open_stream_mode P fs name flags script).1 hmiss hc hr
    constructor
    · intro hok
      have hf : fopen fs name .wb_plus script =
          (some (FILE.fresh [] true script.tail), fs.store name []) := by
        simp [fopen, hok]
      exact (open_via_fopen P fs name flags script .wb_plus hm).2.1 _ _ hf
    · intro hbad
      have hf : fopen fs name .wb_plus script = (none, fs) := by
        cases hq : scriptHead script with
        | none => simp [hq] at hbad
        | some k => simp [fopen, hq]
      refine ⟨(open_via_fopen P fs name flags script .wb_plus hm).2.2 (by rw [hf]), ?_⟩
      unfold H5F_stdio_open
      rw [hm, hf]

/-- C27: open of a path that does not exist creates the file only when
`CREAT` and `RDWR` are both set: without both it fails with `CANTOPENFILE` and
the directory is as it was, in particular with `CREAT` set and `RDWR` absent;
with both, when `fopen` does not fail, it returns a handle on a new empty
writable file that the directory now holds. -/
theorem open_missing_creates_with_rdwr (P : Platform) (fs : FileSys) (name : String)
    (flags : Nat) (script : List (Option Nat)) (hmiss : fs.lookup name = none) :
    ((H5F_stdio_open P fs name flags script).fs.lookup name ≠ none →
      flagSet flags P.H5F_ACC_CREAT ∧ flagSet flags P.H5F_ACC_RDWR) ∧
    (flagSet flags P.H5F_ACC_CREAT → ¬ flagSet flags P.H5F_ACC_RDWR →
      (H5F_stdio_open P fs name flags script).handle = .error .H5E_CANTOPENFILE ∧
      (H5F_stdio_open P fs name flags script).fs = fs) ∧
    (flagSet flags P.H5F_ACC_CREAT → flagSet flags P.H5F_ACC_RDWR → scriptHead script = none →
      (∃ lf, (H5F_stdio_open P fs name flags script).handle = .ok lf ∧ lf.f.data = [] ∧
        lf.f.writable = true) ∧
      (H5F_stdio_open P fs name flags script).fs.lookup name = some []) := by
  obtain ⟨h1, h2⟩ := open_missing P fs name flags script hmiss
  refine ⟨?_, ?_, ?_⟩
  · intro hne
    by_contra hc
    rw [(h1 hc).2] at hne
    exact hne hmiss
  · intro _ hr
    exact h1 (fun h => hr h.2)
  · intro hc hr hok
    obtain ⟨hh, hfs⟩ := (h2 hc hr).1 hok
    refine ⟨⟨_, hh, ?_, ?_⟩, ?_⟩
    · rw [(open_handle_data _).1]; rfl
    · rw [(open_handle_data _).2]; rfl
    · rw [hfs]; exact lookup_store fs name []

/-- Witness for C27: `"b"` does not exist; it is opened with `CREAT` alone,
and with `CREAT` and `RDWR`. -/
theorem open_missing_creates_with_rdwr_witness :
    fsA.lookup "b" = none ∧
    (flagSet 16 lp64.H5F_ACC_CREAT ∧ ¬ flagSet 16 lp64.H5F_ACC_RDWR ∧
      (H5F_stdio_open lp64 fsA "b" 16 []).handle = .error .H5E_CANTOPENFILE ∧
      (H5F_stdio_open lp64 fsA "b" 16 []).fs = fsA) ∧
    (flagSet 17 lp64.H5F_ACC_CREAT ∧ flagSet 17 lp64.H5F_ACC_RDWR ∧
      (H5F_stdio_open lp64 fsA "b" 17 []).fs.lookup "b" = some []) :=
  ⟨by decide,
   ⟨by decide, by decide,
    (open_missing_creates_with_rdwr lp64 fsA "b" 16 [] (by decide)).2.1 (by decide) (by decide)⟩,
   ⟨by decide, by decide,
    ((open_missing_creates_with_rdwr lp64 fsA "b" 17 [] (by decide)).2.2
      (by decide) (by decide) rfl).2⟩⟩

/-- A successful open of an existing path without `RDWR` goes through
`fopen` in mode `"rb"`. -/
theorem open_read_only (P : Platform) (fs : FileSys) (name : String) (flags : Nat)
    (script : List (Option Nat)) (d : List uint8) (lf : H5F_low_t)
    (hex : fs.lookup name = some d) (hnrw : ¬ flagSet flags P.H5F_ACC_RDWR)
    (hopen : (H5F_stdio_open P fs name flags script).handle = .ok lf) :
    ¬ (flagSet flags P.H5F_ACC_CREAT ∧ flagSet flags P.H5F_ACC_EXCL) ∧
    H5F_stdio_open_stream P fs name flags script =
      (.ok (some (FILE.fresh d false script.tail)), fs) ∧
    lf = H5F_stdio_open_handle (FILE.fresh d false script.tail) := by
  have hl : fs.lookup name ≠ none := by simp [hex]
  have hne : ¬ (flagSet flags P.H5F_ACC_CREAT ∧ flagSet flags P.H5F_ACC_EXCL) := by
    intro hx
    have ha : ¬ access fs name < 0 := fun h => hl ((access_lt_iff fs name).1 h)
    have := (open_fails_early P fs name flags script .H5E_FILEEXISTS
      (by simp [H5F_stdio_open_stream, ha, hx])).1
    rw [this] at hopen
    cases hopen
  have hm := ((open_stream_mode P fs name flags script).2 hl hne).2.2 hnrw
  obtain ⟨f, hf, hh⟩ := (open_via_fopen P fs name flags script .rb hm).1 lf hopen
  have hok := (fopen_some fs name .rb script f _ hf).1
  have hf2 : fopen fs name .rb script = (some (FILE.fresh d false script.tail), fs) := by
    simp [fopen, hok, hex]
  refine ⟨hne, ?_, ?_⟩
  · rw [hm, hf2]
  · rw [hf2] at hf
    have : f = FILE.fresh d false script.tail := by
      have := congrArg Prod.fst hf
      simpa using this.symm
    rw [hh, this]

/-- C28: when `RDWR` is not set, a successful open of an existing path
returns a handle on a read-only stream whose contents are those of the file,
and the directory (contents and size of every file) is as it was, whatever
`TRUNC`, `CREAT` and `EXCL` are: the result is the one of the open with no
flag set at all. -/
theorem open_without_rdwr_reads_only (P : Platform) (fs : FileSys) (name : String)
    (flags : Nat) (script : List (Option Nat)) (d : List uint8) (lf : H5F_low_t)
    (hex : fs.lookup name = some d) (hnrw : ¬ flagSet flags P.H5F_ACC_RDWR)
    (hopen : (H5F_stdio_open P fs name flags script).handle = .ok lf) :
    lf.f.writable = false ∧ lf.f.data = d ∧
    (H5F_stdio_open P fs name flags script).fs = fs ∧
    (H5F_stdio_open P fs name flags script).fs.lookup name = some d ∧
    (H5F_stdio_open P fs name 0 script).handle = .ok lf ∧
    (H5F_stdio_open P fs name 0 script).fs = fs := by
  obtain ⟨_, hs, hlf⟩ := open_read_only P fs name flags script d lf hex hnrw hopen
  have h0 : ∀ bit : Nat, ¬ flagSet 0 bit := by
    intro bit h
    apply h
    show 0 &&& bit = 0
    exact Nat.zero_and bit
  have hl : fs.lookup name ≠ none := by simp [hex]
  have hm0 := ((open_stream_mode P fs name 0 script).2 hl (fun h => h0 _ h.1)).2.2 (h0 _)
  have hok : scriptHead script = none := by
    cases hq : scriptHead script with
    | none => rfl
    | some k =>
      have hn : fopen fs name .rb script = (none, fs) := by simp [fopen, hq]
      have hm := ((open_stream_mode P fs name flags script).2 hl
        (open_read_only P fs name flags script d lf hex hnrw hopen).1).2.2 hnrw
      rw [hm, hn] at hs
      simp at hs
  have hf2 : fopen fs name .rb script = (some (FILE.fresh d false script.tail), fs) := by
    simp [fopen, hok, hex]
  have hfs : (H5F_stdio_open P fs name flags script).fs = fs := by
    unfold H5F_stdio_open
    rw [hs]
  obtain ⟨h1, h2⟩ := (open_via_fopen P fs name 0 script .rb hm0).2.1 _ _ hf2
  refine ⟨?_, ?_, hfs, ?_, ?_, h2⟩
  · rw [hlf, (open_handle_data _).2]; rfl
  · rw [hlf, (open_handle_data _).1]; rfl
  · rw [hfs]; exact hex
  · rw [h1, hlf]

/-- Witness for C28: the three-byte file opened with `TRUNC` and `CREAT` but
without `RDWR`. -/
theorem open_without_rdwr_reads_only_witness :
    fsA.lookup "a" = some [1, 2, 3] ∧ ¬ flagSet 18 lp64.H5F_ACC_RDWR ∧
    flagSet 18 lp64.H5F_ACC_TRUNC ∧ flagSet 18 lp64.H5F_ACC_CREAT ∧
    (H5F_stdio_open lp64 fsA "a" 18 []).handle =
      .ok { handleA with f := { handleA.f with writable := false } } ∧
    (H5F_stdio_open lp64 fsA "a" 18 []).fs = fsA :=
  ⟨by decide, by decide, by decide, by decide, rfl,
   (open_without_rdwr_reads_only lp64 fsA "a" 18 [] [1, 2, 3]
     { handleA with f := { handleA.f with writable := false } } (by decide) (by decide)
     rfl).2.2.1⟩

/-! ## Writes of size zero -/

theorem accepts_zero (f : FILE) : f.accepts 0 = 0 := by
  unfold FILE.accepts
  cases f.writable <;> cases f.nextFault <;> simp

/-- When the seek cannot be skipped, the seek block logs the `fseek` call,
whether or not it succeeds. -/
theorem seekBlock_called (P : Platform) (lf : H5F_low_t) (me : H5F_fileop_t) (offset : Nat)
    (hc : P.H5F_OPT_SEEK = false ∨ lf.op ≠ me ∨ lf.cur ≠ offset) :
    (seekBlock P lf me offset).2.f.calls = lf.f.calls ++ [.fseek_set offset] := by
  by_cases hs : (seekBlock P lf me offset).1 < 0
  · rw [(seekBlock_fail P lf me offset hs).2.2]; rfl
  · rcases seekBlock_ok P lf me offset hs with ⟨_, _, he⟩ | ⟨hn, _⟩
    · rw [he]; rfl
    · exact absurd hc hn

/-- A read that reaches the medium and cannot skip the seek begins with the
`fseek` call. -/
theorem read_seeks_first (P : Platform) (lf : H5F_low_t) (addr size : Nat) (buf : Buffer)
    (ho : ¬ addrOverflows P addr size) (hz : 0 < size) (he : addr < lf.eof)
    (hc : P.H5F_OPT_SEEK = false ∨ lf.op ≠ .H5F_OP_READ ∨ lf.cur ≠ addr) :
    ∃ rest, (H5F_stdio_read P lf addr size buf).lf.f.calls =
      lf.f.calls ++ .fseek_set addr :: rest := by
  rw [read_reaches_medium P lf addr size buf ho (by omega) (by omega)]
  have hcall := seekBlock_called P lf .H5F_OP_READ addr hc
  by_cases hs : (seekBlock P lf .H5F_OP_READ addr).1 < 0
  · rw [if_pos hs]
    exact ⟨[], hcall⟩
  · rw [if_neg hs, (readData_calls P _ addr size buf).1, hcall]
    exact ⟨[.fread (size - zeroTail P (seekBlock P lf .H5F_OP_READ addr).2.eof addr size)],
      by simp⟩

/-- A write of size zero that passes the overflow check: it fails only when
the seek fails, and otherwise calls `fwrite` for zero bytes and succeeds. -/
theorem write_zero (P : Platform) (lf : H5F_low_t) (addr : Nat) (buf : Buffer)
    (ho : ¬ addrOverflows P addr 0) :
    ((seekBlock P lf .H5F_OP_WRITE addr).1 < 0 →
      H5F_stdio_write P lf addr 0 buf =
        { ret := .FAIL .H5E_SEEKERROR, lf := (seekBlock P lf .H5F_OP_WRITE addr).2 }) ∧
    (¬ (seekBlock P lf .H5F_OP_WRITE addr).1 < 0 →
      (H5F_stdio_write P lf addr 0 buf).ret = .SUCCEED ∧
      (H5F_stdio_write P lf addr 0 buf).lf.op = .H5F_OP_WRITE ∧
      (H5F_stdio_write P lf addr 0 buf).lf.cur = addr ∧
      (H5F_stdio_write P lf addr 0 buf).lf.f.calls =
        (seekBlock P lf .H5F_OP_WRITE addr).2.f.calls ++ [.fwrite 0]) := by
  rw [write_reaches_medium P lf addr 0 buf ho]
  constructor
  · intro hs; rw [if_pos hs]
  · intro hs
    rw [if_neg hs]
    generalize (seekBlock P lf .H5F_OP_WRITE addr).2 = lf1
    have hw : (fwrite lf1.f buf 0).1 = 0 := accepts_zero lf1.f
    unfold writeData
    dsimp only
    rw [if_neg (by rw [hw]; exact fun h => h rfl)]
    refine ⟨rfl, rfl, rfl, ?_⟩
    simp [fwrite, FILE.step]

/-- C29: write has no early return for size zero.  A zero-size write that
passes the overflow check calls `fseek` first whenever the last operation is
not a write or the tracked position is not the address; it fails only with
`SEEKERROR`; and when it succeeds the last operation is `WRITE`, the tracked
position is the address, the logical end of file is as before, and every
following read that reaches the medium (positive size, address below the
logical end of file) begins with an `fseek` call. -/
theorem zero_size_write_repositions (P : Platform) (lf : H5F_low_t) (addr : Nat)
    (buf : Buffer) (ho : ¬ addrOverflows P addr 0) :
    (lf.op ≠ .H5F_OP_WRITE ∨ lf.cur ≠ addr →
      ∃ rest, (H5F_stdio_write P lf addr 0 buf).lf.f.calls =
        lf.f.calls ++ .fseek_set addr :: rest) ∧
    ((H5F_stdio_write P lf addr 0 buf).ret = .SUCCEED ∨
      (H5F_stdio_write P lf addr 0 buf).ret = .FAIL .H5E_SEEKERROR) ∧
    ((H5F_stdio_write P lf addr 0 buf).ret = .SUCCEED →
      (H5F_stdio_write P lf addr 0 buf).lf.op = .H5F_OP_WRITE ∧
      (H5F_stdio_write P lf addr 0 buf).lf.cur = addr ∧
      (H5F_stdio_write P lf addr 0 buf).lf.eof = lf.eof ∧
      ∀ (addr2 size2 : Nat) (rbuf : Buffer), ¬ addrOverflows P addr2 size2 → 0 < size2 →
        addr2 < lf.eof →
        ∃ rest, (H5F_stdio_read P (H5F_stdio_write P lf addr 0 buf).lf addr2 size2 rbuf).lf.f.calls
          = (H5F_stdio_write P lf addr 0 buf).lf.f.calls ++ .fseek_set addr2 :: rest) := by
  obtain ⟨hfail, hok⟩ := write_zero P lf addr buf ho
  have heof := write_eof P lf addr 0 buf
  refine ⟨?_, ?_, ?_⟩
  · intro hc
    have hcall := seekBlock_called P lf .H5F_OP_WRITE addr (Or.inr hc)
    by_cases hs : (seekBlock P lf .H5F_OP_WRITE addr).1 < 0
    · rw [hfail hs]
      exact ⟨[], hcall⟩
    · rw [(hok hs).2.2.2, hcall]
      exact ⟨[.fwrite 0], by simp⟩
  · by_cases hs : (seekBlock P lf .H5F_OP_WRITE addr).1 < 0
    · right; rw [hfail hs]
    · left; exact (hok hs).1
  · intro hret
    have hs : ¬ (seekBlock P lf .H5F_OP_WRITE addr).1 < 0 := by
      intro hs
      rw [hfail hs] at hret
      cases hret
    obtain ⟨_, hop, hcur, _⟩ := hok hs
    refine ⟨hop, hcur, heof, ?_⟩
    intro addr2 size2 rbuf ho2 hz2 he2
    refine read_seeks_first P _ addr2 size2 rbuf ho2 hz2 (by rw [heof]; exact he2) ?_
    right; left
    rw [hop]
    exact fun h => (by cases h)

/-- Witness for C29: a zero-size write at address 1 of the three-byte file
just opened, and a one-byte read at the same address after it. -/
theorem zero_size_write_repositions_witness :
    ¬ addrOverflows lp64 1 0 ∧
    (H5F_stdio_write lp64 handleA 1 0 digits).ret = .SUCCEED ∧
    (H5F_stdio_write lp64 handleA 1 0 digits).lf.f.calls =
      handleA.f.calls ++ [.fseek_set 1, .fwrite 0] ∧
    (H5F_stdio_write lp64 handleA 1 0 digits).lf.op = .H5F_OP_WRITE ∧
    (H5F_stdio_write lp64 handleA 1 0 digits).lf.cur = 1 ∧
    (H5F_stdio_read lp64 (H5F_stdio_write lp64 handleA 1 0 digits).lf 1 1 blank).lf.f.calls =
      (H5F_stdio_write lp64 handleA 1 0 digits).lf.f.calls ++ [.fseek_set 1, .fread 1] ∧
    (H5F_stdio_read lp64 handleA 1 0 blank).lf = handleA :=
  ⟨by decide, by decide, by decide,
   ((zero_size_write_repositions lp64 handleA 1 digits (by decide)).2.2 (by decide)).1,
   ((zero_size_write_repositions lp64 handleA 1 digits (by decide)).2.2 (by decide)).2.1,
   by decide, by decide⟩

/-! ## The position data after a read whose sum wraps in `size_t` -/

/-- The position data after the read of 10 bytes at `2 ^ 32 - 5` on the build
with a 32-bit `size_t`, on any medium that holds the ten bytes. -/
theorem read_at4G_state (d : List uint8) (buf : Buffer)
    (hd : ((d.drop (2 ^ 32 - 5)).take 10).length = 10) :
    (H5F_stdio_read ilp32_fseek64 (handleAt4G d) (2 ^ 32 - 5) 10 buf).lf.op = .H5F_OP_READ ∧
    (H5F_stdio_read ilp32_fseek64 (handleAt4G d) (2 ^ 32 - 5) 10 buf).lf.cur =
      2 ^ 32 - 5 + 10 ∧
    (H5F_stdio_read ilp32_fseek64 (handleAt4G d) (2 ^ 32 - 5) 10 buf).lf.eof = 2 ^ 32 := by
  have ho : ¬ addrOverflows ilp32_fseek64 (2 ^ 32 - 5) 10 := by decide
  have hz : zeroTail ilp32_fseek64 (2 ^ 32) (2 ^ 32 - 5) 10 = 0 := by decide
  have hs : ¬ (2 ^ 32 < sizetSum ilp32_fseek64 (2 ^ 32 - 5) 10) := by decide
  have hsb : seekBlock ilp32_fseek64 (handleAt4G d) .H5F_OP_READ (2 ^ 32 - 5) =
      (0, { handleAt4G d with
              f := { (handleAt4G d).f.step (.fseek_set (2 ^ 32 - 5)) with pos := 2 ^ 32 - 5 },
              cur := 2 ^ 32 - 5 }) := by
    simp [seekBlock, handleAt4G, fseek, FILE.nextFault, scriptHead, FILE.step]
  have hr := read_reaches_medium ilp32_fseek64 (handleAt4G d) (2 ^ 32 - 5) 10 buf ho (by decide)
    (by simp [handleAt4G])
  rw [hsb] at hr
  simp only [Int.lt_irrefl, if_false] at hr
  rw [hr]
  unfold readData
  have he : (handleAt4G d).eof = 2 ^ 32 := rfl
  simp only [he, hz, hs, if_false, Nat.sub_zero]
  have hav : ({ (handleAt4G d).f.step (.fseek_set (2 ^ 32 - 5)) with
      pos := 2 ^ 32 - 5 } : FILE).avail 10 = (d.drop (2 ^ 32 - 5)).take 10 := rfl
  have hnf : ({ (handleAt4G d).f.step (.fseek_set (2 ^ 32 - 5)) with
      pos := 2 ^ 32 - 5 } : FILE).nextFault = none := rfl
  simp only [fread, hav, hnf, hd]
  refine ⟨by simp, by simp, by simp⟩

/-- C25, failing input: on a build with 64-bit offsets and a 32-bit `size_t`,
for a handle whose logical end of file is `2 ^ 32` on a medium of
`2 ^ 32 + 5` bytes, the read of 10 bytes at address `2 ^ 32 - 5` has positive
size and an address below the logical end of file, and succeeds; the medium
delivers `n = 10` bytes and the tracked position becomes `address + 10`, five
bytes beyond the logical end of file, where `logical_eof - address` is 5. -/
theorem read_tracks_past_logical_eof :
    ¬ addrOverflows ilp32_fseek64 (2 ^ 32 - 5) 10 ∧
    2 ^ 32 - 5 < (handleAt4G (List.replicate (2 ^ 32 + 5) 7)).eof ∧
    (handleAt4G (List.replicate (2 ^ 32 + 5) 7)).eof - (2 ^ 32 - 5) = 5 ∧
    (H5F_stdio_read ilp32_fseek64 (handleAt4G (List.replicate (2 ^ 32 + 5) 7))
      (2 ^ 32 - 5) 10 blank).ret = .SUCCEED ∧
    (H5F_stdio_read ilp32_fseek64 (handleAt4G (List.replicate (2 ^ 32 + 5) 7))
      (2 ^ 32 - 5) 10 blank).lf.op = .H5F_OP_READ ∧
    (H5F_stdio_read ilp32_fseek64 (handleAt4G (List.replicate (2 ^ 32 + 5) 7))
      (2 ^ 32 - 5) 10 blank).lf.cur = 2 ^ 32 - 5 + 10 ∧
    (H5F_stdio_read ilp32_fseek64 (handleAt4G (List.replicate (2 ^ 32 + 5) 7))
      (2 ^ 32 - 5) 10 blank).lf.eof + 5 =
      (H5F_stdio_read ilp32_fseek64 (handleAt4G (List.replicate (2 ^ 32 + 5) 7))
        (2 ^ 32 - 5) 10 blank).lf.cur := by
  have hd : (((List.replicate (2 ^ 32 + 5) (7 : uint8)).drop (2 ^ 32 - 5)).take 10).length
      = 10 := by
    rw [sevens_at4G, List.length_replicate]
  obtain ⟨h1, _, _⟩ := read_at4G (List.replicate (2 ^ 32 + 5) 7) blank hd
  obtain ⟨h4, h5, h6⟩ := read_at4G_state (List.replicate (2 ^ 32 + 5) 7) blank hd
  refine ⟨by decide, ?_, ?_, h1, h4, h5, ?_⟩
  · show 2 ^ 32 - 5 < 2 ^ 32
    decide
  · show 2 ^ 32 - (2 ^ 32 - 5) = 5
    decide
  · rw [h5, h6]
    decide

/-- C26, failing input: on a build with 64-bit offsets and a 32-bit `size_t`,
with the logical end of file at `2 ^ 32`, the read of 10 bytes at address
`2 ^ 32 - 5` passes the overflow check and has
`address < logical_eof < address + size`, but `(size_t) offset + size` wraps
to 5, the test of the zero-fill branch fails, `nbytes` is 0 instead of
`address + size - logical_eof = 5`, the medium is asked for all 10 bytes
instead of `logical_eof - address = 5`, and buffer index 9, inside
`[size - 5, size)`, is not zero-filled. -/
theorem zero_fill_branch_wraps :
    ¬ addrOverflows ilp32_fseek64 (2 ^ 32 - 5) 10 ∧
    (2 ^ 32 - 5 < 2 ^ 32 ∧ 2 ^ 32 < 2 ^ 32 - 5 + 10) ∧
    2 ^ 32 - 5 + 10 - 2 ^ 32 = 5 ∧
    sizetSum ilp32_fseek64 (2 ^ 32 - 5) 10 = 5 ∧
    ¬ (2 ^ 32 < sizetSum ilp32_fseek64 (2 ^ 32 - 5) 10) ∧
    zeroTail ilp32_fseek64 (2 ^ 32) (2 ^ 32 - 5) 10 = 0 ∧
    bytesRequested (H5F_stdio_read ilp32_fseek64 (handleAt4G (List.replicate (2 ^ 32 + 5) 7))
      (2 ^ 32 - 5) 10 blank).lf.f.calls = 10 ∧
    (H5F_stdio_read ilp32_fseek64 (handleAt4G (List.replicate (2 ^ 32 + 5) 7))
      (2 ^ 32 - 5) 10 blank).buf 9 ≠ 0 := by
  have hd : (((List.replicate (2 ^ 32 + 5) (7 : uint8)).drop (2 ^ 32 - 5)).take 10).length
      = 10 := by
    rw [sevens_at4G, List.length_replicate]
  obtain ⟨_, h2, h3⟩ := read_at4G (List.replicate (2 ^ 32 + 5) 7) blank hd
  refine ⟨by decide, by decide, by decide, by decide, by decide, by decide, ?_, ?_⟩
  · rw [h2]; rfl
  · rw [h3 9 (by decide), sevens_at4G]
    decide

/-! ## The driver with and without the seek optimisation -/

/-- On streams that agree and meet no fault, `fread` delivers the same. -/
theorem fread_agree (f g : FILE) (buf : Buffer) (size : Nat)
    (hd : f.data = g.data) (hp : f.pos = g.pos) (he : f.err = g.err)
    (hw : f.writable = g.writable) (hf : f.nextFault = none) (hg : g.nextFault = none) :
    (fread f buf size).1 = (fread g buf size).1 ∧
    (fread f buf size).2.1 = (fread g buf size).2.1 ∧
    (fread f buf size).2.2.data = (fread g buf size).2.2.data ∧
    (fread f buf size).2.2.pos = (fread g buf size).2.2.pos ∧
    (fread f buf size).2.2.err = (fread g buf size).2.2.err ∧
    (fread f buf size).2.2.writable = (fread g buf size).2.2.writable ∧
    (fread f buf size).2.2.faults = f.faults.tail ∧
    (fread g buf size).2.2.faults = g.faults.tail := by
  simp [fread, hf, hg, FILE.avail, FILE.step, hd, hp, he, hw]

/-- On streams that agree and meet no fault, `fwrite` stores the same. -/
theorem fwrite_agree (f g : FILE) (buf : Buffer) (size : Nat)
    (hd : f.data = g.data) (hp : f.pos = g.pos) (he : f.err = g.err)
    (hw : f.writable = g.writable) (hf : f.nextFault = none) (hg : g.nextFault = none) :
    (fwrite f buf size).1 = (fwrite g buf size).1 ∧
    (fwrite f buf size).2.data = (fwrite g buf size).2.data ∧
    (fwrite f buf size).2.pos = (fwrite g buf size).2.pos ∧
    (fwrite f buf size).2.err = (fwrite g buf size).2.err ∧
    (fwrite f buf size).2.writable = (fwrite g buf size).2.writable ∧
    (fwrite f buf size).2.faults = f.faults.tail ∧
    (fwrite g buf size).2.faults = g.faults.tail := by
  simp [fwrite, FILE.accepts, hf, hg, FILE.step, hd, hp, he, hw]

/-- The seek block on a medium that does not fail, for a handle that tracks
its position: whether or not the seek is skipped, the stream ends up at
`offset`, and nothing else a caller can observe changes. -/
theorem seekBlock_quiet (P : Platform) (lf : H5F_low_t) (me : H5F_fileop_t) (offset : Nat)
    (hme : me = .H5F_OP_READ ∨ me = .H5F_OP_WRITE) (ht : lf.tracked) (hq : lf.quiet) :
    ¬ (seekBlock P lf me offset).1 < 0 ∧
    (seekBlock P lf me offset).2.quiet ∧
    (seekBlock P lf me offset).2.op = lf.op ∧
    (seekBlock P lf me offset).2.cur = offset ∧
    (seekBlock P lf me offset).2.eof = lf.eof ∧
    (seekBlock P lf me offset).2.f.data = lf.f.data ∧
    (seekBlock P lf me offset).2.f.pos = offset ∧
    (seekBlock P lf me offset).2.f.err = lf.f.err ∧
    (seekBlock P lf me offset).2.f.writable = lf.f.writable := by
  obtain ⟨h1, h2, _⟩ := seekBlock_served P lf me offset hq
  obtain ⟨f1, f2, f3, f4, f5⟩ := seekBlock_frame P lf me offset
  obtain ⟨p1, p2⟩ := seekBlock_pos P lf me offset hme ht h1
  exact ⟨h1, h2, f2, p2, f1, f3, p1, f5, f4⟩

/-- The part of read after the seek, on two handles that agree and whose
media do not fail. -/
theorem readData_agree (P : Platform) (a b : H5F_low_t) (offset size : Nat) (buf : Buffer)
    (hab : a.agrees b) (hqa : a.quiet) (hqb : b.quiet) :
    (readData P a offset size buf).ret = (readData P b offset size buf).ret ∧
    (readData P a offset size buf).buf = (readData P b offset size buf).buf ∧
    (readData P a offset size buf).lf.agrees (readData P b offset size buf).lf ∧
    (readData P a offset size buf).lf.quiet ∧ (readData P b offset size buf).lf.quiet := by
  obtain ⟨hop, hcur, heof, hd, hp, he, hw⟩ := hab
  have hna : a.f.nextFault = none := scriptHead_none _ hqa
  have hnb : b.f.nextFault = none := scriptHead_none _ hqb
  unfold readData
  dsimp only
  rw [← heof]
  generalize zeroTail P a.eof offset size = z
  generalize (if a.eof < sizetSum P offset size then HDmemset buf (size - z) z else buf) = buf1
  obtain ⟨g1, g2, g3, g4, g5, g6, g7, g8⟩ :=
    fread_agree a.f b.f buf1 (size - z) hd hp he hw hna hnb
  have hta : (fread a.f buf1 (size - z)).2.2.faults = a.f.faults.tail := g7
  have htb : (fread b.f buf1 (size - z)).2.2.faults = b.f.faults.tail := g8
  have hfe : ferror (fread a.f buf1 (size - z)).2.2 = ferror (fread b.f buf1 (size - z)).2.2 := g5
  rw [← g1, ← g2, ← hfe]
  by_cases hc : (fread a.f buf1 (size - z)).1 ≤ 0 ∧ ferror (fread a.f buf1 (size - z)).2.2 = true
  · rw [if_pos hc, if_pos hc]
    refine ⟨rfl, rfl, ⟨rfl, hcur, rfl, g3, g4, g5, g6⟩, ?_, ?_⟩
    · intro x hx
      exact tail_all_none _ hqa x (by rw [← hta]; exact hx)
    · intro x hx
      exact tail_all_none _ hqb x (by rw [← htb]; exact hx)
  · rw [if_neg hc, if_neg hc]
    refine ⟨rfl, rfl, ⟨rfl, rfl, rfl, g3, g4, g5, g6⟩, ?_, ?_⟩
    · intro x hx
      exact tail_all_none _ hqa x (by rw [← hta]; exact hx)
    · intro x hx
      exact tail_all_none _ hqb x (by rw [← htb]; exact hx)

/-- The part of write after the seek, on two handles that agree and whose
media do not fail. -/
theorem writeData_agree (a b : H5F_low_t) (offset size : Nat) (buf : Buffer)
    (hab : a.agrees b) (hqa : a.quiet) (hqb : b.quiet) :
    (writeData a offset size buf).ret = (writeData b offset size buf).ret ∧
    (writeData a offset size buf).lf.agrees (writeData b offset size buf).lf ∧
    (writeData a offset size buf).lf.quiet ∧ (writeData b offset size buf).lf.quiet := by
  obtain ⟨hop, hcur, heof, hd, hp, he, hw⟩ := hab
  have hna : a.f.nextFault = none := scriptHead_none _ hqa
  have hnb : b.f.nextFault = none := scriptHead_none _ hqb
  obtain ⟨g1, g3, g4, g5, g6, g7, g8⟩ := fwrite_agree a.f b.f buf size hd hp he hw hna hnb
  unfold writeData
  dsimp only
  rw [← g1]
  by_cases hc : size ≠ (fwrite a.f buf size).1
  · rw [if_pos hc, if_pos hc]
    refine ⟨rfl, ⟨rfl, hcur, heof, g3, g4, g5, g6⟩, ?_, ?_⟩
    · intro x hx
      exact tail_all_none _ hqa x (by rw [← g7]; exact hx)
    · intro x hx
      exact tail_all_none _ hqb x (by rw [← g8]; exact hx)
  · rw [if_neg hc, if_neg hc]
    refine ⟨rfl, ⟨rfl, rfl, heof, g3, g4, g5, g6⟩, ?_, ?_⟩
    · intro x hx
      exact tail_all_none _ hqa x (by rw [← g7]; exact hx)
    · intro x hx
      exact tail_all_none _ hqb x (by rw [← g8]; exact hx)

/-- Handles that agree track their position together. -/
theorem tracked_of_agrees (a b : H5F_low_t) (hab : a.agrees b) (ht : a.tracked) : b.tracked := by
  obtain ⟨hop, hcur, _, _, hp, _, _⟩ := hab
  intro h
  rw [← hcur, ← hp]
  exact ht (by rw [hop]; exact h)

/-- After the seek block, two handles that agree still agree, with or without
the optimisation. -/
theorem seekBlock_agree (P : Platform) (a b : H5F_low_t) (me : H5F_fileop_t) (offset : Nat)
    (hme : me = .H5F_OP_READ ∨ me = .H5F_OP_WRITE)
    (hab : a.agrees b) (hta : a.tracked) (hqa : a.quiet) (hqb : b.quiet) :
    ¬ (seekBlock P a me offset).1 < 0 ∧ ¬ (seekBlock P.alwaysSeek b me offset).1 < 0 ∧
    (seekBlock P a me offset).2.agrees (seekBlock P.alwaysSeek b me offset).2 ∧
    (seekBlock P a me offset).2.quiet ∧ (seekBlock P.alwaysSeek b me offset).2.quiet := by
  have htb := tracked_of_agrees a b hab hta
  obtain ⟨hop, hcur, heof, hd, hp, he, hw⟩ := hab
  obtain ⟨a1, a2, a3, a4, a5, a6, a7, a8, a9⟩ := seekBlock_quiet P a me offset hme hta hqa
  obtain ⟨b1, b2, b3, b4, b5, b6, b7, b8, b9⟩ :=
    seekBlock_quiet P.alwaysSeek b me offset hme htb hqb
  refine ⟨a1, b1, ⟨?_, ?_, ?_, ?_, ?_, ?_, ?_⟩, a2, b2⟩
  · rw [a3, b3, hop]
  · rw [a4, b4]
  · rw [a5, b5, heof]
  · rw [a6, b6, hd]
  · rw [a7, b7]
  · rw [a8, b8, he]
  · rw [a9, b9, hw]

/-- One read, with and without the optimisation. -/
theorem read_agree (P : Platform) (a b : H5F_low_t) (addr size : Nat) (buf : Buffer)
    (hab : a.agrees b) (hta : a.tracked) (hqa : a.quiet) (hqb : b.quiet) :
    (H5F_stdio_read P a addr size buf).ret = (H5F_stdio_read P.alwaysSeek b addr size buf).ret ∧
    (H5F_stdio_read P a addr size buf).buf = (H5F_stdio_read P.alwaysSeek b addr size buf).buf ∧
    (H5F_stdio_read P a addr size buf).lf.agrees
      (H5F_stdio_read P.alwaysSeek b addr size buf).lf ∧
    (H5F_stdio_read P a addr size buf).lf.quiet ∧
    (H5F_stdio_read P.alwaysSeek b addr size buf).lf.quiet := by
  have heof : a.eof = b.eof := hab.2.2.1
  by_cases ho : addrOverflows P addr size
  · have ho2 : addrOverflows P.alwaysSeek addr size := ho
    rw [read_overflow P a addr size buf ho, read_overflow P.alwaysSeek b addr size buf ho2]
    exact ⟨rfl, rfl, hab, hqa, hqb⟩
  have ho2 : ¬ addrOverflows P.alwaysSeek addr size := ho
  by_cases hz : 0 = size
  · have h1 : H5F_stdio_read P a addr size buf = { ret := .SUCCEED, lf := a, buf := buf } := by
      simp [H5F_stdio_read, ho, hz]
    have h2 : H5F_stdio_read P.alwaysSeek b addr size buf =
        { ret := .SUCCEED, lf := b, buf := buf } := by
      simp [H5F_stdio_read, ho2, hz]
    rw [h1, h2]
    exact ⟨rfl, rfl, hab, hqa, hqb⟩
  by_cases he : a.eof ≤ addr
  · have he2 : b.eof ≤ addr := by rw [← heof]; exact he
    have h1 : H5F_stdio_read P a addr size buf =
        { ret := .SUCCEED, lf := a, buf := HDmemset buf 0 size } := by
      simp [H5F_stdio_read, ho, hz, he]
    have h2 : H5F_stdio_read P.alwaysSeek b addr size buf =
        { ret := .SUCCEED, lf := b, buf := HDmemset buf 0 size } := by
      simp [H5F_stdio_read, ho2, hz, he2]
    rw [h1, h2]
    exact ⟨rfl, rfl, hab, hqa, hqb⟩
  have he2 : ¬ b.eof ≤ addr := by rw [← heof]; exact he
  obtain ⟨s1, s2, s3, s4, s5⟩ :=
    seekBlock_agree P a b .H5F_OP_READ addr (Or.inl rfl) hab hta hqa hqb
  rw [read_reaches_medium P a addr size buf ho hz he,
    read_reaches_medium P.alwaysSeek b addr size buf ho2 hz he2, if_neg s1, if_neg s2]
  exact readData_agree P _ _ addr size buf s3 s4 s5

/-- One write, with and without the optimisation. -/
theorem write_agree (P : Platform) (a b : H5F_low_t) (addr size : Nat) (buf : Buffer)
    (hab : a.agrees b) (hta : a.tracked) (hqa : a.quiet) (hqb : b.quiet) :
    (H5F_stdio_write P a addr size buf).ret =
      (H5F_stdio_write P.alwaysSeek b addr size buf).ret ∧
    (H5F_stdio_write P a addr size buf).lf.agrees
      (H5F_stdio_write P.alwaysSeek b addr size buf).lf ∧
    (H5F_stdio_write P a addr size buf).lf.quiet ∧
    (H5F_stdio_write P.alwaysSeek b addr size buf).lf.quiet := by
  by_cases ho : addrOverflows P addr size
  · have ho2 : addrOverflows P.alwaysSeek addr size := ho
    rw [write_overflow P a addr size buf ho, write_overflow P.alwaysSeek b addr size buf ho2]
    exact ⟨rfl, hab, hqa, hqb⟩
  have ho2 : ¬ addrOverflows P.alwaysSeek addr size := ho
  obtain ⟨s1, s2, s3, s4, s5⟩ :=
    seekBlock_agree P a b .H5F_OP_WRITE addr (Or.inr rfl) hab hta hqa hqb
  rw [write_reaches_medium P a addr size buf ho,
    write_reaches_medium P.alwaysSeek b addr size buf ho2, if_neg s1, if_neg s2]
  exact writeData_agree _ _ addr size buf s3 s4 s5

/-- One flush on two handles that agree and whose media do not fail. -/
theorem flush_agree (a b : H5F_low_t) (hab : a.agrees b) (hqa : a.quiet) (hqb : b.quiet) :
    (H5F_stdio_flush a).ret = (H5F_stdio_flush b).ret ∧
    (H5F_stdio_flush a).lf.agrees (H5F_stdio_flush b).lf ∧
    (H5F_stdio_flush a).lf.quiet ∧ (H5F_stdio_flush b).lf.quiet := by
  obtain ⟨hop, hcur, heof, hd, hp, he, hw⟩ := hab
  have hna : a.f.nextFault = none := scriptHead_none _ hqa
  have hnb : b.f.nextFault = none := scriptHead_none _ hqb
  have h1 : H5F_stdio_flush a =
      { ret := .SUCCEED, lf := { a with op := .H5F_OP_UNKNOWN, f := a.f.step .fflush } } := by
    simp [H5F_stdio_flush, fflush, hna]
  have h2 : H5F_stdio_flush b =
      { ret := .SUCCEED, lf := { b with op := .H5F_OP_UNKNOWN, f := b.f.step .fflush } } := by
    simp [H5F_stdio_flush, fflush, hnb]
  rw [h1, h2]
  refine ⟨rfl, ⟨rfl, hcur, heof, hd, hp, he, hw⟩, ?_, ?_⟩
  · exact tail_all_none _ hqa
  · exact tail_all_none _ hqb

/-- Every driver call keeps a handle tracking its position. -/
theorem tracked_run (P : Platform) (lf : H5F_low_t) (buf : Buffer) (c : DriverCall)
    (ht : lf.tracked) : (c.run P lf buf).2.1.tracked := by
  cases c with
  | read addr size => exact tracked_read P lf addr size buf ht
  | write addr size wbuf => exact tracked_write P lf addr size wbuf ht
  | flush => exact tracked_flush lf

/-- One driver call, with and without the optimisation. -/
theorem run_agree (P : Platform) (a b : H5F_low_t) (buf : Buffer) (c : DriverCall)
    (hab : a.agrees b) (hta : a.tracked) (hqa : a.quiet) (hqb : b.quiet) :
    (c.run P a buf).1 = (c.run P.alwaysSeek b buf).1 ∧
    (c.run P a buf).2.2 = (c.run P.alwaysSeek b buf).2.2 ∧
    (c.run P a buf).2.1.agrees (c.run P.alwaysSeek b buf).2.1 ∧
    (c.run P a buf).2.1.quiet ∧ (c.run P.alwaysSeek b buf).2.1.quiet := by
  cases c with
  | read addr size => exact read_agree P a b addr size buf hab hta hqa hqb
  | write addr size wbuf =>
    obtain ⟨h1, h2, h3, h4⟩ := write_agree P a b addr size wbuf hab hta hqa hqb
    exact ⟨h1, rfl, h2, h3, h4⟩
  | flush =>
    obtain ⟨h1, h2, h3, h4⟩ := flush_agree a b hab hqa hqb
    exact ⟨h1, rfl, h2, h3, h4⟩

/-- A sequence of driver calls, with and without the optimisation. -/
theorem runDriver_agree (P : Platform) (cs : List DriverCall) :
    ∀ (a b : H5F_low_t) (buf : Buffer), a.agrees b → a.tracked → a.quiet → b.quiet →
      (runDriver P a buf cs).1 = (runDriver P.alwaysSeek b buf cs).1 ∧
      (runDriver P a buf cs).2.agrees (runDriver P.alwaysSeek b buf cs).2 := by
  induction cs with
  | nil => intro a b buf hab _ _ _; exact ⟨rfl, hab⟩
  | cons c cs ih =>
    intro a b buf hab hta hqa hqb
    obtain ⟨h1, h2, h3, h4, h5⟩ := run_agree P a b buf c hab hta hqa hqb
    have ht1 := tracked_run P a buf c hta
    obtain ⟨i1, i2⟩ := ih (c.run P a buf).2.1 (c.run P.alwaysSeek b buf).2.1 (c.run P a buf).2.2
      h3 ht1 h4 h5
    constructor
    · show ((c.run P a buf).1, (c.run P a buf).2.2) ::
          (runDriver P (c.run P a buf).2.1 (c.run P a buf).2.2 cs).1 =
        ((c.run P.alwaysSeek b buf).1, (c.run P.alwaysSeek b buf).2.2) ::
          (runDriver P.alwaysSeek (c.run P.alwaysSeek b buf).2.1
            (c.run P.alwaysSeek b buf).2.2 cs).1
      rw [← h1, ← h2, i1]
    · show (runDriver P (c.run P a buf).2.1 (c.run P a buf).2.2 cs).2.agrees
        (runDriver P.alwaysSeek (c.run P.alwaysSeek b buf).2.1
          (c.run P.alwaysSeek b buf).2.2 cs).2
      rw [← h2]
      exact i2

/-- Handles agree with themselves. -/
theorem agrees_refl (lf : H5F_low_t) : lf.agrees lf :=
  ⟨rfl, rfl, rfl, rfl, rfl, rfl, rfl⟩

/-- C23, as amended: on a medium that serves every call without a fault, for
a handle that tracks its position (as every handle open returns does) and
every sequence of read, write and flush calls, the driver with the seek
optimisation returns the same statuses and buffers as the driver that
repositions before every medium access, and leaves the same medium contents,
stream position and error indicator, logical end of file, last operation and
tracked position. -/
theorem seek_skip_invisible (P : Platform) (lf : H5F_low_t) (buf : Buffer)
    (cs : List DriverCall) (ht : lf.tracked) (hq : lf.quiet) :
    (runDriver P lf buf cs).1 = (runDriver P.alwaysSeek lf buf cs).1 ∧
    (runDriver P lf buf cs).2.agrees (runDriver P.alwaysSeek lf buf cs).2 ∧
    (runDriver P lf buf cs).2.f.data = (runDriver P.alwaysSeek lf buf cs).2.f.data ∧
    (runDriver P lf buf cs).2.eof = (runDriver P.alwaysSeek lf buf cs).2.eof := by
  obtain ⟨h1, h2⟩ := runDriver_agree P cs lf lf buf (agrees_refl lf) ht hq hq
  exact ⟨h1, h2, h2.2.2.2.1, h2.2.2.1⟩

/-- Witness for C23: the three-byte file, a write, two contiguous reads, a
flush and two contiguous writes; the optimisation saves two of the six
reposition calls. -/
theorem seek_skip_invisible_witness :
    (H5F_stdio_open lp64 fsA "a" 1 []).handle = .ok handleA ∧
    handleA.tracked ∧ handleA.quiet ∧ lp64.H5F_OPT_SEEK = true ∧
    (runDriver lp64 handleA blank mixedCalls).1 =
      (runDriver lp64.alwaysSeek handleA blank mixedCalls).1 ∧
    (runDriver lp64 handleA blank mixedCalls).2.f.data =
      (runDriver lp64.alwaysSeek handleA blank mixedCalls).2.f.data ∧
    seekCount (runDriver lp64 handleA blank mixedCalls).2.f.calls + 2 =
      seekCount (runDriver lp64.alwaysSeek handleA blank mixedCalls).2.f.calls :=
  ⟨rfl, by decide, by decide, rfl,
   (seek_skip_invisible lp64 handleA blank mixedCalls (by decide) (by decide)).1,
   (seek_skip_invisible lp64 handleA blank mixedCalls (by decide) (by decide)).2.2.1,
   by decide⟩

/-- Counterexample to C23 as stated: the three-byte file on a medium that
serves open and two more calls and fails from then on.  Of two contiguous
one-byte reads the second is served differently: the driver with the
optimisation skips the seek, calls `fread` and returns `READERROR`, the driver
that always repositions calls `fseek` and returns `SEEKERROR`; the last
operation they leave differs as well. -/
theorem seek_skip_counterexample :
    (H5F_stdio_open lp64 fsA "a" 1 [none, none, none, none, some 0, some 0]).handle =
      .ok handleAFailing ∧
    handleAFailing.tracked ∧ lp64.H5F_OPT_SEEK = true ∧
    runStatuses lp64 handleAFailing blank twoReads = [.SUCCEED, .FAIL .H5E_READERROR] ∧
    runStatuses lp64.alwaysSeek handleAFailing blank twoReads =
      [.SUCCEED, .FAIL .H5E_SEEKERROR] ∧
    runStatuses lp64 handleAFailing blank twoReads ≠
      runStatuses lp64.alwaysSeek handleAFailing blank twoReads ∧
    (runDriver lp64 handleAFailing blank twoReads).2.op = .H5F_OP_UNKNOWN ∧
    (runDriver lp64.alwaysSeek handleAFailing blank twoReads).2.op = .H5F_OP_READ :=
  ⟨rfl, by decide, rfl, by decide, by decide, by decide, by decide, by decide⟩

end H5Fstdio

namespace H5VL

open H5Fstdio (herr_t H5E_minor)

/-! ## The name search -/

/-- The scan for a name never fails and ends with the identifier of the first
entry whose descriptor has that name, if there is one. -/
theorem iterate_get_driver (es : List Entry) (ud : H5VL_get_driver_ud_t) :
    (H5I_iterate H5VL__get_driver_cb es ud).1 = 0 ∧
    (H5I_iterate H5VL__get_driver_cb es ud).2 =
      match es.find? (fun e => decide (e.cls.name = some ud.name)) with
      | none => ud
      | some e => { ud with found_id := e.id } := by
  induction es with
  | nil => exact ⟨rfl, rfl⟩
  | cons e es ih =>
    unfold H5I_iterate
    by_cases h : e.cls.name = some ud.name
    · simp [H5VL__get_driver_cb, h, H5_ITER_STOP]
    · simp only [H5VL__get_driver_cb, h, if_false, H5_ITER_CONT, Int.lt_irrefl]
      simp only [List.find?, h, decide_False]
      exact ih

/-- In a registry whose identifiers are valid, the scan finds an identifier
exactly when some entry has the name. -/
theorem found_iff_hasName (R : Registry) (name : String)
    (hid : ∀ e ∈ R.entries, e.id ≠ H5I_INVALID_HID) :
    (H5I_iterate H5VL__get_driver_cb R.entries
        { name := name, found_id := H5I_INVALID_HID }).2.found_id ≠ H5I_INVALID_HID ↔
      R.hasName name := by
  rw [(iterate_get_driver R.entries _).2]
  cases hf : R.entries.find? (fun e => decide (e.cls.name = some name)) with
  | none =>
    simp only [hf, ne_eq, not_true_eq_false, false_iff]
    rintro ⟨e, he, hn⟩
    have := List.find?_eq_none.1 hf e he
    simp [hn] at this
  | some e =>
    simp only [hf]
    have hmem := List.mem_of_find?_eq_some hf
    have hp := List.find?_some hf
    simp only [decide_eq_true_eq] at hp
    exact ⟨fun _ => ⟨e, hmem, hp⟩, fun _ => hid e hmem⟩

/-- No identifier of a well-formed registry is `H5I_INVALID_HID`. -/
theorem wf_ids_valid (R : Registry) (h : R.wf) : ∀ e ∈ R.entries, e.id ≠ H5I_INVALID_HID := by
  intro e he hc
  have := (h.2.1 e he).1
  rw [hc] at this
  simp [H5I_INVALID_HID] at this

/-- What `H5VLis_registered` answers. -/
theorem is_registered_iff (R : Registry) (name : String) (h : R.wf) :
    (H5VLis_registered R name = .TRUE ↔ R.hasName name) ∧
    (H5VLis_registered R name = .FALSE ↔ ¬ R.hasName name) := by
  have hit := (iterate_get_driver R.entries { name := name, found_id := H5I_INVALID_HID }).1
  have hf := found_iff_hasName R name (wf_ids_valid R h)
  unfold H5VLis_registered
  simp only [hit, Int.lt_irrefl, if_false]
  by_cases hn : R.hasName name
  · simp [hf.2 hn, hn]
  · have : ¬ (H5I_iterate H5VL__get_driver_cb R.entries
        { name := name, found_id := H5I_INVALID_HID }).2.found_id ≠ H5I_INVALID_HID :=
      fun hc => hn (hf.1 hc)
    simp [this, hn]

/-! ## Registration -/

/-- Only the empty string has length 0 (`0 == HDstrlen(name)`). -/
theorem length_zero_iff (s : String) : 0 = s.length ↔ s = "" := by
  constructor
  · intro h
    cases s with
    | mk data =>
      have hd : data = [] := List.length_eq_zero.1 h.symm
      subst hd
      rfl
  · intro h
    subst h
    rfl

/-- The registration of a descriptor with a name, step by step. -/
theorem register_named (R : Registry) (c : H5VL_class_t) (ok : Bool) (name : String)
    (hn : c.name = some name) (h : R.wf) :
    H5VLregister R (some c) ok =
      if name = "" ∨ R.hasName name then
        { ret := H5I_INVALID_HID, err := some .H5E_CANTREGISTER, reg := R }
      else if ok = true then
        { ret := R.next, err := none,
          reg := { entries := R.entries ++ [{ id := R.next, cls := c, refs := 1 }],
                   next := R.next + 1 } }
      else { ret := H5I_INVALID_HID, err := some .H5E_CANTREGISTER, reg := R } := by
  have hit := (iterate_get_driver R.entries { name := name, found_id := H5I_INVALID_HID }).1
  have hf := found_iff_hasName R name (wf_ids_valid R h)
  unfold H5VLregister
  simp only [hn]
  by_cases h0 : name = ""
  · have hlen : 0 = name.length := (length_zero_iff name).2 h0
    rw [if_pos hlen, if_pos (Or.inl h0)]
  · have hlen : ¬ 0 = name.length := fun hc => h0 ((length_zero_iff name).1 hc)
    rw [if_neg hlen]
    simp only [hit, Int.lt_irrefl, if_false]
    by_cases hh : R.hasName name
    · rw [if_pos (hf.2 hh), if_pos (Or.inr hh)]
    · have hnf : ¬ (H5I_iterate H5VL__get_driver_cb R.entries
          { name := name, found_id := H5I_INVALID_HID }).2.found_id ≠ H5I_INVALID_HID :=
        fun hc => hh (hf.1 hc)
      have hno : ¬ (name = "" ∨ R.hasName name) := fun hc => hc.elim h0 hh
      rw [if_neg hnf, if_neg hno]
      cases ok with
      | false => simp [H5VL_register]
      | true =>
        have hnx : ¬ R.next < 0 := not_lt.mpr h.1
        simp [H5VL_register, hnx]

/-- A registration that raises an error leaves the registry as it was. -/
theorem register_error_unchanged (R : Registry) (cls : Option H5VL_class_t) (ok : Bool)
    (h : R.wf) (he : (H5VLregister R cls ok).err ≠ none) :
    (H5VLregister R cls ok).reg = R ∧ (H5VLregister R cls ok).ret = H5I_INVALID_HID := by
  cases cls with
  | none => exact ⟨rfl, rfl⟩
  | some c =>
    cases hn : c.name with
    | none => simp [H5VLregister, hn]
    | some name =>
      rw [register_named R c ok name hn h] at he ⊢
      by_cases h1 : name = "" ∨ R.hasName name
      · rw [if_pos h1]; exact ⟨rfl, rfl⟩
      · rw [if_neg h1] at he ⊢
        by_cases h2 : ok = true
        · rw [if_pos h2] at he; exact absurd rfl he
        · rw [if_neg h2]; exact ⟨rfl, rfl⟩

/-- A registration that raises no error: the descriptor has a non-empty name
that no entry has, and a new entry with the identifier returned and one
reference is added at the end. -/
theorem register_ok (R : Registry) (cls : Option H5VL_class_t) (ok : Bool)
    (h : R.wf) (he : (H5VLregister R cls ok).err = none) :
    ∃ c name, cls = some c ∧ c.name = some name ∧ name ≠ "" ∧ ¬ R.hasName name ∧
      (H5VLregister R cls ok).ret = R.next ∧
      (H5VLregister R cls ok).reg =
        { entries := R.entries ++ [{ id := R.next, cls := c, refs := 1 }],
          next := R.next + 1 } := by
  cases cls with
  | none => simp [H5VLregister] at he
  | some c =>
    cases hn : c.name with
    | none => simp [H5VLregister, hn] at he
    | some name =>
      rw [register_named R c ok name hn h] at he ⊢
      by_cases h1 : name = "" ∨ R.hasName name
      · rw [if_pos h1] at he; simp at he
      · rw [if_neg h1] at he ⊢
        by_cases h2 : ok = true
        · rw [if_pos h2]
          push_neg at h1
          exact ⟨c, name, rfl, hn, h1.1, h1.2, rfl, rfl⟩
        · rw [if_neg h2] at he; simp at he

/-! ## The registry invariants -/

/-- The lookup of an identifier finds nothing exactly when no entry has it. -/
theorem verify_none_iff (R : Registry) (id : hid_t) :
    H5I_object_verify R id = none ↔ ∀ e ∈ R.entries, e.id ≠ id := by
  unfold H5I_object_verify
  rw [Option.map_eq_none', List.find?_eq_none]
  constructor
  · intro h e he hc
    exact h e he (by simp [hc])
  · intro h e he hc
    exact h e he (by simpa using hc)

/-- In a list without a repeated identifier, the lookup of the identifier of
an entry finds that entry. -/
theorem find_of_mem (es : List Entry) (hp : es.Pairwise (fun a b => a.id ≠ b.id))
    (e : Entry) (he : e ∈ es) : es.find? (fun x => x.id == e.id) = some e := by
  induction es with
  | nil => simp at he
  | cons x xs ih =>
    rw [List.pairwise_cons] at hp
    rcases List.mem_cons.1 he with hx | hx
    · subst hx
      simp [List.find?]
    · have hne : x.id ≠ e.id := hp.1 e hx
      have hb : (x.id == e.id) = false := by simpa using hne
      simp only [List.find?, hb]
      exact ih hp.2 hx

/-- A registration keeps the registry well formed. -/
theorem register_wf (R : Registry) (cls : Option H5VL_class_t) (ok : Bool) (h : R.wf) :
    (H5VLregister R cls ok).reg.wf := by
  by_cases he : (H5VLregister R cls ok).err = none
  · obtain ⟨c, name, _, _, _, _, _, hreg⟩ := register_ok R cls ok h he
    rw [hreg]
    obtain ⟨h0, hall, hpw⟩ := h
    refine ⟨?_, ?_, ?_⟩
    · show (0 : Int) ≤ R.next + 1
      have : (0 : Int) ≤ R.next := h0
      omega
    · intro e hmem
      rcases List.mem_append.1 hmem with hm | hm
      · obtain ⟨a, b, c1⟩ := hall e hm
        refine ⟨a, ?_, c1⟩
        exact lt_trans b (Int.lt_succ R.next)
      · rw [List.mem_singleton] at hm
        subst hm
        exact ⟨h0, Int.lt_succ R.next, le_refl _⟩
    · show (R.entries ++ [_]).Pairwise _
      rw [List.pairwise_append]
      refine ⟨hpw, List.pairwise_singleton _ _, ?_⟩
      intro a ha b hb
      rw [List.mem_singleton] at hb
      subst hb
      have : a.id < R.next := (hall a ha).2.1
      exact ne_of_lt this
  · rw [(register_error_unchanged R cls ok h he).1]
    exact h

/-- A registration keeps the names distinct. -/
theorem register_uniqueNames (R : Registry) (cls : Option H5VL_class_t) (ok : Bool)
    (h : R.wf) (hu : R.uniqueNames) : (H5VLregister R cls ok).reg.uniqueNames := by
  by_cases he : (H5VLregister R cls ok).err = none
  · obtain ⟨c, name, _, hn, _, hnot, _, hreg⟩ := register_ok R cls ok h he
    rw [hreg]
    show (R.entries ++ [_]).Pairwise _
    rw [List.pairwise_append]
    refine ⟨hu, List.pairwise_singleton _ _, ?_⟩
    intro a ha b hb
    rw [List.mem_singleton] at hb
    subst hb
    intro hc
    exact hnot ⟨a, ha, by rw [hc]; exact hn⟩
  · rw [(register_error_unchanged R cls ok h he).1]
    exact hu

/-- What dropping a reference does to the entries: the entries with the
identifier are removed, or every entry keeps its identifier and descriptor. -/
theorem dec_app_ref_shape (R : Registry) (id : hid_t) :
    (H5I_dec_app_ref R id).2.next = R.next ∧
    ((H5I_dec_app_ref R id).2.entries = R.entries ∨
     (H5I_dec_app_ref R id).2.entries = R.entries.filter (fun x => !(x.id == id)) ∨
     (∃ e, R.entries.find? (fun x => x.id == id) = some e ∧ 1 < e.refs ∧
       (H5I_dec_app_ref R id).2.entries =
         R.entries.map (fun x => if x.id == id then { x with refs := x.refs - 1 } else x))) := by
  unfold H5I_dec_app_ref
  cases hf : R.entries.find? (fun e => e.id == id) with
  | none => exact ⟨rfl, Or.inl rfl⟩
  | some e =>
    dsimp only
    by_cases hr : e.refs ≤ 1
    · rw [if_pos hr]
      exact ⟨rfl, Or.inr (Or.inl rfl)⟩
    · rw [if_neg hr]
      exact ⟨rfl, Or.inr (Or.inr ⟨e, rfl, by omega, rfl⟩)⟩

/-- Dropping a reference keeps the registry well formed. -/
theorem dec_app_ref_wf (R : Registry) (id : hid_t) (h : R.wf) :
    (H5I_dec_app_ref R id).2.wf := by
  obtain ⟨hnext, hsh⟩ := dec_app_ref_shape R id
  obtain ⟨h0, hall, hpw⟩ := h
  unfold Registry.wf
  rw [hnext]
  rcases hsh with hs | hs | ⟨e, hf, hr, hs⟩
  · rw [hs]; exact ⟨h0, hall, hpw⟩
  · rw [hs]
    refine ⟨h0, ?_, hpw.sublist (List.filter_sublist _)⟩
    intro x hx
    exact hall x (List.mem_of_mem_filter hx)
  · rw [hs]
    have hmem : e ∈ R.entries := List.mem_of_find?_eq_some hf
    have hid : e.id = id := by simpa using List.find?_some hf
    refine ⟨h0, ?_, ?_⟩
    · intro x hx
      obtain ⟨y, hy, hxy⟩ := List.mem_map.1 hx
      by_cases hc : (y.id == id) = true
      · rw [if_pos hc] at hxy
        subst hxy
        have hye : y = e := by
          have h1 := find_of_mem R.entries hpw y hy
          have h2 : y.id = id := by simpa using hc
          rw [h2, hf] at h1
          exact (Option.some.inj h1).symm
        subst hye
        refine ⟨(hall y hy).1, (hall y hy).2.1, ?_⟩
        show 1 ≤ y.refs - 1
        omega
      · rw [if_neg hc] at hxy
        subst hxy
        exact hall y hy
    · rw [List.pairwise_map]
      refine hpw.imp ?_
      intro a b hab
      by_cases ha : (a.id == id) = true <;> by_cases hb : (b.id == id) = true <;>
        simp only [ha, hb, if_true, if_false] <;> exact hab

/-- Dropping a reference keeps the names distinct. -/
theorem dec_app_ref_uniqueNames (R : Registry) (id : hid_t) (hu : R.uniqueNames) :
    (H5I_dec_app_ref R id).2.uniqueNames := by
  obtain ⟨_, hsh⟩ := dec_app_ref_shape R id
  unfold Registry.uniqueNames at hu ⊢
  rcases hsh with hs | hs | ⟨e, _, _, hs⟩
  · rw [hs]; exact hu
  · rw [hs]; exact hu.sublist (List.filter_sublist _)
  · rw [hs, List.pairwise_map]
    refine hu.imp ?_
    intro a b hab
    by_cases ha : (a.id == id) = true <;> by_cases hb : (b.id == id) = true <;>
      simp only [ha, hb, if_true, if_false] <;> exact hab

/-- The registry after `H5VLunregister` is the old one or the one with a
reference dropped. -/
theorem unregister_reg (R : Registry) (id : hid_t) :
    (H5VLunregister R id).reg = R ∨ (H5VLunregister R id).reg = (H5I_dec_app_ref R id).2 := by
  unfold H5VLunregister
  cases H5I_object_verify R id with
  | none => exact Or.inl rfl
  | some c =>
    dsimp only
    by_cases hc : (H5I_dec_app_ref R id).1 < 0
    · rw [if_pos hc]; exact Or.inr rfl
    · rw [if_neg hc]; exact Or.inr rfl

/-- The registry after `H5VLclose` is the old one or the one with a reference
dropped. -/
theorem close_reg (R : Registry) (id : hid_t) :
    (H5VLclose R id).reg = R ∨ (H5VLclose R id).reg = (H5I_dec_app_ref R id).2 := by
  unfold H5VLclose
  cases H5I_object_verify R id with
  | none => exact Or.inl rfl
  | some c =>
    dsimp only
    by_cases hc : (H5I_dec_app_ref R id).1 < 0
    · rw [if_pos hc]; exact Or.inr rfl
    · rw [if_neg hc]; exact Or.inr rfl

/-- Every call keeps the registry well formed. -/
theorem apply_wf (R : Registry) (c : RegistryCall) (h : R.wf) : (c.apply R).wf := by
  cases c with
  | register cls ok => exact register_wf R cls ok h
  | unregister id =>
    show (H5VLunregister R id).reg.wf
    rcases unregister_reg R id with hr | hr <;> rw [hr]
    · exact h
    · exact dec_app_ref_wf R id h
  | close id =>
    show (H5VLclose R id).reg.wf
    rcases close_reg R id with hr | hr <;> rw [hr]
    · exact h
    · exact dec_app_ref_wf R id h

/-- Every call on a well-formed registry keeps the names distinct. -/
theorem apply_uniqueNames (R : Registry) (c : RegistryCall) (h : R.wf) (hu : R.uniqueNames) :
    (c.apply R).uniqueNames := by
  cases c with
  | register cls ok => exact register_uniqueNames R cls ok h hu
  | unregister id =>
    show (H5VLunregister R id).reg.uniqueNames
    rcases unregister_reg R id with hr | hr <;> rw [hr]
    · exact hu
    · exact dec_app_ref_uniqueNames R id hu
  | close id =>
    show (H5VLclose R id).reg.uniqueNames
    rcases close_reg R id with hr | hr <;> rw [hr]
    · exact hu
    · exact dec_app_ref_uniqueNames R id hu

/-- Every sequence of calls keeps the registry well formed. -/
theorem runCalls_wf (cs : List RegistryCall) :
    ∀ R : Registry, R.wf → (runCalls R cs).wf := by
  induction cs with
  | nil => intro R h; exact h
  | cons c cs ih =>
    intro R h
    show (runCalls (c.apply R) cs).wf
    exact ih _ (apply_wf R c h)

/-- Every sequence of calls on a well-formed registry keeps the names
distinct. -/
theorem runCalls_uniqueNames (cs : List RegistryCall) :
    ∀ R : Registry, R.wf → R.uniqueNames → (runCalls R cs).uniqueNames := by
  induction cs with
  | nil => intro R _ hu; exact hu
  | cons c cs ih =>
    intro R h hu
    show (runCalls (c.apply R) cs).uniqueNames
    exact ih _ (apply_wf R c h) (apply_uniqueNames R c h hu)

/-- The empty registry is well formed and has distinct names. -/
theorem empty_inv : Registry.empty.wf ∧ Registry.empty.uniqueNames := by
  refine ⟨⟨le_refl _, ?_, List.Pairwise.nil⟩, List.Pairwise.nil⟩
  intro e he
  simp [Registry.empty] at he

/-- A call that does not release an entry leaves it in the registry. -/
theorem mem_apply (R : Registry) (c : RegistryCall) (h : R.wf) (e : Entry)
    (he : e ∈ R.entries) (hc : ¬ c.releases e.id) : e ∈ (c.apply R).entries := by
  have hdec : ∀ id : hid_t, id ≠ e.id → e ∈ (H5I_dec_app_ref R id).2.entries := by
    intro id hne
    have hb : (e.id == id) = false := by simpa using (Ne.symm hne)
    rcases (dec_app_ref_shape R id).2 with hs | hs | ⟨_, _, _, hs⟩
    · rw [hs]; exact he
    · rw [hs, List.mem_filter]
      exact ⟨he, by simp [hb]⟩
    · rw [hs, List.mem_map]
      exact ⟨e, he, by simp [hb]⟩
  cases c with
  | register cls ok =>
    show e ∈ (H5VLregister R cls ok).reg.entries
    by_cases herr : (H5VLregister R cls ok).err = none
    · obtain ⟨c, name, _, _, _, _, _, hreg⟩ := register_ok R cls ok h herr
      rw [hreg]
      exact List.mem_append_left _ he
    · rw [(register_error_unchanged R cls ok h herr).1]
      exact he
  | unregister id =>
    show e ∈ (H5VLunregister R id).reg.entries
    rcases unregister_reg R id with hr | hr <;> rw [hr]
    · exact he
    · exact hdec id hc
  | close id =>
    show e ∈ (H5VLclose R id).reg.entries
    rcases close_reg R id with hr | hr <;> rw [hr]
    · exact he
    · exact hdec id hc

/-- A sequence of calls none of which releases an entry leaves it in the
registry. -/
theorem mem_runCalls (cs : List RegistryCall) (e : Entry) :
    ∀ R : Registry, R.wf → e ∈ R.entries →
      (∀ c ∈ cs, ¬ c.releases e.id) → e ∈ (runCalls R cs).entries := by
  induction cs with
  | nil => intro R _ he _; exact he
  | cons c cs ih =>
    intro R h he hc
    show e ∈ (runCalls (c.apply R) cs).entries
    exact ih _ (apply_wf R c h)
      (mem_apply R c h e he (hc c (List.mem_cons_self _ _)))
      (fun c1 h1 => hc c1 (List.mem_cons_of_mem _ h1))

/-- Every call keeps the reference counts at one, when they all are. -/
theorem apply_refs (R : Registry) (c : RegistryCall) (h : R.wf)
    (hr : ∀ e ∈ R.entries, e.refs = 1) : ∀ e ∈ (c.apply R).entries, e.refs = 1 := by
  have hdec : ∀ id : hid_t, ∀ e ∈ (H5I_dec_app_ref R id).2.entries, e.refs = 1 := by
    intro id e he
    rcases (dec_app_ref_shape R id).2 with hs | hs | ⟨x, hf, hx, _⟩
    · rw [hs] at he; exact hr e he
    · rw [hs] at he; exact hr e (List.mem_of_mem_filter he)
    · have := hr x (List.mem_of_find?_eq_some hf)
      omega
  cases c with
  | register cls ok =>
    show ∀ e ∈ (H5VLregister R cls ok).reg.entries, e.refs = 1
    by_cases herr : (H5VLregister R cls ok).err = none
    · obtain ⟨c, name, _, _, _, _, _, hreg⟩ := register_ok R cls ok h herr
      rw [hreg]
      intro e he
      rcases List.mem_append.1 he with hm | hm
      · exact hr e hm
      · rw [List.mem_singleton] at hm
        rw [hm]
    · rw [(register_error_unchanged R cls ok h herr).1]
      exact hr
  | unregister id =>
    show ∀ e ∈ (H5VLunregister R id).reg.entries, e.refs = 1
    rcases unregister_reg R id with h1 | h1 <;> rw [h1]
    · exact hr
    · exact hdec id
  | close id =>
    show ∀ e ∈ (H5VLclose R id).reg.entries, e.refs = 1
    rcases close_reg R id with h1 | h1 <;> rw [h1]
    · exact hr
    · exact hdec id

/-- Every entry of a registry reached from the empty one holds one reference,
and the registry is well formed with distinct names. -/
theorem reachable_inv (cs : List RegistryCall) :
    (runCalls Registry.empty cs).wf ∧ (runCalls Registry.empty cs).uniqueNames ∧
    ∀ e ∈ (runCalls Registry.empty cs).entries, e.refs = 1 := by
  have key : ∀ (cs : List RegistryCall) (R : Registry), R.wf →
      (∀ e ∈ R.entries, e.refs = 1) → ∀ e ∈ (runCalls R cs).entries, e.refs = 1 := by
    intro cs
    induction cs with
    | nil => intro R _ hr; exact hr
    | cons c cs ih =>
      intro R h hr
      show ∀ e ∈ (runCalls (c.apply R) cs).entries, e.refs = 1
      exact ih _ (apply_wf R c h) (apply_refs R c h hr)
  refine ⟨runCalls_wf cs _ empty_inv.1, runCalls_uniqueNames cs _ empty_inv.1 empty_inv.2,
    key cs _ empty_inv.1 ?_⟩
  intro e he
  simp [Registry.empty] at he

/-! ## Unregistration -/

/-- An identifier that no entry has is rejected, and the registry stays. -/
theorem unregister_bad (R : Registry) (id : hid_t) (h : ∀ e ∈ R.entries, e.id ≠ id) :
    H5VLunregister R id = { ret := .FAIL .H5E_BADTYPE, reg := R } := by
  unfold H5VLunregister
  rw [(verify_none_iff R id).2 h]

/-- The release of an entry that holds one reference succeeds and removes
exactly the entry. -/
theorem unregister_live (R : Registry) (h : R.wf) (e : Entry) (he : e ∈ R.entries)
    (hr : e.refs = 1) :
    H5VLunregister R e.id =
      { ret := .SUCCEED,
        reg := { R with entries := R.entries.filter (fun x => !(x.id == e.id)) } } := by
  have hf := find_of_mem R.entries h.2.2 e he
  have hle : e.refs ≤ 1 := le_of_eq hr
  have hdec : H5I_dec_app_ref R e.id =
      (0, { R with entries := R.entries.filter (fun x => !(x.id == e.id)) }) := by
    unfold H5I_dec_app_ref
    rw [hf]
    dsimp only
    rw [if_pos hle]
  unfold H5VLunregister H5I_object_verify
  rw [hf, hdec]
  simp

/-- Once the entry with a name is removed, no entry has the name. -/
theorem no_name_after_removal (R : Registry) (hu : R.uniqueNames) (e : Entry)
    (he : e ∈ R.entries) (name : String) (hn : e.cls.name = some name) :
    ¬ Registry.hasName { R with entries := R.entries.filter (fun x => !(x.id == e.id)) } name := by
  rintro ⟨x, hx, hxn⟩
  have hx' := List.mem_filter.1 hx
  have hne : x.id ≠ e.id := by simpa using hx'.2
  have hxe : x ≠ e := fun hc => hne (by rw [hc])
  have hsym : Symmetric (fun a b : Entry => a.cls.name ≠ b.cls.name) :=
    fun _ _ hab => Ne.symm hab
  exact List.Pairwise.forall hsym hu hx'.1 he hxe (by rw [hxn, hn])

/-- Removing entries keeps a registry well formed. -/
theorem filter_wf (R : Registry) (h : R.wf) (p : Entry → Bool) :
    Registry.wf { R with entries := R.entries.filter p } :=
  ⟨h.1, fun x hx => h.2.1 x (List.mem_of_mem_filter hx), h.2.2.sublist (List.filter_sublist _)⟩

/-- The entries of a well-formed registry survive the removal of an
identifier that is not handed out yet. -/
theorem filter_next (R : Registry) (h : R.wf) (c : H5VL_class_t) :
    (R.entries ++ [({ id := R.next, cls := c, refs := 1 } : Entry)]).filter
      (fun x => !(x.id == R.next)) = R.entries := by
  rw [List.filter_append]
  have h1 : R.entries.filter (fun x => !(x.id == R.next)) = R.entries := by
    rw [List.filter_eq_self]
    intro a ha
    have : a.id ≠ R.next := ne_of_lt (h.2.1 a ha).2.1
    simpa using this
  rw [h1]
  simp

/-- The release of the identifier a registration has just returned. -/
theorem unregister_fresh (R : Registry) (cls : Option H5VL_class_t) (ok : Bool) (h : R.wf)
    (he : (H5VLregister R cls ok).err = none) :
    H5VLunregister (H5VLregister R cls ok).reg (H5VLregister R cls ok).ret =
      { ret := .SUCCEED, reg := { entries := R.entries, next := R.next + 1 } } := by
  have hwf := register_wf R cls ok h
  obtain ⟨c, name, _, _, _, _, hret, hreg⟩ := register_ok R cls ok h he
  rw [hreg] at hwf
  rw [hret, hreg]
  have hmem : ({ id := R.next, cls := c, refs := 1 } : Entry) ∈
      R.entries ++ [({ id := R.next, cls := c, refs := 1 } : Entry)] :=
    List.mem_append_right _ (List.mem_singleton_self _)
  have := unregister_live _ hwf _ hmem rfl
  dsimp only at this
  rw [this, filter_next R h c]

/-! ## The sample registries -/

/-- The sample registry with `nativeDriver` is well formed. -/
theorem regNative_wf : regNative.wf := by
  refine ⟨by decide, ?_, List.pairwise_singleton _ _⟩
  intro e he
  have : e = { id := 0, cls := nativeDriver, refs := 1 } := by simpa [regNative] using he
  subst this
  exact ⟨by decide, by decide, le_refl _⟩

/-- The sample registry with `nativeDriver` has the name `"native"`. -/
theorem regNative_hasName : regNative.hasName "native" :=
  ⟨{ id := 0, cls := nativeDriver, refs := 1 }, List.mem_singleton_self _, rfl⟩

/-- A descriptor whose name is the empty string is rejected. -/
theorem register_empty_name (R : Registry) (c : H5VL_class_t) (ok : Bool)
    (hn : c.name = some "") :
    H5VLregister R (some c) ok =
      { ret := H5I_INVALID_HID, err := some .H5E_CANTREGISTER, reg := R } := by
  unfold H5VLregister
  simp only [hn]
  rfl

/-- After a registration without error the name of the descriptor is in the
registry. -/
theorem register_hasName (R : Registry) (c : H5VL_class_t) (ok : Bool) (name : String)
    (h : R.wf) (hn : c.name = some name) (he : (H5VLregister R (some c) ok).err = none) :
    (H5VLregister R (some c) ok).reg.hasName name := by
  obtain ⟨c1, _, hc, _, _, _, _, hreg⟩ := register_ok R (some c) ok h he
  have hcc : c = c1 := Option.some.inj hc
  subst hcc
  rw [hreg]
  exact ⟨_, List.mem_append_right _ (List.mem_singleton_self _), hn⟩

/-- What `H5VLis_registered` answers, in one equation. -/
theorem is_registered_eq (R : Registry) (name : String) (h : R.wf) :
    H5VLis_registered R name = if R.hasName name then .TRUE else .FALSE := by
  by_cases hn : R.hasName name
  · rw [if_pos hn]; exact (is_registered_iff R name h).1.2 hn
  · rw [if_neg hn]; exact (is_registered_iff R name h).2.2 hn

/-! ## The hooks -/

/-- What `H5VLinitialize` does for a registered descriptor with a hook. -/
theorem initialize_with_hook (R : Registry) (driver_id arg : hid_t) (cls : H5VL_class_t)
    (hook : hid_t → Int) (hv : H5I_object_verify R driver_id = some cls)
    (hh : cls.initialize_hook = some hook) :
    H5VLinitialize R driver_id arg =
      { ret := if hook arg < 0 then .FAIL .H5E_CANTCLOSEOBJ else .SUCCEED,
        calls := [.initialize_hook arg] } := by
  unfold H5VLinitialize
  simp only [hv, hh]
  by_cases hc : hook arg < 0
  · rw [if_pos hc, if_pos hc]
  · rw [if_neg hc, if_neg hc]

/-- What `H5VLterminate` does for a registered descriptor with a hook. -/
theorem terminate_with_hook (R : Registry) (driver_id arg : hid_t) (cls : H5VL_class_t)
    (hook : hid_t → Int) (hv : H5I_object_verify R driver_id = some cls)
    (hh : cls.terminate_hook = some hook) :
    H5VLterminate R driver_id arg =
      { ret := if hook arg < 0 then .FAIL .H5E_CANTCLOSEOBJ else .SUCCEED,
        calls := [.terminate_hook arg] } := by
  unfold H5VLterminate
  simp only [hv, hh]
  by_cases hc : hook arg < 0
  · rw [if_pos hc, if_pos hc]
  · rw [if_neg hc, if_neg hc]

/-- Without a hook, and for an identifier that is not registered, nothing is
invoked. -/
theorem hooks_absent (R : Registry) (driver_id arg : hid_t) :
    (∀ cls, H5I_object_verify R driver_id = some cls →
      (cls.initialize_hook = none →
        H5VLinitialize R driver_id arg = { ret := .SUCCEED, calls := [] }) ∧
      (cls.terminate_hook = none →
        H5VLterminate R driver_id arg = { ret := .SUCCEED, calls := [] })) ∧
    (H5I_object_verify R driver_id = none →
      H5VLinitialize R driver_id arg = { ret := .FAIL .H5E_BADTYPE, calls := [] } ∧
      H5VLterminate R driver_id arg = { ret := .FAIL .H5E_BADTYPE, calls := [] }) := by
  refine ⟨fun cls hv => ⟨fun hh => ?_, fun hh => ?_⟩, fun hv => ⟨?_, ?_⟩⟩
  · unfold H5VLinitialize; simp only [hv, hh]
  · unfold H5VLterminate; simp only [hv, hh]
  · unfold H5VLinitialize; simp only [hv]
  · unfold H5VLterminate; simp only [hv]

/-- The status of a hooked call, read off the result of the hook. -/
theorem hook_status (x : Int) :
    ((if x < 0 then herr_t.FAIL .H5E_CANTCLOSEOBJ else herr_t.SUCCEED) =
        .FAIL .H5E_CANTCLOSEOBJ ↔ x < 0) ∧
    ((if x < 0 then herr_t.FAIL .H5E_CANTCLOSEOBJ else herr_t.SUCCEED) = .SUCCEED ↔
        ¬ x < 0) := by
  by_cases hc : x < 0
  · rw [if_pos hc]; simp [hc]
  · rw [if_neg hc]; simp [hc]

/-! ## The entry points for `specific` and `optional` -/

/-- Twelve of the fourteen entry points raise `H5E_UNSUPPORTED` whatever the
arguments. -/
theorem dispatch_unsupported (d : Domain) (a : DispatchArgs) :
    (d ≠ .File → dispatchOptional d a = .FAIL .H5E_UNSUPPORTED) ∧
    (d ≠ .Group → dispatchSpecific d a = .FAIL .H5E_UNSUPPORTED) := by
  cases d <;> exact ⟨fun h => by first | exact absurd rfl h | rfl,
    fun h => by first | exact absurd rfl h | rfl⟩

/-- The entry points `H5VLfile_optional` and `H5VLgroup_specific` succeed
whatever the arguments. -/
theorem dispatch_succeeds (a : DispatchArgs) :
    dispatchOptional .File a = .SUCCEED ∧ dispatchSpecific .Group a = .SUCCEED :=
  ⟨rfl, rfl⟩

/-! ## The claims about the registry and the dispatch -/

/-- C15: `H5VLregister` raises `H5E_CANTREGISTER` when the name of the
descriptor is the empty string, and when an entry of a well-formed registry
has a descriptor with the same name; in both cases it returns
`H5I_INVALID_HID`, no identifier, and the registry is the one before the
call. -/
theorem register_rejects_empty_or_duplicate (R : Registry) (c : H5VL_class_t) (ok : Bool)
    (name : String) (hn : c.name = some name)
    (hbad : name = "" ∨ (R.wf ∧ R.hasName name)) :
    H5VLregister R (some c) ok =
      { ret := H5I_INVALID_HID, err := some .H5E_CANTREGISTER, reg := R } := by
  rcases hbad with h0 | ⟨hwf, hh⟩
  · subst h0
    exact register_empty_name R c ok hn
  · rw [register_named R c ok name hn hwf, if_pos (Or.inr hh)]

/-- Witness for C15: a second registration of the name `"native"`. -/
theorem register_rejects_empty_or_duplicate_witness :
    nativeDriver.name = some "native" ∧
    ("native" = "" ∨ (regNative.wf ∧ regNative.hasName "native")) ∧
    H5VLregister regNative (some nativeDriver) true =
      { ret := H5I_INVALID_HID, err := some .H5E_CANTREGISTER, reg := regNative } :=
  ⟨rfl, Or.inr ⟨regNative_wf, regNative_hasName⟩,
    register_rejects_empty_or_duplicate regNative nativeDriver true "native" rfl
      (Or.inr ⟨regNative_wf, regNative_hasName⟩)⟩

/-- C16: in a well-formed registry `H5VLis_registered(name)` is `TRUE` when
some entry has a descriptor with that name and `FALSE` otherwise, never an
error; it is `TRUE` after a registration of a descriptor with that name that
raises no error; and once an entry has the name it stays `TRUE` after every
sequence of calls (registrations that fail included) none of which is an
`H5VLunregister` or `H5VLclose` of the identifier of that entry. -/
theorem is_registered_tracks_names (R : Registry) (name : String) (h : R.wf) :
    H5VLis_registered R name = (if R.hasName name then .TRUE else .FALSE) ∧
    (∀ (c : H5VL_class_t) (ok : Bool), c.name = some name →
      (H5VLregister R (some c) ok).err = none →
      H5VLis_registered (H5VLregister R (some c) ok).reg name = .TRUE) ∧
    (∀ e ∈ R.entries, e.cls.name = some name →
      ∀ cs : List RegistryCall, (∀ c ∈ cs, ¬ c.releases e.id) →
        H5VLis_registered (runCalls R cs) name = .TRUE) := by
  refine ⟨is_registered_eq R name h, ?_, ?_⟩
  · intro c ok hn he
    exact (is_registered_iff _ name (register_wf R (some c) ok h)).1.2
      (register_hasName R c ok name h hn he)
  · intro e he hn cs hcs
    exact (is_registered_iff _ name (runCalls_wf cs R h)).1.2
      ⟨e, mem_runCalls cs e R h he hcs, hn⟩

/-- Witness for C16: the name `"native"` before and after `sampleCalls`. -/
theorem is_registered_tracks_names_witness :
    regNative.wf ∧ H5VLis_registered regNative "native" = .TRUE ∧
    H5VLis_registered (runCalls regNative sampleCalls) "native" = .TRUE := by
  have h := is_registered_tracks_names regNative "native" regNative_wf
  refine ⟨regNative_wf, ?_, ?_⟩
  · rw [h.1, if_pos regNative_hasName]
  · refine h.2.2 { id := 0, cls := nativeDriver, refs := 1 } (List.mem_singleton_self _) rfl
      sampleCalls ?_
    intro c hc
    simp only [sampleCalls, List.mem_cons, List.mem_singleton, List.not_mem_nil, or_false] at hc
    rcases hc with hc | hc | hc <;> subst hc
    · exact fun hf => hf
    · exact fun hf => hf
    · show ¬ ((7 : hid_t) = 0)
      decide

/-- C17: in every registry reached from the empty registry by a sequence of
`H5VLregister`, `H5VLunregister` and `H5VLclose` calls, no two entries have
descriptors with the same name. -/
theorem names_unique_when_reachable (cs : List RegistryCall) :
    (runCalls Registry.empty cs).uniqueNames :=
  (reachable_inv cs).2.1

/-- C18: `H5VLunregister(id)` fails with `H5E_BADTYPE` and leaves the registry
as it was whenever no entry has the identifier; in a registry reached from the
empty one, the release of the identifier that a registration without error has
just returned succeeds and leaves the entries that were there before the
registration, and the release of the identifier of any entry succeeds and
removes exactly the entries with that identifier, the entry itself among them;
`H5VLis_registered` of the name of the entry is `FALSE` afterwards. -/
theorem unregister_removes_entry (R : Registry) (cs : List RegistryCall) :
    (∀ id : hid_t, (∀ e ∈ R.entries, e.id ≠ id) →
      H5VLunregister R id = { ret := .FAIL .H5E_BADTYPE, reg := R }) ∧
    (∀ (c : H5VL_class_t) (ok : Bool) (name : String), c.name = some name →
      (H5VLregister (runCalls Registry.empty cs) (some c) ok).err = none →
      (H5VLunregister (H5VLregister (runCalls Registry.empty cs) (some c) ok).reg
          (H5VLregister (runCalls Registry.empty cs) (some c) ok).ret).ret = .SUCCEED ∧
      (H5VLunregister (H5VLregister (runCalls Registry.empty cs) (some c) ok).reg
          (H5VLregister (runCalls Registry.empty cs) (some c) ok).ret).reg.entries =
        (runCalls Registry.empty cs).entries ∧
      H5VLis_registered
        (H5VLunregister (H5VLregister (runCalls Registry.empty cs) (some c) ok).reg
          (H5VLregister (runCalls Registry.empty cs) (some c) ok).ret).reg name = .FALSE) ∧
    (∀ e ∈ (runCalls Registry.empty cs).entries,
      (H5VLunregister (runCalls Registry.empty cs) e.id).ret = .SUCCEED ∧
      (H5VLunregister (runCalls Registry.empty cs) e.id).reg.entries =
        (runCalls Registry.empty cs).entries.filter (fun x => !(x.id == e.id)) ∧
      e ∉ (H5VLunregister (runCalls Registry.empty cs) e.id).reg.entries ∧
      ∀ name : String, e.cls.name = some name →
        H5VLis_registered (H5VLunregister (runCalls Registry.empty cs) e.id).reg name =
          .FALSE) := by
  obtain ⟨hwf, hu, hr⟩ := reachable_inv cs
  refine ⟨fun id h => unregister_bad R id h, ?_, ?_⟩
  · intro c ok name hn he
    obtain ⟨c1, n1, hc, hn1, _, hnot, _, _⟩ := register_ok _ (some c) ok hwf he
    have hcc : c = c1 := Option.some.inj hc
    subst hcc
    have hnn : name = n1 := Option.some.inj (hn.symm.trans hn1)
    subst hnn
    rw [unregister_fresh _ (some c) ok hwf he]
    refine ⟨rfl, rfl, ?_⟩
    have hwf2 : Registry.wf
        { entries := (runCalls Registry.empty cs).entries,
          next := (runCalls Registry.empty cs).next + 1 } :=
      ⟨le_trans hwf.1 (le_of_lt (Int.lt_succ _)),
        fun x hx => ⟨(hwf.2.1 x hx).1, lt_trans (hwf.2.1 x hx).2.1 (Int.lt_succ _),
          (hwf.2.1 x hx).2.2⟩, hwf.2.2⟩
    exact (is_registered_iff _ name hwf2).2.2 hnot
  · intro e he
    rw [unregister_live _ hwf e he (hr e he)]
    refine ⟨rfl, rfl, ?_, ?_⟩
    · intro hmem
      have := (List.mem_filter.1 hmem).2
      simp at this
    · intro name hn
      exact (is_registered_iff _ name (filter_wf _ hwf _)).2.2
        (no_name_after_removal _ hu e he name hn)

/-- Witness for C18: the release of an identifier never handed out, and of
the identifier 0 after the registration of `nativeDriver`. -/
theorem unregister_removes_entry_witness :
    H5VLunregister regNative 7 = { ret := .FAIL .H5E_BADTYPE, reg := regNative } ∧
    (H5VLunregister (runCalls Registry.empty [.register (some nativeDriver) true]) 0).ret =
      .SUCCEED ∧
    H5VLis_registered
      (H5VLunregister (runCalls Registry.empty [.register (some nativeDriver) true]) 0).reg
      "native" = .FALSE := by
  have h1 := (unregister_removes_entry regNative []).1 7 (by
    intro e he
    have : e = { id := 0, cls := nativeDriver, refs := 1 } := by simpa [regNative] using he
    subst this
    decide)
  have h2 := (unregister_removes_entry regNative [.register (some nativeDriver) true]).2.2
    { id := 0, cls := nativeDriver, refs := 1 } (List.mem_singleton_self _)
  exact ⟨h1, h2.1, h2.2.2.2 "native" rfl⟩

/-- C19: for an identifier that `H5I_object_verify` resolves to a descriptor,
`H5VLinitialize` (`H5VLterminate`) invokes the initialize (terminate) hook of
the descriptor once, with the argument given, when the hook is present, and
fails exactly when the result of the hook is negative; when the hook is absent
it succeeds and invokes nothing; for an identifier that is not resolved it
fails with `H5E_BADTYPE` and invokes nothing. -/
theorem hooks_invoked_once (R : Registry) (driver_id arg : hid_t) :
    (∀ cls, H5I_object_verify R driver_id = some cls →
      (∀ hook, cls.initialize_hook = some hook →
        ( H5VLinitialize R driver_id arg).calls = [.initialize_hook arg] ∧
        (( H5VLinitialize R driver_id arg).ret = .FAIL .H5E_CANTCLOSEOBJ ↔ hook arg < 0) ∧
        (( H5VLinitialize R driver_id arg).ret = .SUCCEED ↔ ¬ hook arg < 0)) ∧
      (cls.initialize_hook = none →
        H5VLinitialize R driver_id arg = { ret := .SUCCEED, calls := [] }) ∧
      (∀ hook, cls.terminate_hook = some hook →
        (H5VLterminate R driver_id arg).calls = [.terminate_hook arg] ∧
        ((H5VLterminate R driver_id arg).ret = .FAIL .H5E_CANTCLOSEOBJ ↔ hook arg < 0) ∧
        ((H5VLterminate R driver_id arg).ret = .SUCCEED ↔ ¬ hook arg < 0)) ∧
      (cls.terminate_hook = none →
        H5VLterminate R driver_id arg = { ret := .SUCCEED, calls := [] })) ∧
    (H5I_object_verify R driver_id = none →
      H5VLinitialize R driver_id arg = { ret := .FAIL .H5E_BADTYPE, calls := [] } ∧
      H5VLterminate R driver_id arg = { ret := .FAIL .H5E_BADTYPE, calls := [] }) := by
  refine ⟨fun cls hv => ⟨?_, ((hooks_absent R driver_id arg).1 cls hv).1, ?_,
    ((hooks_absent R driver_id arg).1 cls hv).2⟩, (hooks_absent R driver_id arg).2⟩
  · intro hook hh
    rw [initialize_with_hook R driver_id arg cls hook hv hh]
    exact ⟨rfl, (hook_status (hook arg)).1, (hook_status (hook arg)).2⟩
  · intro hook hh
    rw [terminate_with_hook R driver_id arg cls hook hv hh]
    exact ⟨rfl, (hook_status (hook arg)).1, (hook_status (hook arg)).2⟩

/-- Witness for C19: the hooks of `hookedDriver`, the absent hooks of
`nativeDriver`, and an identifier that is not registered. -/
theorem hooks_invoked_once_witness :
    H5VLinitialize regHooked 0 5 = { ret := .SUCCEED, calls := [.initialize_hook 5] } ∧
    H5VLinitialize regHooked 0 (-5) =
      { ret := .FAIL .H5E_CANTCLOSEOBJ, calls := [.initialize_hook (-5)] } ∧
    (H5VLterminate regHooked 0 5).calls = [.terminate_hook 5] ∧
    H5VLterminate regNative 0 5 = { ret := .SUCCEED, calls := [] } ∧
    H5VLinitialize regNative 3 5 = { ret := .FAIL .H5E_BADTYPE, calls := [] } :=
  ⟨rfl, rfl,
    (((hooks_invoked_once regHooked 0 5).1 hookedDriver rfl).2.2.1 (fun _ => -1) rfl).1,
    ((hooks_invoked_once regNative 0 5).1 nativeDriver rfl).2.2.2 rfl,
    ((hooks_invoked_once regNative 3 5).2 rfl).1⟩

/-- C20 (failing input): for the backend `nativeDriver`, registered under
identifier 0, whose function table has no entry at all, the entry point of the
domain File for `optional` and that of the domain Group for `specific` return
`SUCCEED`, not `H5E_UNSUPPORTED`; they do so for all arguments, while the
other twelve entry points raise `H5E_UNSUPPORTED` for all arguments. -/
theorem file_optional_group_specific_succeed :
    (H5I_object_verify regNative sampleArgs.driver_id).isSome = true ∧
    (nativeDriver.table .File .Optional).isNone = true ∧
    (nativeDriver.table .Group .Specific).isNone = true ∧
    dispatchOptional .File sampleArgs = .SUCCEED ∧
    dispatchSpecific .Group sampleArgs = .SUCCEED ∧
    (∀ a : DispatchArgs,
      dispatchOptional .File a = .SUCCEED ∧ dispatchSpecific .Group a = .SUCCEED) ∧
    (∀ (d : Domain) (a : DispatchArgs),
      (d ≠ .File → dispatchOptional d a = .FAIL .H5E_UNSUPPORTED) ∧
      (d ≠ .Group → dispatchSpecific d a = .FAIL .H5E_UNSUPPORTED)) :=
  ⟨rfl, rfl, rfl, rfl, rfl, dispatch_succeeds, dispatch_unsupported⟩

/-! ## The dispatch entry points -/

/-- What every entry point returns, whatever its arguments. -/
theorem entry_result (e : EntryPoint) (a : EntryArgs) :
    e.call a =
      if e = .file_optional ∨ e = .group_get ∨ e = .group_specific then .status .SUCCEED
      else if e.returnsObject = true then .object (.NULL .H5E_UNSUPPORTED)
      else .status (.FAIL .H5E_UNSUPPORTED) := by
  cases e <;> rfl

/-- An entry point other than the three that succeed raises
`H5E_UNSUPPORTED`. -/
theorem entry_unsupported (e : EntryPoint) (a : EntryArgs)
    (h1 : e ≠ .file_optional) (h2 : e ≠ .group_get) (h3 : e ≠ .group_specific) :
    e.call a =
      if e.returnsObject = true then .object (.NULL .H5E_UNSUPPORTED)
      else .status (.FAIL .H5E_UNSUPPORTED) := by
  rw [entry_result e a, if_neg]
  rintro (h | h | h)
  · exact h1 h
  · exact h2 h
  · exact h3 h

/-- What an unimplemented entry point returns is neither success nor
`H5E_BADTYPE`. -/
theorem unsupported_ne (b : Bool) :
    (if b = true then EntryResult.object (.NULL .H5E_UNSUPPORTED)
      else EntryResult.status (.FAIL .H5E_UNSUPPORTED)) ≠ .status .SUCCEED ∧
    (if b = true then EntryResult.object (.NULL .H5E_UNSUPPORTED)
      else EntryResult.status (.FAIL .H5E_UNSUPPORTED)) ≠ .status (.FAIL .H5E_BADTYPE) ∧
    (if b = true then EntryResult.object (.NULL .H5E_UNSUPPORTED)
      else EntryResult.status (.FAIL .H5E_UNSUPPORTED)) ≠ .object (.NULL .H5E_BADTYPE) := by
  cases b <;> decide

/-- C21, as amended: for every dispatch entry point other than
`H5VLfile_optional`, `H5VLgroup_get` and `H5VLgroup_specific`, in every
registry and so whether or not the descriptor identified by `driver_id` has an
implementation for the domain and verb, the call invokes no implementation and
returns `H5E_UNSUPPORTED` (with a `NULL` object for the calls that return an
object), which is not success. -/
theorem dispatch_never_forwards (R : Registry) (e : EntryPoint) (a : EntryArgs)
    (h1 : e ≠ .file_optional) (h2 : e ≠ .group_get) (h3 : e ≠ .group_specific) :
    (callEntry R e a).invoked = [] ∧
    (callEntry R e a).ret =
      (if e.returnsObject = true then .object (.NULL .H5E_UNSUPPORTED)
        else .status (.FAIL .H5E_UNSUPPORTED)) ∧
    (callEntry R e a).ret ≠ .status .SUCCEED := by
  have h := entry_unsupported e a h1 h2 h3
  refine ⟨rfl, h, ?_⟩
  show e.call a ≠ _
  rw [h]
  exact (unsupported_ne _).1

/-- Witness for C21: `H5VLdataset_read` on the descriptor `implDriver`, which
has an implementation of `Read` for datasets. -/
theorem dispatch_never_forwards_witness :
    (implDriver.table .Dataset .Read).isSome = true ∧
    (callEntry regImpl .dataset_read sampleEntryArgs).invoked = [] ∧
    (callEntry regImpl .dataset_read sampleEntryArgs).ret = .status (.FAIL .H5E_UNSUPPORTED) :=
  ⟨rfl,
   (dispatch_never_forwards regImpl .dataset_read sampleEntryArgs (by decide) (by decide)
     (by decide)).1,
   (dispatch_never_forwards regImpl .dataset_read sampleEntryArgs (by decide) (by decide)
     (by decide)).2.1⟩

/-- Counterexample to C21 as stated: the descriptor registered under
identifier 0 has an implementation of `Read` for datasets, which returns 0
(success) on the arguments of the call; `H5VLdataset_read` with that
`driver_id` invokes nothing and returns `H5E_UNSUPPORTED`, not the result of
the implementation. -/
theorem dispatch_forward_counterexample :
    (H5I_object_verify regImpl sampleEntryArgs.driver_id).isSome = true ∧
    (∃ impl, implDriver.table .Dataset .Read = some impl ∧
      impl sampleEntryArgs.arguments = 0) ∧
    (callEntry regImpl .dataset_read sampleEntryArgs).invoked = [] ∧
    (callEntry regImpl .dataset_read sampleEntryArgs).ret = .status (.FAIL .H5E_UNSUPPORTED) ∧
    (callEntry regImpl .dataset_read sampleEntryArgs).ret ≠ .status .SUCCEED :=
  ⟨rfl, ⟨fun _ => 0, rfl, rfl⟩, rfl, rfl, by decide⟩

/-- C22, as amended: for every dispatch entry point that takes a `driver_id`,
other than `H5VLfile_optional`, `H5VLgroup_get` and `H5VLgroup_specific`, a
call whose `driver_id` does not refer to a registered descriptor fails with
`H5E_UNSUPPORTED`, not with `H5E_BADTYPE`: the identifier is never resolved,
and the call returns what it returns in every other registry and for every
other argument. -/
theorem stray_driver_id_unsupported (R : Registry) (e : EntryPoint) (a : EntryArgs)
    (h1 : e ≠ .file_optional) (h2 : e ≠ .group_get) (h3 : e ≠ .group_specific) :
    (e.takesDriverId = true → H5I_object_verify R a.driver_id = none →
      (callEntry R e a).ret =
        (if e.returnsObject = true then .object (.NULL .H5E_UNSUPPORTED)
          else .status (.FAIL .H5E_UNSUPPORTED)) ∧
      (callEntry R e a).ret ≠ .status (.FAIL .H5E_BADTYPE) ∧
      (callEntry R e a).ret ≠ .object (.NULL .H5E_BADTYPE)) ∧
    (∀ (R1 : Registry) (a1 : EntryArgs), (callEntry R1 e a1).ret = (callEntry R e a).ret) := by
  have h := entry_unsupported e a h1 h2 h3
  constructor
  · intro _ _
    refine ⟨h, ?_, ?_⟩
    · show e.call a ≠ _
      rw [h]
      exact (unsupported_ne _).2.1
    · show e.call a ≠ _
      rw [h]
      exact (unsupported_ne _).2.2
  · intro R1 a1
    show e.call a1 = e.call a
    rw [h, entry_unsupported e a1 h1 h2 h3]

/-- Witness for C22: `H5VLdataset_get` with the identifier 7 in the empty
registry, and with the identifier 0 of a registered descriptor. -/
theorem stray_driver_id_unsupported_witness :
    EntryPoint.dataset_get.takesDriverId = true ∧
    H5I_object_verify Registry.empty strayEntryArgs.driver_id = none ∧
    (callEntry Registry.empty .dataset_get strayEntryArgs).ret =
      .status (.FAIL .H5E_UNSUPPORTED) ∧
    (callEntry regNative .dataset_get sampleEntryArgs).ret =
      (callEntry Registry.empty .dataset_get strayEntryArgs).ret :=
  ⟨rfl, rfl,
   ((stray_driver_id_unsupported Registry.empty .dataset_get strayEntryArgs (by decide)
     (by decide) (by decide)).1 rfl rfl).1,
   (stray_driver_id_unsupported Registry.empty .dataset_get strayEntryArgs (by decide)
     (by decide) (by decide)).2 regNative sampleEntryArgs⟩

/-- Counterexample to C22 as stated: in the empty registry the identifier 7
refers to no descriptor, `H5VLdataset_get` takes a `driver_id`, and the call
with that identifier fails with `H5E_UNSUPPORTED`, not with `H5E_BADTYPE`. -/
theorem stray_driver_id_counterexample :
    (H5I_object_verify Registry.empty strayEntryArgs.driver_id).isNone = true ∧
    EntryPoint.dataset_get.takesDriverId = true ∧
    (callEntry Registry.empty .dataset_get strayEntryArgs).ret =
      .status (.FAIL .H5E_UNSUPPORTED) ∧
    (callEntry Registry.empty .dataset_get strayEntryArgs).ret ≠
      .status (.FAIL .H5E_BADTYPE) :=
  ⟨rfl, rfl, rfl, by decide⟩

/-- C30: every dispatch entry point, the three request calls included,
returns a value that does not depend on its arguments nor on the registry,
invokes no implementation of a descriptor and leaves the registry as it was;
the value is `H5E_UNSUPPORTED`, with a `NULL` object and no handle for the
calls that return an object, except for exactly `H5VLfile_optional`,
`H5VLgroup_get` and `H5VLgroup_specific`, which return `SUCCEED`. -/
theorem entry_points_are_constant (R R1 : Registry) (e : EntryPoint) (a a1 : EntryArgs) :
    (callEntry R e a).ret = (callEntry R1 e a1).ret ∧
    (callEntry R e a).invoked = [] ∧
    (callEntry R e a).reg = R ∧
    (callEntry R e a).ret =
      (if e = .file_optional ∨ e = .group_get ∨ e = .group_specific then .status .SUCCEED
        else if e.returnsObject = true then .object (.NULL .H5E_UNSUPPORTED)
        else .status (.FAIL .H5E_UNSUPPORTED)) ∧
    ((callEntry R e a).ret = .status .SUCCEED ↔
      e = .file_optional ∨ e = .group_get ∨ e = .group_specific) := by
  have h := entry_result e a
  refine ⟨?_, rfl, rfl, h, ?_⟩
  · show e.call a = e.call a1
    rw [h, entry_result e a1]
  · show e.call a = _ ↔ _
    rw [h]
    by_cases hc : e = .file_optional ∨ e = .group_get ∨ e = .group_specific
    · rw [if_pos hc]
      exact ⟨fun _ => hc, fun _ => rfl⟩
    · rw [if_neg hc]
      exact ⟨fun hs => absurd hs (unsupported_ne _).1, fun h2 => absurd h2 hc⟩

end H5VL
